import Mathlib

/-!
# TrenchBroom grid snapping: a shallow embedding

Embedding of `Core/Source/Controller/Grid.cpp` and the scalar helpers of
`Core/Source/Utilities/VecMath.h`.

* `float` values are rationals (`ℚ`); the NaN sentinel of the intersection routines is `none`
  in an `Option ℚ`. The definitions of the namespaces `Math`, `Vec3f`, `Plane` and `Grid` read
  every `float` operation as exact, which is the reading of the statements made "in exact
  arithmetic". The namespace `Binary32` evaluates the scalar snap functions, the grid-ray
  intersection and the move delta with every operation rounded to the nearest `float`.
* `unsigned int` values are natural numbers reduced modulo `2 ^ 32`.
-/

namespace TrenchBroom

/-! ## Math (VecMath.h) -/

namespace Math

/-- The constant `Math::AlmostZero = 0.001f`. -/
def AlmostZero : ℚ := 1 / 1000

/-- The function `Math::fround`: `f > 0.0f ? floor(f + 0.5f) : ceil(f - 0.5f)`. -/
def fround (f : ℚ) : ℚ :=
  if f > 0 then ((⌊f + 1 / 2⌋ : ℤ) : ℚ) else ((⌈f - 1 / 2⌉ : ℤ) : ℚ)

/-- The function `Math::fzero`: `fabsf(f) <= AlmostZero`. -/
def fzero (f : ℚ) : Bool := decide (|f| ≤ AlmostZero)

/-- The function `Math::fpos`: `f > AlmostZero`. -/
def fpos (f : ℚ) : Bool := decide (f > AlmostZero)

/-- The function `Math::fneg`: `f < -AlmostZero`. -/
def fneg (f : ℚ) : Bool := decide (f < -AlmostZero)

end Math

/-! ## Geometric primitives (VecMath.h declares them; their bodies are not in the sources) -/

/-- The class `Vec3f`: three `float` components. -/
structure Vec3f where
  x : ℚ
  y : ℚ
  z : ℚ
  deriving DecidableEq, Repr

namespace Vec3f

/-- Modelled from the spec: the constant `Vec3f::PosX`, the unit vector of the X axis. -/
def PosX : Vec3f := ⟨1, 0, 0⟩

/-- Modelled from the spec: the constant `Vec3f::PosY`, the unit vector of the Y axis. -/
def PosY : Vec3f := ⟨0, 1, 0⟩

/-- Modelled from the spec: the constant `Vec3f::PosZ`, the unit vector of the Z axis. -/
def PosZ : Vec3f := ⟨0, 0, 1⟩

/-- Modelled from the spec: the constant `Vec3f::Null`, the null vector. -/
def Null : Vec3f := ⟨0, 0, 0⟩

/-- Modelled from the spec: `Vec3f::operator[]` (read), components in the order x, y, z. -/
def get (v : Vec3f) (i : Nat) : ℚ :=
  match i with
  | 0 => v.x
  | 1 => v.y
  | _ => v.z

/-- Modelled from the spec: `Vec3f::operator[]` (write), components in the order x, y, z. -/
def set (v : Vec3f) (i : Nat) (f : ℚ) : Vec3f :=
  match i with
  | 0 => { v with x := f }
  | 1 => { v with y := f }
  | _ => { v with z := f }

/-- Modelled from the spec: `Vec3f::operator+`, componentwise sum. -/
def add (a b : Vec3f) : Vec3f := ⟨a.x + b.x, a.y + b.y, a.z + b.z⟩

/-- Modelled from the spec: `Vec3f::operator-`, componentwise difference. -/
def sub (a b : Vec3f) : Vec3f := ⟨a.x - b.x, a.y - b.y, a.z - b.z⟩

/-- Modelled from the spec: `Vec3f::operator*`, scaling by a `float`. -/
def scale (a : Vec3f) (f : ℚ) : Vec3f := ⟨a.x * f, a.y * f, a.z * f⟩

/-- Modelled from the spec: `Vec3f::operator|`, the dot product. -/
def dot (a b : Vec3f) : ℚ := a.x * b.x + a.y * b.y + a.z * b.z

/-- Modelled from the spec: `Vec3f::lengthSquared`, the dot product of a vector with itself. -/
def lengthSquared (a : Vec3f) : ℚ := a.dot a

end Vec3f

/-- The class `Ray`: an origin and a direction. -/
structure Ray where
  origin : Vec3f
  direction : Vec3f
  deriving DecidableEq, Repr

/-- Modelled from the spec: `Ray::pointAtDistance`, the point `origin + direction * distance`. -/
def Ray.pointAtDistance (ray : Ray) (distance : ℚ) : Vec3f :=
  ray.origin.add (ray.direction.scale distance)

/-- The class `BBox`: the corners `min` and `max`. -/
structure BBox where
  min : Vec3f
  max : Vec3f
  deriving DecidableEq, Repr

/-- The class `Plane`: a normal and a distance, in Hesse normal form. -/
structure Plane where
  normal : Vec3f
  distance : ℚ
  deriving DecidableEq, Repr

namespace Plane

/-- Modelled from the spec: the constructor `Plane(normal, anchor)`; in Hesse normal form
`normal · anchor = distance`. -/
def ofAnchor (normal anchor : Vec3f) : Plane := ⟨normal, anchor.dot normal⟩

/-- Modelled from the spec: `Plane::intersectWithRay`, whose body is not in the sources. It
solves `normal · (origin + t·direction) = distance` for `t` and returns NaN (`none`) when
`normal · direction` is within epsilon of zero, or when the solved `t` is negative. -/
def intersectWithRay (p : Plane) (ray : Ray) : Option ℚ :=
  let d : ℚ := ray.direction.dot p.normal
  if Math.fzero d then none
  else
    let t : ℚ := (p.distance - ray.origin.dot p.normal) / d
    if t < 0 then none else some t

end Plane

/-! ## Float operations on values that may be NaN -/

namespace Math

/-- The function `Math::isnan`. -/
def isnan (f : Option ℚ) : Bool := f.isNone

/-- The function `fabsf` on a value that may be NaN. -/
def fabsf (f : Option ℚ) : Option ℚ := f.map (fun v => |v|)

/-- The comparison `<` of two `float`s: false as soon as one side is NaN. -/
def flt (a b : Option ℚ) : Bool :=
  match a, b with
  | some u, some v => decide (u < v)
  | _, _ => false

end Math

/-! ## Machine integers -/

/-- Width of `unsigned int` and `int`. -/
def wordBits : Nat := 32

/-- Conversion `unsigned int → int` (two's complement reinterpretation). -/
def toInt32 (n : Nat) : Int :=
  if n % 2 ^ wordBits < 2 ^ (wordBits - 1) then ((n % 2 ^ wordBits : Nat) : Int)
  else ((n % 2 ^ wordBits : Nat) : Int) - 2 ^ wordBits

/-! ## Grid (Grid.cpp) -/

/-- The state of a `Grid`: the fields `m_size` and `m_snap`. -/
structure Grid where
  m_size : Nat
  m_snap : Bool
  deriving DecidableEq, Repr

namespace Grid

/-- The method `Grid::actualSize`: `m_snap ? 1 << m_size : 1`, as an `unsigned int`. -/
def actualSize (g : Grid) : Nat :=
  if g.m_snap then (1 <<< g.m_size) % 2 ^ wordBits else 1

/-- The local `int actSize = actualSize();` of the scalar snap functions. -/
def actSize (g : Grid) : Int := toInt32 g.actualSize

/-- The method `Grid::snap(float)`, in exact arithmetic: `actSize * Math::fround(f / actSize)`.
With every operation rounded it is `Binary32.snap`. -/
def snap (g : Grid) (f : ℚ) : ℚ :=
  (g.actSize : ℚ) * Math.fround (f / (g.actSize : ℚ))

/-- The method `Grid::snapUp(float, bool)`, in exact arithmetic; the flag `skip` is not read.
With every operation rounded it is `Binary32.snapUp`. -/
def snapUp (g : Grid) (f : ℚ) (_skip : Bool) : ℚ :=
  let s : ℚ := (g.actSize : ℚ) * ((⌈f / (g.actSize : ℚ)⌉ : ℤ) : ℚ)
  if s = f then s + (g.actualSize : ℚ) else s

/-- The method `Grid::snapDown(float, bool)`, in exact arithmetic; the flag `skip` is not read.
With every operation rounded it is `Binary32.snapDown`. -/
def snapDown (g : Grid) (f : ℚ) (_skip : Bool) : ℚ :=
  let s : ℚ := (g.actSize : ℚ) * ((⌊f / (g.actSize : ℚ)⌋ : ℤ) : ℚ)
  if s = f then s - (g.actualSize : ℚ) else s


/-- The method `Grid::snapTowards`; its calls of `snapUp` and `snapDown` leave the flag `skip`
to its default, written `false` here (the flag is not read). -/
def snapTowards (g : Grid) (p d : Vec3f) : Vec3f :=
  { x := if Math.fpos d.x then g.snapUp p.x false
         else if Math.fneg d.x then g.snapDown p.x false
         else g.snap p.x
    y := if Math.fpos d.y then g.snapUp p.y false
         else if Math.fneg d.y then g.snapDown p.y false
         else g.snap p.y
    z := if Math.fpos d.z then g.snapUp p.z false
         else if Math.fneg d.z then g.snapDown p.z false
         else g.snap p.z }

/-- The product `skip * actualSize()` of two `unsigned int`s. -/
def skipOffset (g : Grid) (skip : Nat) : Nat := (skip * g.actualSize) % 2 ^ wordBits

/-- The vector `planeAnchor` built at the start of `Grid::intersectWithRay`, in exact
arithmetic. With every operation rounded it is `Binary32.planeAnchor`. -/
def planeAnchor (g : Grid) (ray : Ray) (skip : Nat) : Vec3f :=
  { x := if ray.direction.x > 0 then g.snapUp ray.origin.x true + (g.skipOffset skip : ℚ)
         else g.snapDown ray.origin.x true - (g.skipOffset skip : ℚ)
    y := if ray.direction.y > 0 then g.snapUp ray.origin.y true + (g.skipOffset skip : ℚ)
         else g.snapDown ray.origin.y true - (g.skipOffset skip : ℚ)
    z := if ray.direction.z > 0 then g.snapUp ray.origin.z true + (g.skipOffset skip : ℚ)
         else g.snapDown ray.origin.z true - (g.skipOffset skip : ℚ) }

/-- The selection `if (!isnan(c) && (isnan(dist) || fabsf(c) < fabsf(dist))) dist = c;`. -/
def pickCloser (dist c : Option ℚ) : Option ℚ :=
  if !Math.isnan c && (Math.isnan dist || Math.flt (Math.fabsf c) (Math.fabsf dist)) then c
  else dist

/-- The method `Grid::intersectWithRay`, in exact arithmetic; NaN is `none`. With every
operation rounded it is `Binary32.intersectWithRay`. -/
def intersectWithRay (g : Grid) (ray : Ray) (skip : Nat) : Option ℚ :=
  let anchor := g.planeAnchor ray skip
  let distX := (Plane.ofAnchor Vec3f.PosX anchor).intersectWithRay ray
  let distY := (Plane.ofAnchor Vec3f.PosY anchor).intersectWithRay ray
  let distZ := (Plane.ofAnchor Vec3f.PosZ anchor).intersectWithRay ray
  let dist := distX
  let dist := pickCloser dist distY
  let dist := pickCloser dist distZ
  dist

/-- One pass of the loop body of `Grid::moveDelta`, for the axis `i`. -/
def moveDeltaStep (g : Grid) (bounds : BBox) (delta : Vec3f) (i : Nat) : Vec3f :=
  let low : ℚ := g.snap (bounds.min.get i + delta.get i) - bounds.min.get i
  let high : ℚ := g.snap (bounds.max.get i + delta.get i) - bounds.max.get i
  if low ≠ 0 ∧ high ≠ 0 then delta.set i (if |high| < |low| then high else low)
  else if low ≠ 0 then delta.set i low
  else if high ≠ 0 then delta.set i high
  else delta.set i 0

/-- The loop `for (int i = 0; i < 3; i++)` of `Grid::moveDelta`: the delta before the
overshoot check. -/
def moveDeltaSnapped (g : Grid) (bounds : BBox) (referencePoint curMousePoint : Vec3f) : Vec3f :=
  [0, 1, 2].foldl (g.moveDeltaStep bounds) (curMousePoint.sub referencePoint)

/-- The method `Grid::moveDelta`, in exact arithmetic; the argument `worldBounds` is not read.
With every operation rounded it is `Binary32.moveDelta`. -/
def moveDelta (g : Grid) (bounds _worldBounds : BBox) (referencePoint curMousePoint : Vec3f) :
    Vec3f :=
  let delta := g.moveDeltaSnapped bounds referencePoint curMousePoint
  if (curMousePoint.sub referencePoint).lengthSquared
      < (curMousePoint.sub (referencePoint.add delta)).lengthSquared then Vec3f.Null
  else delta

/-- One coordinate of `planeAnchor`, for an origin coordinate `o` and a direction
component `d`. -/
def anchorCoord (g : Grid) (o d : ℚ) (skip : Nat) : ℚ :=
  if d > 0 then g.snapUp o true + (g.skipOffset skip : ℚ)
  else g.snapDown o true - (g.skipOffset skip : ℚ)

/-- The distance that `Grid::intersectWithRay` obtains for one axis, written out: NaN when
the direction component is within epsilon of zero, else the ray parameter of the anchor
coordinate. Used to state what the three `Plane::intersectWithRay` calls return. -/
def axisDist (g : Grid) (o d : ℚ) (skip : Nat) : Option ℚ :=
  if |d| ≤ Math.AlmostZero then none else some ((g.anchorCoord o d skip - o) / d)

end Grid

/-- The offset `low` that `Grid::moveDelta` computes on axis `i` from the raw delta
`curMousePoint - referencePoint`: `snap(bounds.min[i] + delta[i]) - bounds.min[i]`. -/
def Grid.moveDeltaLow (g : Grid) (bounds : BBox) (referencePoint curMousePoint : Vec3f)
    (i : Nat) : ℚ :=
  g.snap (bounds.min.get i + (curMousePoint.sub referencePoint).get i) - bounds.min.get i

/-- The offset `high` that `Grid::moveDelta` computes on axis `i` from the raw delta
`curMousePoint - referencePoint`: `snap(bounds.max[i] + delta[i]) - bounds.max[i]`. -/
def Grid.moveDeltaHigh (g : Grid) (bounds : BBox) (referencePoint curMousePoint : Vec3f)
    (i : Nat) : ℚ :=
  g.snap (bounds.max.get i + (curMousePoint.sub referencePoint).get i) - bounds.max.get i

/-- The value that the loop body of `Grid::moveDelta` stores on an axis, from the two offsets
`low` and `high` of that axis (the four branches of the `if` chain). -/
def Grid.moveDeltaPick (low high : ℚ) : ℚ :=
  if low ≠ 0 ∧ high ≠ 0 then (if |high| < |low| then high else low)
  else if low ≠ 0 then low
  else if high ≠ 0 then high
  else 0

/-- The proposition that the point `p` lies on a grid plane of `g`: one of its three
coordinates is an integer multiple of `actualSize()`. -/
def OnGridPlane (g : Grid) (p : Vec3f) : Prop :=
  ∃ i : Fin 3, ∃ k : ℤ, p.get i.val = (k : ℚ) * (g.actualSize : ℚ)

/-- The reading of "nearest forward intersection with the grid lattice": `t` is the least
positive ray parameter at which the point of the ray lies on a grid plane. -/
def IsNearestLatticeHit (g : Grid) (ray : Ray) (t : ℚ) : Prop :=
  0 < t ∧ OnGridPlane g (ray.pointAtDistance t) ∧
    ∀ u : ℚ, 0 < u → OnGridPlane g (ray.pointAtDistance u) → t ≤ u

/-- The proposition that the point `ray.pointAtDistance t` lies on a grid plane of `g` that the
ray crosses: an axis whose direction component is not within epsilon of zero has its coordinate
on an integer multiple of `actualSize()`. -/
def OnCrossedGridPlane (g : Grid) (ray : Ray) (t : ℚ) : Prop :=
  ∃ i : Fin 3, Math.AlmostZero < |ray.direction.get i.val| ∧
    ∃ k : ℤ, (ray.pointAtDistance t).get i.val = (k : ℚ) * (g.actualSize : ℚ)


/-! ## Machine integers of `moveDistance` -/

/-- Conversion `int → unsigned int`: the value modulo `2 ^ 32`. -/
def toUInt32 (i : Int) : Nat := (i % (2 ^ wordBits : Int)).toNat

/-- The result of an `int` operation, reduced to the range of `int`. -/
def wrapInt32 (i : Int) : Int := toInt32 (toUInt32 i)

/-- The conversion `static_cast<int>(float)`: truncation toward zero. -/
def truncToInt (f : ℚ) : Int := wrapInt32 (if 0 ≤ f then ⌊f⌋ else ⌈f⌉)

/-- The function `Math::imax`: `i1 < i2 ? i2 : i1`. -/
def Math.imax (i1 i2 : Int) : Int := if i1 < i2 then i2 else i1

/-- The function `Math::feq`: `fabsf(f1 - f2) < AlmostZero`. -/
def Math.feq (f1 f2 : ℚ) : Bool := decide (|f1 - f2| < Math.AlmostZero)

/-- The constant `std::numeric_limits<float>::max()`, `(2 - 2^-23) * 2^127`. -/
def floatMax : ℚ := (2 ^ 24 - 1) * 2 ^ 104

/-! ## More of the vector algebra (declared in VecMath.h; bodies not in the sources) -/

namespace Vec3f

/-- Modelled from the spec: the constant `Vec3f::NegX`, the negated unit vector of the X axis. -/
def NegX : Vec3f := ⟨-1, 0, 0⟩

/-- Modelled from the spec: the constant `Vec3f::NegY`, the negated unit vector of the Y axis. -/
def NegY : Vec3f := ⟨0, -1, 0⟩

/-- Modelled from the spec: the constant `Vec3f::NegZ`, the negated unit vector of the Z axis. -/
def NegZ : Vec3f := ⟨0, 0, -1⟩

/-- Modelled from the spec: `Vec3f::firstAxis`, the signed unit axis vector of the component
with the largest absolute value, ties broken in the order X before Y before Z. -/
def firstAxis (v : Vec3f) : Vec3f :=
  if |v.y| ≤ |v.x| ∧ |v.z| ≤ |v.x| then (if v.x > 0 then PosX else NegX)
  else if |v.z| ≤ |v.y| then (if v.y > 0 then PosY else NegY)
  else (if v.z > 0 then PosZ else NegZ)

/-- Modelled from the spec: `Vec3f::equals`, a comparison through the fixed-tolerance layer,
component by component. -/
def equals (a b : Vec3f) : Bool := Math.feq a.x b.x && Math.feq a.y b.y && Math.feq a.z b.z

end Vec3f

/-- The largest `k ≤ b` with `k * k ≤ n`. -/
def natSqrtAux (n : Nat) : Nat → Nat
  | 0 => 0
  | k + 1 => if (k + 1) * (k + 1) ≤ n then k + 1 else natSqrtAux n k

/-- The integer square root, rounded down. -/
def natSqrt (n : Nat) : Nat := natSqrtAux n n

/-- The square root of a rational whose numerator and denominator are perfect squares (on other
arguments both roots are rounded down). -/
def ratSqrt (q : ℚ) : ℚ := (natSqrt q.num.toNat : ℚ) / (natSqrt q.den : ℚ)

/-- Modelled from the spec: `Vec3f::length`, on vectors whose length is rational. -/
def Vec3f.length (v : Vec3f) : ℚ := ratSqrt v.lengthSquared

/-- Modelled from the spec: `Vec3f::normalize`, the vector divided by its length, on vectors
whose length is rational; there it returns unit length, as the spec asks of `normalize()` on a
non-null vector. -/
def Vec3f.normalizeRational (v : Vec3f) : Vec3f := v.scale (1 / v.length)

/-- Modelled from the spec: `Plane::anchor`, the point `normal * distance` of the plane. -/
def Plane.anchor (p : Plane) : Vec3f := p.normal.scale p.distance

/-- Modelled from the spec: `Plane::equals`, a comparison of normal and distance through the
fixed-tolerance layer. -/
def Plane.equals (p q : Plane) : Bool := p.normal.equals q.normal && Math.feq p.distance q.distance

/-! ## Face geometry read by `Grid::moveDistance` (Model/Map; not in the sources) -/

/-- The class `Model::Vertex` as `moveDistance` reads it: the identity of the object, by which
two `Vertex*` compare, and its `position`. -/
structure Vertex where
  addr : Nat
  position : Vec3f
  deriving DecidableEq, Repr

/-- The class `Model::Edge` as `moveDistance` reads it: the vertices that `start` and `end`
point to. -/
structure Edge where
  start : Vertex
  end_ : Vertex
  deriving DecidableEq, Repr

/-- The class `Model::Face` as `moveDistance` reads it: `boundary`, the edge list
`brush->geometry->edges` and the vertex list `side->vertices`. -/
structure Face where
  boundary : Plane
  brushEdges : List Edge
  sideVertices : List Vertex
  deriving DecidableEq, Repr

/-- Search of a pointer in a vertex list from position `i` on. -/
def indexOfFrom (v : Vertex) : List Vertex → Int → Int
  | [], _ => -1
  | w :: ws, i => if w.addr = v.addr then i else indexOfFrom v ws (i + 1)

/-- Modelled from the spec: `indexOf(list, pointer)`, the position of the pointer in the list
and `-1` when it is not there; it decides whether an endpoint is "among the face's own
vertices". -/
def indexOf (vs : List Vertex) (v : Vertex) : Int := indexOfFrom v vs 0

/-- Modelled from the spec: the boundary plane of the trial copy of a face after
`testFace.move(dist, false)`: the plane moved by `dist` along its normal. -/
def Face.movedBoundary (face : Face) (dist : ℚ) : Plane :=
  Plane.ofAnchor face.boundary.normal (face.boundary.anchor.add (face.boundary.normal.scale dist))

/-- The two things `moveDistance` calls whose bodies are not in the sources:
`Vec3f::normalize`, and the test `!testFace.boundary.equals(face.boundary)` on the copy
`testFace` of `face` after `testFace.move(dist, false)`. -/
structure Helpers where
  normalize : Vec3f → Vec3f
  boundaryChanges : Face → ℚ → Bool

/-- Modelled from the spec: the helpers as the spec describes them, `normalize` on vectors of
rational length and the boundary test on the plane moved along its normal. -/
def specHelpers : Helpers :=
  { normalize := Vec3f.normalizeRational
    boundaryChanges := fun face dist => !((face.movedBoundary dist).equals face.boundary) }

namespace Grid

/-- The body of the loop over `brushEdges` in `Grid::moveDistance`: the ray pushed for `edge`,
if one is. -/
def edgeRayOf (ops : Helpers) (face : Face) (dist : ℚ) (edge : Edge) : Option Ray :=
  let found : Nat × Bool :=
    if indexOf face.sideVertices edge.start ≠ -1 then (0 + 1, false)
    else if indexOf face.sideVertices edge.end_ ≠ -1 then (0 + 1, true)
    else (0, false)
  if found.1 = 1 then
    let ray : Ray :=
      if found.2 then
        ⟨edge.end_.position, ops.normalize (edge.start.position.sub edge.end_.position)⟩
      else
        ⟨edge.start.position, ops.normalize (edge.end_.position.sub edge.start.position)⟩
    some (if dist > 0 then ⟨ray.origin, ray.direction.scale (-1)⟩ else ray)
  else none

/-- The vector `edgeRays` of `Grid::moveDistance`. -/
def edgeRays (ops : Helpers) (face : Face) (dist : ℚ) : List Ray :=
  face.brushEdges.filterMap (edgeRayOf ops face dist)

/-- The initial `gridSkip` of `Grid::moveDistance`:
`imax(0, static_cast<int>(normDelta | normDelta.firstAxis()) / actualSize() - 1)`, where the
division and the subtraction are done on `unsigned int`. -/
def initialGridSkip (g : Grid) (normDelta : Vec3f) : Int :=
  Math.imax 0
    (toInt32 ((toUInt32 (truncToInt (normDelta.dot normDelta.firstAxis)) / g.actualSize
      + (2 ^ wordBits - 1)) % 2 ^ wordBits))

/-- The value `vertexNormDist` of the search loop, for one ray at one skip count:
`(ray.direction * intersectWithRay(ray, gridSkip)) | face.boundary.normal`; NaN is `none`. -/
def vertexNormDist (g : Grid) (face : Face) (ray : Ray) (gridSkip : Int) : Option ℚ :=
  (g.intersectWithRay ray (toUInt32 gridSkip)).map
    (fun vertexDist => (ray.direction.scale vertexDist).dot face.boundary.normal)

/-- The body of the `for` loop of the search, on the state `(gridSkip, actualDist)`. -/
def searchStep (ops : Helpers) (g : Grid) (face : Face) (st : Int × ℚ) (ray : Ray) : Int × ℚ :=
  let vnd := g.vertexNormDist face ray st.1
  let actualDist : ℚ :=
    match vnd with
    | some v =>
      if Math.flt (Math.fabsf (some v)) (Math.fabsf (some st.2)) && ops.boundaryChanges face v
      then v else st.2
    | none => st.2
  (wrapInt32 (st.1 + 1), actualDist)

/-- One run of the `for` loop over all edge rays. -/
def searchPass (ops : Helpers) (g : Grid) (face : Face) (rays : List Ray) (st : Int × ℚ) :
    Int × ℚ :=
  rays.foldl (searchStep ops g face) st

/-- The `do ... while (actualDist == max)` loop of `Grid::moveDistance`, run for at most `fuel`
passes; `none` when the passes run out before the loop exits. -/
def searchLoop (ops : Helpers) (g : Grid) (face : Face) (rays : List Ray) :
    Nat → Int × ℚ → Option ℚ
  | 0, _ => none
  | fuel + 1, st =>
    let st1 := searchPass ops g face rays st
    if st1.2 = floatMax then searchLoop ops g face rays fuel st1 else some st1.2

/-- The method `Grid::moveDistance`, with at most `fuel` passes of the search loop. The result
is `none` when the passes run out; otherwise it holds the returned `float` (NaN is `none`) and
the value of the reference parameter `delta` on return. -/
def moveDistance (ops : Helpers) (g : Grid) (face : Face) (delta : Vec3f) (fuel : Nat) :
    Option (Option ℚ × Vec3f) :=
  let dist : ℚ := delta.dot face.boundary.normal
  if Math.fzero dist then some (none, delta)
  else
    let rays := edgeRays ops face dist
    let normDelta := face.boundary.normal.scale dist
    let gridSkip := g.initialGridSkip normDelta
    match searchLoop ops g face rays fuel (gridSkip, floatMax) with
    | none => none
    | some actualDist =>
      if |actualDist| > |dist| then some (none, delta)
      else
        let normDelta := face.boundary.normal.scale actualDist
        let deltaNormalized := ops.normalize delta
        some (some actualDist, deltaNormalized.scale (normDelta.dot deltaNormalized))

end Grid

namespace Grid

/-- The test of the search loop on a candidate distance `c` while `actualDist` is still the
sentinel: `fabsf(c) < fabsf(max)` and the trial move by `c` changes the boundary. -/
def Accepts (ops : Helpers) (face : Face) (c : ℚ) : Prop :=
  |c| < floatMax ∧ ops.boundaryChanges face c = true

/-- The value of `gridSkip` after `k` executions of `gridSkip++`. -/
def skipAfter : Nat → Int → Int
  | 0, s => s
  | k + 1, s => skipAfter k (wrapInt32 (s + 1))

/-- The value of `gridSkip` at the start of pass `p` of the search loop (passes counted from 0),
when the first pass starts at `s`. -/
def passStart (rays : List Ray) : Int → Nat → Int
  | s, 0 => s
  | s, p + 1 => passStart rays (skipAfter rays.length s) p

/-- The values `vertexNormDist` that one pass of the search loop computes, in order, when the
pass starts with `gridSkip = s`: the ray at position `j` is probed at `skipAfter j s`. -/
def passCandidates (g : Grid) (face : Face) : List Ray → Int → List (Option ℚ)
  | [], _ => []
  | ray :: rest, s => g.vertexNormDist face ray s :: passCandidates g face rest (wrapInt32 (s + 1))

end Grid

/-- The proposition that every brush edge leaving a vertex of the face leads to a vertex on or
behind the boundary plane, as in a convex brush whose face normals point outwards. -/
def Face.EdgesLeadBehind (face : Face) : Prop :=
  ∀ edge ∈ face.brushEdges,
    (indexOf face.sideVertices edge.start ≠ -1 →
      (edge.end_.position.sub edge.start.position).dot face.boundary.normal ≤ 0) ∧
    (indexOf face.sideVertices edge.start = -1 → indexOf face.sideVertices edge.end_ ≠ -1 →
      (edge.start.position.sub edge.end_.position).dot face.boundary.normal ≤ 0)

/-! ## Sample brushes -/

/-- Corner `i` of the square with corners `(0, 0, 0)` and `(4, 4, 0)` in the plane `z = 0`. -/
def squareCorner (i : Nat) : Vertex :=
  match i with
  | 0 => ⟨0, ⟨0, 0, 0⟩⟩
  | 1 => ⟨1, ⟨4, 0, 0⟩⟩
  | 2 => ⟨2, ⟨4, 4, 0⟩⟩
  | _ => ⟨3, ⟨0, 4, 0⟩⟩

/-- The face on that square with normal `+Z`, in a brush whose other four vertices are at the
positions `far 0` to `far 3`: the brush edges are, in this order, the edge from each corner `i`
to the vertex at `far i`, the four edges of the square, and the four edges joining the other
vertices. -/
def squareFaceOver (far : Nat → Vec3f) : Face :=
  { boundary := ⟨Vec3f.PosZ, 0⟩
    brushEdges :=
      [⟨squareCorner 0, ⟨4, far 0⟩⟩, ⟨squareCorner 1, ⟨5, far 1⟩⟩,
       ⟨squareCorner 2, ⟨6, far 2⟩⟩, ⟨squareCorner 3, ⟨7, far 3⟩⟩,
       ⟨squareCorner 0, squareCorner 1⟩, ⟨squareCorner 1, squareCorner 2⟩,
       ⟨squareCorner 2, squareCorner 3⟩, ⟨squareCorner 3, squareCorner 0⟩,
       ⟨⟨4, far 0⟩, ⟨5, far 1⟩⟩, ⟨⟨5, far 1⟩, ⟨6, far 2⟩⟩,
       ⟨⟨6, far 2⟩, ⟨7, far 3⟩⟩, ⟨⟨7, far 3⟩, ⟨4, far 0⟩⟩]
    sideVertices := [squareCorner 0, squareCorner 1, squareCorner 2, squareCorner 3] }

/-- The corners with the z coordinate set to `z` and the x, y coordinates pushed outwards
by `w`. -/
def ringAt (w z : ℚ) (i : Nat) : Vec3f :=
  match i with
  | 0 => ⟨-w, -w, z⟩
  | 1 => ⟨4 + w, -w, z⟩
  | 2 => ⟨4 + w, 4 + w, z⟩
  | _ => ⟨-w, 4 + w, z⟩

/-- The top face of an axis-aligned box: the base is the same square at `z = -4`. -/
def boxTop : Face := squareFaceOver (ringAt 0 (-4))

/-- The top face of a frustum: the base is the square with corners `(-8, -8, -4)` and
`(12, 12, -4)`, so that the side edges have length 12 and direction `(∓2, ∓2, -1) / 3`. -/
def frustumTop : Face := squareFaceOver (ringAt 8 (-4))

/-- The same square face on a solid that lies in front of it: the other vertices are at
`z = 4`, on the side the normal points to. -/
def funnelFloor : Face := squareFaceOver (ringAt 8 4)

/-- The same square face on a flat solid: the other vertices lie in the plane of the face, the
x coordinates pushed outwards by 4. -/
def flatPatch : Face :=
  squareFaceOver (fun i => match i with
    | 0 => ⟨-4, 0, 0⟩
    | 1 => ⟨8, 0, 0⟩
    | 2 => ⟨8, 4, 0⟩
    | _ => ⟨-4, 4, 0⟩)

/-! ## Grid size and drag plane (Grid.cpp, DragPlane.cpp) -/

/-- The method `Grid::setSize`, for a value `MaxSize` of the constant of that name (declared in
the absent Grid.h): the state after the call, and whether `gridDidChange(*this)` was emitted. -/
def Grid.setSize (MaxSize : Nat) (g : Grid) (size : Nat) : Grid × Bool :=
  if g.m_size = size then (g, false)
  else
    ((if size > MaxSize then { g with m_size := MaxSize } else { g with m_size := size }), true)

/-- The state after a sequence of calls of `Grid::setSize`, one for each requested size. -/
def Grid.setSizes (MaxSize : Nat) (g : Grid) (sizes : List Nat) : Grid :=
  sizes.foldl (fun st size => (Grid.setSize MaxSize st size).1) g

/-- The state `(gridSkip, actualDist)` of the search loop of `Grid::moveDistance` after `n`
passes that did not leave the loop. -/
def Grid.searchStateAfter (ops : Helpers) (g : Grid) (face : Face) (rays : List Ray) :
    Nat → Int × ℚ → Int × ℚ
  | 0, st => st
  | n + 1, st => Grid.searchStateAfter ops g face rays n (Grid.searchPass ops g face rays st)

/-- The class `DragPlane`: the field `m_normal`. -/
structure DragPlane where
  m_normal : Vec3f
  deriving DecidableEq, Repr

namespace DragPlane

/-- The constructor `DragPlane::DragPlane()`: `m_normal(Vec3f::PosZ)`. -/
def default : DragPlane := ⟨Vec3f.PosZ⟩

/-- The constructor `DragPlane::DragPlane(const Vec3f& normal)`: `m_normal(normal.firstAxis())`. -/
def ofNormal (normal : Vec3f) : DragPlane := ⟨normal.firstAxis⟩

/-- The method `DragPlane::normal`. -/
def normal (p : DragPlane) : Vec3f := p.m_normal

/-- The method `DragPlane::intersect`. -/
def intersect (p : DragPlane) (ray : Ray) (planePosition : Vec3f) : Option ℚ :=
  (Plane.ofAnchor p.m_normal planePosition).intersectWithRay ray

end DragPlane

/-- Width of `size_t`. -/
def sizeBits : Nat := 64

/-- Conversion `int → size_t`, as at the call `gameList[index]`: the value modulo `2 ^ 64`. -/
def toSizeT (i : Int) : Nat := (i % (2 ^ sizeBits : Int)).toNat

/-- The empty string returned by `selectedGameName`. -/
def emptyName : String := ""

/-- The method `GameListBox::selectedGameName`, for the value `currentRow` of `currentRow()` and
the list `gameList` of the game factory. The result is `none` when `gameList[index]` reads
outside the list, which the C++ leaves undefined. -/
def GameListBox.selectedGameName (currentRow : Int) (gameList : List String) : Option String :=
  let index : Int := currentRow
  if index ≥ toInt32 gameList.length then some emptyName
  else gameList.get? (toSizeT index)

/-- The guard of the sibling `GameListBox::currentRowChanged`, `index >= 0 && index < count()`:
the test under which that method reads `m_gameInfos[index]`. -/
def GameListBox.rowInRange (index : Int) (count : Int) : Bool :=
  decide (index ≥ 0) && decide (index < count)

/-- A game list with two entries. -/
def sampleGames : List String := [ "Quake", "Hexen 2" ]

/-! ## Binary32 evaluation (IEEE-754 single precision)

The definitions above read every `float` operation as exact. The ones below round the result
of every operation to the nearest `float`: 24 significant bits, ties to even, subnormal values
below `2 ^ (-126)`. A result beyond the largest finite `float`, which the machine replaces by an
infinity, is left as the rounded rational. -/

namespace Binary32

/-- The number of halvings that bring `n` below 2, with at most `fuel` steps. -/
def log2Aux : Nat → Nat → Nat
  | 0, _ => 0
  | fuel + 1, n => if n < 2 then 0 else log2Aux fuel (n / 2) + 1

/-- The position of the leading bit of `n`: the binary logarithm, rounded down. -/
def log2 (n : Nat) : Nat := log2Aux n n

/-- The exponent of the binade of a nonzero value `q`: the integer `e` with
`2 ^ e ≤ |q| < 2 ^ (e + 1)`. -/
def binade (q : ℚ) : ℤ :=
  let e : ℤ := (log2 q.num.natAbs : ℤ) - (log2 q.den : ℤ)
  if (2 : ℚ) ^ e ≤ |q| then e else e - 1

/-- The spacing of the `float` values in the binade of `q`: 24 significant bits, and
`2 ^ (-149)` throughout the subnormal range. -/
def quantum (q : ℚ) : ℚ := (2 : ℚ) ^ max (binade q - 23) (-149)

/-- Rounding to the nearest integer, a tie going to the even neighbour. -/
def roundHalfEven (x : ℚ) : ℤ :=
  if x - (⌊x⌋ : ℚ) < 1 / 2 then ⌊x⌋
  else if 1 / 2 < x - (⌊x⌋ : ℚ) then ⌊x⌋ + 1
  else if ⌊x⌋ % 2 = 0 then ⌊x⌋ else ⌊x⌋ + 1

/-- The `float` that an operation with the exact result `q` delivers: the nearest value with
24 significant bits and an exponent of at least `-149`, ties to even. -/
def rnd (q : ℚ) : ℚ :=
  if q = 0 then 0 else (roundHalfEven (q / quantum q) : ℚ) * quantum q

/-- The conversion of an `int` or an `unsigned int` to `float`. -/
def ofInt (i : ℤ) : ℚ := rnd (i : ℚ)

/-- The constant `Math::AlmostZero = 0.001f`: the `float` nearest to `1/1000`. -/
def AlmostZero : ℚ := rnd (1 / 1000)

/-- The function `Math::fzero` on `float`s: `fabsf(f) <= AlmostZero`. -/
def fzero (f : ℚ) : Bool := decide (|f| ≤ AlmostZero)

/-- The function `Math::fround` in binary32: `f > 0.0f ? floor(f + 0.5f) : ceil(f - 0.5f)`, the
sum and the difference rounded; `floor` and `ceil` of a `float` are `float`s. -/
def fround (f : ℚ) : ℚ :=
  if f > 0 then ((⌊rnd (f + 1 / 2)⌋ : ℤ) : ℚ) else ((⌈rnd (f - 1 / 2)⌉ : ℤ) : ℚ)

/-- The method `Grid::snap(float)` in binary32: the quotient `f / actSize` and the product
`actSize * fround(..)` are rounded. -/
def snap (g : Grid) (f : ℚ) : ℚ :=
  rnd (ofInt g.actSize * fround (rnd (f / ofInt g.actSize)))

/-- The method `Grid::snapUp(float, bool)` in binary32: the quotient `f / actSize`, the product
`actSize * ceil(..)` stored in `s`, and the sum of `s += actualSize()` are rounded. -/
def snapUp (g : Grid) (f : ℚ) (_skip : Bool) : ℚ :=
  let s : ℚ := rnd (ofInt g.actSize * ((⌈rnd (f / ofInt g.actSize)⌉ : ℤ) : ℚ))
  if s = f then rnd (s + ofInt (g.actualSize : ℤ)) else s

/-- The method `Grid::snapDown(float, bool)` in binary32: the quotient `f / actSize`, the
product `actSize * floor(..)` stored in `s`, and the difference of `s -= actualSize()` are
rounded. -/
def snapDown (g : Grid) (f : ℚ) (_skip : Bool) : ℚ :=
  let s : ℚ := rnd (ofInt g.actSize * ((⌊rnd (f / ofInt g.actSize)⌋ : ℤ) : ℚ))
  if s = f then rnd (s - ofInt (g.actualSize : ℤ)) else s

/-- Modelled from the spec: `Vec3f::operator+` in binary32, each component sum rounded. -/
def add (a b : Vec3f) : Vec3f := ⟨rnd (a.x + b.x), rnd (a.y + b.y), rnd (a.z + b.z)⟩

/-- Modelled from the spec: `Vec3f::operator-` in binary32, each component difference
rounded. -/
def sub (a b : Vec3f) : Vec3f := ⟨rnd (a.x - b.x), rnd (a.y - b.y), rnd (a.z - b.z)⟩

/-- Modelled from the spec: `Vec3f::operator|` in binary32, the three products and the two sums
rounded, summed from left to right. -/
def dot (a b : Vec3f) : ℚ := rnd (rnd (rnd (a.x * b.x) + rnd (a.y * b.y)) + rnd (a.z * b.z))

/-- Modelled from the spec: `Vec3f::lengthSquared` in binary32. -/
def lengthSquared (a : Vec3f) : ℚ := dot a a

/-- Modelled from the spec: the constructor `Plane(normal, anchor)` in binary32. -/
def planeOfAnchor (normal anchor : Vec3f) : Plane := ⟨normal, dot anchor normal⟩

/-- Modelled from the spec: `Plane::intersectWithRay` in binary32, the formula of
`Plane.intersectWithRay` with every operation rounded. -/
def planeIntersectWithRay (p : Plane) (ray : Ray) : Option ℚ :=
  let d : ℚ := dot ray.direction p.normal
  if fzero d then none
  else
    let t : ℚ := rnd (rnd (p.distance - dot ray.origin p.normal) / d)
    if t < 0 then none else some t

/-- The vector `planeAnchor` of `Grid::intersectWithRay` in binary32: the product
`skip * actualSize()` of two `unsigned int`s is converted to `float`, and the sum or the
difference is rounded. -/
def planeAnchor (g : Grid) (ray : Ray) (skip : Nat) : Vec3f :=
  { x := if ray.direction.x > 0
         then rnd (snapUp g ray.origin.x true + ofInt (g.skipOffset skip : ℤ))
         else rnd (snapDown g ray.origin.x true - ofInt (g.skipOffset skip : ℤ))
    y := if ray.direction.y > 0
         then rnd (snapUp g ray.origin.y true + ofInt (g.skipOffset skip : ℤ))
         else rnd (snapDown g ray.origin.y true - ofInt (g.skipOffset skip : ℤ))
    z := if ray.direction.z > 0
         then rnd (snapUp g ray.origin.z true + ofInt (g.skipOffset skip : ℤ))
         else rnd (snapDown g ray.origin.z true - ofInt (g.skipOffset skip : ℤ)) }

/-- The method `Grid::intersectWithRay` in binary32; NaN is `none`. -/
def intersectWithRay (g : Grid) (ray : Ray) (skip : Nat) : Option ℚ :=
  let anchor := planeAnchor g ray skip
  let distX := planeIntersectWithRay (planeOfAnchor Vec3f.PosX anchor) ray
  let distY := planeIntersectWithRay (planeOfAnchor Vec3f.PosY anchor) ray
  let distZ := planeIntersectWithRay (planeOfAnchor Vec3f.PosZ anchor) ray
  let dist := distX
  let dist := Grid.pickCloser dist distY
  let dist := Grid.pickCloser dist distZ
  dist

/-- One pass of the loop body of `Grid::moveDelta` in binary32, for the axis `i`: the sums
`bounds.min[i] + delta[i]`, `bounds.max[i] + delta[i]` and the differences stored in `low` and
`high` are rounded. -/
def moveDeltaStep (g : Grid) (bounds : BBox) (delta : Vec3f) (i : Nat) : Vec3f :=
  let low : ℚ := rnd (snap g (rnd (bounds.min.get i + delta.get i)) - bounds.min.get i)
  let high : ℚ := rnd (snap g (rnd (bounds.max.get i + delta.get i)) - bounds.max.get i)
  if low ≠ 0 ∧ high ≠ 0 then delta.set i (if |high| < |low| then high else low)
  else if low ≠ 0 then delta.set i low
  else if high ≠ 0 then delta.set i high
  else delta.set i 0

/-- The loop `for (int i = 0; i < 3; i++)` of `Grid::moveDelta` in binary32: the delta before
the overshoot check. -/
def moveDeltaSnapped (g : Grid) (bounds : BBox) (referencePoint curMousePoint : Vec3f) : Vec3f :=
  [0, 1, 2].foldl (moveDeltaStep g bounds) (sub curMousePoint referencePoint)

/-- The method `Grid::moveDelta` in binary32; the argument `worldBounds` is not read. -/
def moveDelta (g : Grid) (bounds _worldBounds : BBox) (referencePoint curMousePoint : Vec3f) :
    Vec3f :=
  let delta := moveDeltaSnapped g bounds referencePoint curMousePoint
  if lengthSquared (sub curMousePoint referencePoint)
      < lengthSquared (sub curMousePoint (add referencePoint delta)) then Vec3f.Null
  else delta

end Binary32

/-- The ray from `(0.3f, 0.9999f, 0.5f)` along `(1.0f, 0.0005f, 0.0f)`, every component the
`float` nearest to the decimal value. -/
def slantedRay32 : Ray :=
  ⟨⟨Binary32.rnd (3 / 10), Binary32.rnd (9999 / 10000), 1 / 2⟩, ⟨1, Binary32.rnd (1 / 2000), 0⟩⟩

/-! ## Qualifying edges of a face -/

namespace Math

lemma fround_intCast (k : ℤ) : fround (k : ℚ) = (k : ℚ) := by
  unfold fround
  split_ifs with hk
  · have : ⌊(k : ℚ) + 1 / 2⌋ = k := by
      rw [Int.floor_eq_iff]; constructor <;> norm_num
    rw [this]
  · have : ⌈(k : ℚ) - 1 / 2⌉ = k := by
      rw [Int.ceil_eq_iff]; constructor <;> norm_num
    rw [this]

lemma fround_isInt (f : ℚ) : ∃ k : ℤ, fround f = (k : ℚ) := by
  unfold fround
  split_ifs
  · exact ⟨_, rfl⟩
  · exact ⟨_, rfl⟩

lemma fround_sub_le (f : ℚ) : |fround f - f| ≤ 1 / 2 := by
  unfold fround
  rw [abs_le]
  split_ifs with hf
  · have h1 := Int.floor_le (f + 1 / 2)
    have h2 := Int.lt_floor_add_one (f + 1 / 2)
    constructor <;> linarith
  · have h1 := Int.le_ceil (f - 1 / 2)
    have h2 := Int.ceil_lt_add_one (f - 1 / 2)
    constructor <;> linarith

end Math

namespace Grid

lemma actualSize_eq_pow (g : Grid) (h : g.m_size < 31) :
    g.actualSize = if g.m_snap then 2 ^ g.m_size else 1 := by
  unfold actualSize wordBits
  split_ifs
  · rw [Nat.one_shiftLeft]
    apply Nat.mod_eq_of_lt
    calc 2 ^ g.m_size < 2 ^ 31 := Nat.pow_lt_pow_right (by norm_num) h
      _ < 2 ^ 32 := by norm_num
  · rfl

lemma actualSize_bounds (g : Grid) (h : g.m_size < 31) :
    0 < g.actualSize ∧ g.actualSize < 2 ^ 31 := by
  rw [actualSize_eq_pow g h]
  split_ifs
  · exact ⟨Nat.pos_pow_of_pos _ (by norm_num), Nat.pow_lt_pow_right (by norm_num) h⟩
  · norm_num

lemma actSize_eq (g : Grid) (h : g.m_size < 31) : g.actSize = (g.actualSize : ℤ) := by
  obtain ⟨_, h2⟩ := actualSize_bounds g h
  unfold actSize toInt32 wordBits
  have h3 : g.actualSize % 2 ^ 32 = g.actualSize := Nat.mod_eq_of_lt (by omega)
  rw [h3, if_pos (by simpa using h2)]

lemma actSize_cast (g : Grid) (h : g.m_size < 31) : ((g.actSize : ℤ) : ℚ) = (g.actualSize : ℚ) := by
  rw [actSize_eq g h]; simp

lemma actualSize_cast_pos (g : Grid) (h : g.m_size < 31) : (0 : ℚ) < (g.actualSize : ℚ) := by
  exact_mod_cast (actualSize_bounds g h).1

lemma snap_eq (g : Grid) (h : g.m_size < 31) (f : ℚ) :
    g.snap f = (g.actualSize : ℚ) * Math.fround (f / (g.actualSize : ℚ)) := by
  unfold snap; rw [actSize_cast g h]

lemma snapUp_eq (g : Grid) (h : g.m_size < 31) (f : ℚ) (b : Bool) :
    g.snapUp f b =
      if (g.actualSize : ℚ) * ((⌈f / (g.actualSize : ℚ)⌉ : ℤ) : ℚ) = f
      then (g.actualSize : ℚ) * ((⌈f / (g.actualSize : ℚ)⌉ : ℤ) : ℚ) + (g.actualSize : ℚ)
      else (g.actualSize : ℚ) * ((⌈f / (g.actualSize : ℚ)⌉ : ℤ) : ℚ) := by
  unfold snapUp; rw [actSize_cast g h]

lemma snapDown_eq (g : Grid) (h : g.m_size < 31) (f : ℚ) (b : Bool) :
    g.snapDown f b =
      if (g.actualSize : ℚ) * ((⌊f / (g.actualSize : ℚ)⌋ : ℤ) : ℚ) = f
      then (g.actualSize : ℚ) * ((⌊f / (g.actualSize : ℚ)⌋ : ℤ) : ℚ) - (g.actualSize : ℚ)
      else (g.actualSize : ℚ) * ((⌊f / (g.actualSize : ℚ)⌋ : ℤ) : ℚ) := by
  unfold snapDown; rw [actSize_cast g h]

/-- The value of `snapUp` is the least multiple of the grid size strictly above `f`. -/
lemma snapUp_least (g : Grid) (h : g.m_size < 31) (f : ℚ) (b : Bool) :
    (∃ k : ℤ, g.snapUp f b = (k : ℚ) * (g.actualSize : ℚ)) ∧ f < g.snapUp f b ∧
      ∀ m : ℤ, f < (m : ℚ) * (g.actualSize : ℚ) → g.snapUp f b ≤ (m : ℚ) * (g.actualSize : ℚ) := by
  have ha := actualSize_cast_pos g h
  rw [snapUp_eq g h]
  set a : ℚ := (g.actualSize : ℚ) with hadef
  have hc : f ≤ a * ((⌈f / a⌉ : ℤ) : ℚ) := by
    have := Int.le_ceil (f / a)
    rw [div_le_iff₀ ha] at this
    linarith
  split_ifs with hs
  · refine ⟨⟨⌈f / a⌉ + 1, by push_cast; ring⟩, by linarith, ?_⟩
    intro m hm
    have h1 : ((⌈f / a⌉ : ℤ) : ℚ) * a < (m : ℚ) * a := by linarith
    have h2 : ((⌈f / a⌉ : ℤ) : ℚ) < (m : ℚ) := lt_of_mul_lt_mul_right h1 ha.le
    have h3 : ⌈f / a⌉ + 1 ≤ m := by exact_mod_cast h2
    have h4 : ((⌈f / a⌉ : ℤ) : ℚ) + 1 ≤ (m : ℚ) := by exact_mod_cast h3
    nlinarith
  · refine ⟨⟨⌈f / a⌉, by ring⟩, lt_of_le_of_ne hc (Ne.symm hs), ?_⟩
    intro m hm
    have h1 : f / a < (m : ℚ) := by rw [div_lt_iff₀ ha]; exact hm
    have h2 : ⌈f / a⌉ ≤ m := Int.ceil_le.mpr h1.le
    have h3 : ((⌈f / a⌉ : ℤ) : ℚ) ≤ (m : ℚ) := by exact_mod_cast h2
    nlinarith

/-- The value of `snapDown` is the greatest multiple of the grid size strictly below `f`. -/
lemma snapDown_greatest (g : Grid) (h : g.m_size < 31) (f : ℚ) (b : Bool) :
    (∃ k : ℤ, g.snapDown f b = (k : ℚ) * (g.actualSize : ℚ)) ∧ g.snapDown f b < f ∧
      ∀ m : ℤ, (m : ℚ) * (g.actualSize : ℚ) < f → (m : ℚ) * (g.actualSize : ℚ) ≤ g.snapDown f b := by
  have ha := actualSize_cast_pos g h
  rw [snapDown_eq g h]
  set a : ℚ := (g.actualSize : ℚ) with hadef
  have hc : a * ((⌊f / a⌋ : ℤ) : ℚ) ≤ f := by
    have := Int.floor_le (f / a)
    rw [le_div_iff₀ ha] at this
    linarith
  split_ifs with hs
  · refine ⟨⟨⌊f / a⌋ - 1, by push_cast; ring⟩, by linarith, ?_⟩
    intro m hm
    have h1 : (m : ℚ) * a < ((⌊f / a⌋ : ℤ) : ℚ) * a := by linarith
    have h2 : (m : ℚ) < ((⌊f / a⌋ : ℤ) : ℚ) := lt_of_mul_lt_mul_right h1 ha.le
    have h3 : m ≤ ⌊f / a⌋ - 1 := by
      have : m < ⌊f / a⌋ := by exact_mod_cast h2
      omega
    have h4 : (m : ℚ) ≤ ((⌊f / a⌋ : ℤ) : ℚ) - 1 := by exact_mod_cast h3
    nlinarith
  · refine ⟨⟨⌊f / a⌋, by ring⟩, lt_of_le_of_ne hc hs, ?_⟩
    intro m hm
    have h1 : (m : ℚ) < f / a := by rw [lt_div_iff₀ ha]; exact hm
    have h2 : m ≤ ⌊f / a⌋ := Int.le_floor.mpr h1.le
    have h3 : (m : ℚ) ≤ ((⌊f / a⌋ : ℤ) : ℚ) := by exact_mod_cast h2
    nlinarith

end Grid

namespace Math

lemma fround_half (n : ℤ) :
    fround ((n : ℚ) + 1 / 2) = if 0 ≤ n then (n : ℚ) + 1 else (n : ℚ) := by
  unfold fround
  by_cases hn : 0 ≤ n
  · have hq : (0 : ℚ) ≤ (n : ℚ) := by exact_mod_cast hn
    rw [if_pos (by linarith), if_pos hn]
    have : ⌊(n : ℚ) + 1 / 2 + 1 / 2⌋ = n + 1 := by
      rw [Int.floor_eq_iff]; push_cast; constructor <;> linarith
    rw [this]; push_cast; ring
  · have hn1 : n + 1 ≤ 0 := by omega
    have hq : (n : ℚ) + 1 ≤ 0 := by exact_mod_cast hn1
    rw [if_neg (by linarith), if_neg hn]
    have : ⌈(n : ℚ) + 1 / 2 - 1 / 2⌉ = n := by
      rw [Int.ceil_eq_iff]; constructor <;> linarith
    rw [this]

end Math

/-! ## Auxiliary facts: the grid-ray intersection -/

namespace Grid

lemma skipOffset_multiple (g : Grid) (h : g.m_size < 31) (skip : Nat) :
    ∃ j : ℕ, g.skipOffset skip = j * g.actualSize := by
  have hd : g.actualSize ∣ 2 ^ 32 := by
    rw [actualSize_eq_pow g h]
    split_ifs
    · exact pow_dvd_pow 2 (by omega)
    · exact one_dvd _
  have hdvd : g.actualSize ∣ g.skipOffset skip := by
    unfold skipOffset wordBits
    exact (Nat.dvd_mod_iff hd).mpr (Dvd.intro_left _ rfl)
  obtain ⟨j, hj⟩ := hdvd
  exact ⟨j, by rw [hj, mul_comm]⟩

lemma anchorCoord_multiple (g : Grid) (h : g.m_size < 31) (o d : ℚ) (skip : Nat) :
    ∃ k : ℤ, g.anchorCoord o d skip = (k : ℚ) * (g.actualSize : ℚ) := by
  obtain ⟨j, hj⟩ := skipOffset_multiple g h skip
  unfold anchorCoord
  split_ifs
  · obtain ⟨k, hk⟩ := (snapUp_least g h o true).1
    exact ⟨k + j, by rw [hk, hj]; push_cast; ring⟩
  · obtain ⟨k, hk⟩ := (snapDown_greatest g h o true).1
    exact ⟨k - j, by rw [hk, hj]; push_cast; ring⟩

lemma anchorCoord_gt (g : Grid) (h : g.m_size < 31) (o d : ℚ) (skip : Nat) (hd : 0 < d) :
    o < g.anchorCoord o d skip := by
  have h1 := (snapUp_least g h o true).2.1
  have h2 : (0 : ℚ) ≤ (g.skipOffset skip : ℚ) := Nat.cast_nonneg _
  unfold anchorCoord
  rw [if_pos hd]; linarith

lemma anchorCoord_lt (g : Grid) (h : g.m_size < 31) (o d : ℚ) (skip : Nat) (hd : ¬ 0 < d) :
    g.anchorCoord o d skip < o := by
  have h1 := (snapDown_greatest g h o true).2.1
  have h2 : (0 : ℚ) ≤ (g.skipOffset skip : ℚ) := Nat.cast_nonneg _
  unfold anchorCoord
  rw [if_neg hd]; linarith

lemma almostZero_pos : (0 : ℚ) < Math.AlmostZero := by unfold Math.AlmostZero; norm_num

lemma axis_param_pos (g : Grid) (h : g.m_size < 31) (o d : ℚ) (skip : Nat)
    (hd : ¬ |d| ≤ Math.AlmostZero) : 0 < (g.anchorCoord o d skip - o) / d := by
  have hε := almostZero_pos
  by_cases hpos : 0 < d
  · exact div_pos (by linarith [anchorCoord_gt g h o d skip hpos]) hpos
  · have hne : d ≠ 0 := by
      rintro rfl
      exact hd (by simpa using hε.le)
    have hneg : d < 0 := lt_of_le_of_ne (not_lt.mp hpos) hne
    exact div_pos_of_neg_of_neg (by linarith [anchorCoord_lt g h o d skip hpos]) hneg

lemma axisDist_pos (g : Grid) (h : g.m_size < 31) (o d : ℚ) (skip : Nat) (t : ℚ)
    (ht : g.axisDist o d skip = some t) : 0 < t := by
  unfold axisDist at ht
  split_ifs at ht with hd
  cases ht
  exact axis_param_pos g h o d skip hd

lemma axisDist_crossed (g : Grid) (o d : ℚ) (skip : Nat) (t : ℚ)
    (ht : g.axisDist o d skip = some t) : Math.AlmostZero < |d| := by
  unfold axisDist at ht
  split_ifs at ht with hd
  exact not_le.mp hd

lemma axisDist_isSome (g : Grid) (o d : ℚ) (skip : Nat) (hd : Math.AlmostZero < |d|) :
    ∃ t, g.axisDist o d skip = some t := by
  unfold axisDist
  rw [if_neg (not_le.mpr hd)]
  exact ⟨_, rfl⟩

lemma axisDist_on_grid (g : Grid) (h : g.m_size < 31) (o d : ℚ) (skip : Nat) (t : ℚ)
    (ht : g.axisDist o d skip = some t) :
    ∃ k : ℤ, o + d * t = (k : ℚ) * (g.actualSize : ℚ) := by
  have hε := almostZero_pos
  unfold axisDist at ht
  split_ifs at ht with hd
  cases ht
  have hne : d ≠ 0 := by
    rintro rfl
    exact hd (by simpa using hε.le)
  obtain ⟨k, hk⟩ := anchorCoord_multiple g h o d skip
  exact ⟨k, by rw [← hk]; field_simp⟩

lemma axisDist_least (g : Grid) (h : g.m_size < 31) (o d : ℚ) (t : ℚ)
    (ht : g.axisDist o d 0 = some t) (u : ℚ) (hu : 0 < u)
    (hgrid : ∃ k : ℤ, o + d * u = (k : ℚ) * (g.actualSize : ℚ)) : t ≤ u := by
  have hε := almostZero_pos
  unfold axisDist at ht
  split_ifs at ht with hd
  cases ht
  have hne : d ≠ 0 := by
    rintro rfl
    exact hd (by simpa using hε.le)
  obtain ⟨k, hk⟩ := hgrid
  have hoff : ((g.skipOffset 0 : ℕ) : ℚ) = 0 := by simp [skipOffset]
  by_cases hpos : 0 < d
  · have h1 : o < (k : ℚ) * (g.actualSize : ℚ) := by rw [← hk]; nlinarith
    have h2 := (snapUp_least g h o true).2.2 k h1
    rw [div_le_iff₀ hpos]
    unfold anchorCoord
    rw [if_pos hpos, hoff]
    linarith
  · have hneg : d < 0 := lt_of_le_of_ne (not_lt.mp hpos) hne
    have h1 : (k : ℚ) * (g.actualSize : ℚ) < o := by rw [← hk]; nlinarith
    have h2 := (snapDown_greatest g h o true).2.2 k h1
    rw [div_le_iff_of_neg hneg]
    unfold anchorCoord
    rw [if_neg hpos, hoff]
    linarith

lemma fzero_iff (d : ℚ) : Math.fzero d = true ↔ |d| ≤ Math.AlmostZero := by
  unfold Math.fzero; simp

lemma plane_intersect_eq (g : Grid) (h : g.m_size < 31) (o d A : ℚ) (skip : Nat)
    (hA : A = g.anchorCoord o d skip) :
    (if Math.fzero d = true then (none : Option ℚ)
      else if (A - o) / d < 0 then none else some ((A - o) / d)) = g.axisDist o d skip := by
  unfold axisDist
  by_cases hd : |d| ≤ Math.AlmostZero
  · rw [if_pos ((fzero_iff d).mpr hd), if_pos hd]
  · rw [if_neg (fun hz => hd ((fzero_iff d).mp hz)), if_neg hd, hA,
      if_neg (not_lt.mpr (axis_param_pos g h o d skip hd).le)]

lemma intersectWithRay_eq (g : Grid) (h : g.m_size < 31) (ray : Ray) (skip : Nat) :
    g.intersectWithRay ray skip =
      pickCloser (pickCloser (g.axisDist ray.origin.x ray.direction.x skip)
        (g.axisDist ray.origin.y ray.direction.y skip))
        (g.axisDist ray.origin.z ray.direction.z skip) := by
  rw [← plane_intersect_eq g h ray.origin.x ray.direction.x _ skip rfl,
    ← plane_intersect_eq g h ray.origin.y ray.direction.y _ skip rfl,
    ← plane_intersect_eq g h ray.origin.z ray.direction.z _ skip rfl]
  simp only [intersectWithRay, Plane.intersectWithRay, Plane.ofAnchor, planeAnchor, anchorCoord,
    Vec3f.dot, Vec3f.PosX, Vec3f.PosY, Vec3f.PosZ, mul_one, mul_zero, add_zero, zero_add]

end Grid

/-! ## Auxiliary facts: the selection among the three axis distances -/

namespace Grid

lemma pickCloser_none_right (dist : Option ℚ) : pickCloser dist none = dist := by
  simp [pickCloser, Math.isnan]

lemma pickCloser_none_left (v : ℚ) : pickCloser none (some v) = some v := by
  simp [pickCloser, Math.isnan]

lemma pickCloser_some (u v : ℚ) :
    pickCloser (some u) (some v) = if |v| < |u| then some v else some u := by
  simp [pickCloser, Math.isnan, Math.flt, Math.fabsf]

/-- The selection returns one of its two arguments; it is NaN only when both are; and among
positive distances it returns the smaller one. -/
lemma pickCloser_spec (dist c : Option ℚ) (hd : ∀ u, dist = some u → 0 < u)
    (hc : ∀ v, c = some v → 0 < v) :
    (pickCloser dist c = dist ∨ pickCloser dist c = c) ∧
    (pickCloser dist c = none → dist = none ∧ c = none) ∧
    ∀ t, pickCloser dist c = some t →
      (∀ u, dist = some u → t ≤ u) ∧ (∀ v, c = some v → t ≤ v) := by
  rcases dist with _ | u <;> rcases c with _ | v
  · simp [pickCloser_none_right]
  · simp [pickCloser_none_left]
  · simp [pickCloser_none_right]
  · have hu := hd u rfl
    have hv := hc v rfl
    rw [pickCloser_some, abs_of_pos hu, abs_of_pos hv]
    by_cases hlt : v < u
    · rw [if_pos hlt]
      refine ⟨Or.inr rfl, by simp, ?_⟩
      intro t ht
      cases ht
      exact ⟨fun u1 h1 => by cases h1; exact hlt.le, fun v1 h1 => by cases h1; exact le_refl _⟩
    · rw [if_neg hlt]
      refine ⟨Or.inl rfl, by simp, ?_⟩
      intro t ht
      cases ht
      exact ⟨fun u1 h1 => by cases h1; exact le_refl _,
        fun v1 h1 => by cases h1; exact not_lt.mp hlt⟩

/-- What `intersectWithRay` returns in terms of the three axis distances: NaN only when all
three are NaN, and otherwise one of them that no other exceeds from below. -/
lemma intersectWithRay_spec (g : Grid) (h : g.m_size < 31) (ray : Ray) (skip : Nat) :
    (g.intersectWithRay ray skip = none →
      ∀ i : Fin 3, g.axisDist (ray.origin.get i.val) (ray.direction.get i.val) skip = none) ∧
    ∀ t, g.intersectWithRay ray skip = some t →
      (∃ i : Fin 3, g.axisDist (ray.origin.get i.val) (ray.direction.get i.val) skip = some t) ∧
      ∀ (i : Fin 3) (v : ℚ),
        g.axisDist (ray.origin.get i.val) (ray.direction.get i.val) skip = some v → t ≤ v := by
  rw [intersectWithRay_eq g h]
  set dX := g.axisDist ray.origin.x ray.direction.x skip with hX
  set dY := g.axisDist ray.origin.y ray.direction.y skip with hY
  set dZ := g.axisDist ray.origin.z ray.direction.z skip with hZ
  have pX : ∀ u, dX = some u → 0 < u := fun u hu => axisDist_pos g h _ _ skip u hu
  have pY : ∀ u, dY = some u → 0 < u := fun u hu => axisDist_pos g h _ _ skip u hu
  have pZ : ∀ u, dZ = some u → 0 < u := fun u hu => axisDist_pos g h _ _ skip u hu
  obtain ⟨a1, a2, a3⟩ := pickCloser_spec dX dY pX pY
  have pXY : ∀ u, pickCloser dX dY = some u → 0 < u := by
    intro u hu
    rcases a1 with e | e
    · exact pX u (by rw [← e]; exact hu)
    · exact pY u (by rw [← e]; exact hu)
  obtain ⟨b1, b2, b3⟩ := pickCloser_spec (pickCloser dX dY) dZ pXY pZ
  constructor
  · intro hn i
    obtain ⟨hxy, hz⟩ := b2 hn
    obtain ⟨hx, hy⟩ := a2 hxy
    fin_cases i
    · exact hx
    · exact hy
    · exact hz
  · intro t ht
    obtain ⟨c1, c2⟩ := b3 t ht
    constructor
    · rcases b1 with e | e
      · rw [e] at ht
        rcases a1 with e1 | e1
        · exact ⟨0, by rw [e1] at ht; exact ht⟩
        · exact ⟨1, by rw [e1] at ht; exact ht⟩
      · exact ⟨2, by rw [e] at ht; exact ht⟩
    · intro i v hv
      have hxy : ∀ w, dX = some w ∨ dY = some w → t ≤ w := by
        intro w hw
        rcases hxy0 : pickCloser dX dY with _ | m
        · obtain ⟨hx, hy⟩ := a2 hxy0
          rcases hw with hw | hw
          · rw [hx] at hw; cases hw
          · rw [hy] at hw; cases hw
        · have hm := c1 m hxy0
          obtain ⟨m1, m2⟩ := a3 m hxy0
          rcases hw with hw | hw
          · exact le_trans hm (m1 w hw)
          · exact le_trans hm (m2 w hw)
      fin_cases i
      · exact hxy v (Or.inl hv)
      · exact hxy v (Or.inr hv)
      · exact c2 v hv

lemma pointAtDistance_get (ray : Ray) (t : ℚ) (i : Fin 3) :
    (ray.pointAtDistance t).get i.val = ray.origin.get i.val + ray.direction.get i.val * t := by
  fin_cases i <;> rfl

end Grid

/-! ## Scalar snapping -/

/-- C1. For a grid whose shift `1 << m_size` fits an `int` (`m_size < 31`, the range that
`setSize` keeps), with `a = actualSize()`: `snap f` is an integer multiple of `a`, it lies
within `a / 2` of `f`, and when `f` is exactly halfway between the adjacent multiples `n * a`
and `(n + 1) * a`, the result is one of the two and no nearer to zero than either. -/
theorem snap_nearest_multiple (g : Grid) (h : g.m_size < 31) (f : ℚ) :
    (∃ k : ℤ, g.snap f = (k : ℚ) * (g.actualSize : ℚ)) ∧
    |g.snap f - f| ≤ (g.actualSize : ℚ) / 2 ∧
    ∀ n : ℤ, f = (n : ℚ) * (g.actualSize : ℚ) + (g.actualSize : ℚ) / 2 →
      (g.snap f = (n : ℚ) * (g.actualSize : ℚ) ∨
        g.snap f = ((n : ℚ) + 1) * (g.actualSize : ℚ)) ∧
      |(n : ℚ) * (g.actualSize : ℚ)| ≤ |g.snap f| ∧
      |((n : ℚ) + 1) * (g.actualSize : ℚ)| ≤ |g.snap f| := by
  have ha := Grid.actualSize_cast_pos g h
  rw [Grid.snap_eq g h]
  set a : ℚ := (g.actualSize : ℚ) with hadef
  refine ⟨?_, ?_, ?_⟩
  · obtain ⟨k, hk⟩ := Math.fround_isInt (f / a)
    exact ⟨k, by rw [hk]; ring⟩
  · have h1 := Math.fround_sub_le (f / a)
    have h2 : a * Math.fround (f / a) - f = a * (Math.fround (f / a) - f / a) := by
      field_simp; ring
    rw [h2, abs_mul, abs_of_pos ha]
    nlinarith
  · intro n hn
    have hfa : f / a = (n : ℚ) + 1 / 2 := by
      rw [hn]; field_simp; ring
    rw [hfa, Math.fround_half]
    by_cases h0 : 0 ≤ n
    · have hq : (0 : ℚ) ≤ (n : ℚ) := by exact_mod_cast h0
      rw [if_pos h0]
      refine ⟨Or.inr (by ring), ?_, ?_⟩
      · rw [abs_of_nonneg (by positivity), abs_of_nonneg (by positivity)]
        nlinarith
      · rw [mul_comm]
    · have hn1 : n + 1 ≤ 0 := by omega
      have hq : (n : ℚ) + 1 ≤ 0 := by exact_mod_cast hn1
      rw [if_neg h0]
      refine ⟨Or.inl (by ring), ?_, ?_⟩
      · rw [mul_comm]
      · rw [abs_of_nonpos (by nlinarith), abs_of_nonpos (by nlinarith)]
        nlinarith

/-- Witness for C1: grid size 2 (spacing 4) at the tie `f = 6 = 1 * 4 + 4 / 2`. -/
theorem snap_nearest_multiple_witness :
    (6 : ℚ) = ((1 : ℤ) : ℚ) * ((Grid.mk 2 true).actualSize : ℚ)
      + ((Grid.mk 2 true).actualSize : ℚ) / 2 ∧
    |(Grid.mk 2 true).snap 6 - 6| ≤ ((Grid.mk 2 true).actualSize : ℚ) / 2 ∧
    |(((1 : ℤ) : ℚ) + 1) * ((Grid.mk 2 true).actualSize : ℚ)| ≤ |(Grid.mk 2 true).snap 6| :=
  have hn : (6 : ℚ) = ((1 : ℤ) : ℚ) * ((Grid.mk 2 true).actualSize : ℚ)
      + ((Grid.mk 2 true).actualSize : ℚ) / 2 := by decide!
  ⟨hn, (snap_nearest_multiple (Grid.mk 2 true) (by decide) 6).2.1,
   ((snap_nearest_multiple (Grid.mk 2 true) (by decide) 6).2.2 1 hn).2.2⟩

/-- C2. Scalar snap is idempotent, for every value and every grid state. -/
theorem snap_idempotent (g : Grid) (f : ℚ) : g.snap (g.snap f) = g.snap f := by
  unfold Grid.snap
  by_cases hc : ((g.actSize : ℤ) : ℚ) = 0
  · rw [hc]; simp
  · obtain ⟨k, hk⟩ := Math.fround_isInt (f / ((g.actSize : ℤ) : ℚ))
    rw [hk, mul_div_cancel_left₀ _ hc, Math.fround_intCast]

/-! ## Directional vector snap -/

/-- C5, as amended. On each axis `i`, the component of `snapTowards p d` is `snapUp p_i` when
`d_i` exceeds `AlmostZero`, `snapDown p_i` when `d_i` is below `-AlmostZero`, and `snap p_i`
when `d_i` is within `AlmostZero` of zero. -/
theorem snapTowards_component (g : Grid) (p d : Vec3f) (i : Fin 3) :
    (Math.AlmostZero < d.get i.val → (g.snapTowards p d).get i.val = g.snapUp (p.get i.val) false) ∧
    (d.get i.val < -Math.AlmostZero →
      (g.snapTowards p d).get i.val = g.snapDown (p.get i.val) false) ∧
    (|d.get i.val| ≤ Math.AlmostZero → (g.snapTowards p d).get i.val = g.snap (p.get i.val)) := by
  have hε : (0 : ℚ) < Math.AlmostZero := by unfold Math.AlmostZero; norm_num
  fin_cases i <;>
    simp only [Vec3f.get, Grid.snapTowards, Math.fpos, Math.fneg, decide_eq_true_eq, gt_iff_lt] <;>
    refine ⟨fun h1 => by rw [if_pos h1], fun h2 => ?_, fun h3 => ?_⟩
  all_goals first
    | (rw [if_neg (by linarith), if_pos h2])
    | (rw [abs_le] at h3; rw [if_neg (by linarith [h3.2]), if_neg (by linarith [h3.1])])

/-- Witness for C5: on a unit grid, `p = (3/10, 7/10, 1/2)` and `d = (1, -1, 0)`. -/
theorem snapTowards_component_witness :
    Math.AlmostZero < (Vec3f.mk 1 (-1) 0).get (0 : Fin 3).val ∧
    ((Grid.mk 0 true).snapTowards (Vec3f.mk (3 / 10) (7 / 10) (1 / 2)) (Vec3f.mk 1 (-1) 0)).get
        (0 : Fin 3).val
      = (Grid.mk 0 true).snapUp ((Vec3f.mk (3 / 10) (7 / 10) (1 / 2)).get (0 : Fin 3).val)
          false :=
  have h : Math.AlmostZero < (Vec3f.mk 1 (-1) 0).get (0 : Fin 3).val := by decide!
  ⟨h, (snapTowards_component (Grid.mk 0 true) (Vec3f.mk (3 / 10) (7 / 10) (1 / 2))
    (Vec3f.mk 1 (-1) 0) 0).1 h⟩

/-- Counterexample to C5 as stated: on a unit grid with `p = (3/10, 0, 0)` and
`d = (1/2000, 0, 0)`, the component `d.x` is positive, yet the x component of
`snapTowards p d` is `snap p.x = 0` and not `snapUp p.x = 1`. -/
theorem snapTowards_positive_counterexample :
    (0 : ℚ) < (Vec3f.mk (1 / 2000) 0 0).x ∧
    ((Grid.mk 0 true).snapTowards (Vec3f.mk (3 / 10) 0 0) (Vec3f.mk (1 / 2000) 0 0)).x = 0 ∧
    (Grid.mk 0 true).snapUp (Vec3f.mk (3 / 10) 0 0).x false = 1 ∧
    ((Grid.mk 0 true).snapTowards (Vec3f.mk (3 / 10) 0 0) (Vec3f.mk (1 / 2000) 0 0)).x
      ≠ (Grid.mk 0 true).snapUp (Vec3f.mk (3 / 10) 0 0).x false := by
  decide!

/-! ## Grid-ray intersection -/

/-- C6. A grid of size 0 with snapping enabled has `actualSize() = 1`, and there the ray with
origin `(3/10, 0, 0)` and direction `(1, 0, 0)` at `skip = 0` yields exactly `7/10`; for every
grid with `m_size < 31` and every origin, the ray along `+X` at `skip = 0` yields
`snapUp(origin.x) - origin.x`. -/
theorem intersectWithRay_posX :
    (Grid.mk 0 true).actualSize = 1 ∧
    (Grid.mk 0 true).intersectWithRay (Ray.mk (Vec3f.mk (3 / 10) 0 0) (Vec3f.mk 1 0 0)) 0
      = some (7 / 10) ∧
    ∀ g : Grid, g.m_size < 31 → ∀ o : Vec3f,
      g.intersectWithRay (Ray.mk o Vec3f.PosX) 0 = some (g.snapUp o.x true - o.x) := by
  refine ⟨by decide, by decide!, ?_⟩
  intro g h o
  have hε : ¬ |(1 : ℚ)| ≤ Math.AlmostZero := by unfold Math.AlmostZero; norm_num
  have h0 : |(0 : ℚ)| ≤ Math.AlmostZero := by unfold Math.AlmostZero; norm_num
  rw [Grid.intersectWithRay_eq g h]
  simp only [Vec3f.PosX, Grid.axisDist, if_neg hε, if_pos h0, Grid.pickCloser_none_right,
    Grid.anchorCoord, Grid.skipOffset]
  norm_num

/-- Witness for C6: grid size 3 (spacing 8), origin `(5, 1, 2)`. -/
theorem intersectWithRay_posX_witness :
    (Grid.mk 3 true).m_size < 31 ∧
    (Grid.mk 3 true).intersectWithRay (Ray.mk (Vec3f.mk 5 1 2) Vec3f.PosX) 0
      = some ((Grid.mk 3 true).snapUp (Vec3f.mk 5 1 2).x true - (Vec3f.mk 5 1 2).x) :=
  ⟨by decide, intersectWithRay_posX.2.2 (Grid.mk 3 true) (by decide) (Vec3f.mk 5 1 2)⟩

/-- C7, as amended. In exact arithmetic, for a grid with `m_size < 31`, a ray with a direction
component beyond `AlmostZero` in magnitude, and `skip = 0`: `intersectWithRay` returns a
distance `t > 0`, the point at `t` lies on a grid plane of an axis whose direction component is
beyond `AlmostZero` in magnitude, and no smaller positive parameter puts the ray on such a
plane. -/
theorem intersectWithRay_nearest_crossed (g : Grid) (h : g.m_size < 31) (ray : Ray)
    (hdir : ∃ i : Fin 3, Math.AlmostZero < |ray.direction.get i.val|) :
    ∃ t, g.intersectWithRay ray 0 = some t ∧ 0 < t ∧ OnCrossedGridPlane g ray t ∧
      ∀ u, 0 < u → OnCrossedGridPlane g ray u → t ≤ u := by
  obtain ⟨hnone, hsome⟩ := Grid.intersectWithRay_spec g h ray 0
  obtain ⟨i, hi⟩ := hdir
  rcases hr : g.intersectWithRay ray 0 with _ | t
  · obtain ⟨v, hv⟩ := Grid.axisDist_isSome g (ray.origin.get i.val) _ 0 hi
    rw [hnone hr i] at hv
    cases hv
  · obtain ⟨⟨j, hj⟩, hmin⟩ := hsome t hr
    refine ⟨t, rfl, Grid.axisDist_pos g h _ _ 0 t hj, ?_, ?_⟩
    · refine ⟨j, Grid.axisDist_crossed g _ _ 0 t hj, ?_⟩
      rw [Grid.pointAtDistance_get]
      exact Grid.axisDist_on_grid g h _ _ 0 t hj
    · rintro u hu ⟨m, hm, hgrid⟩
      obtain ⟨v, hv⟩ := Grid.axisDist_isSome g (ray.origin.get m.val) _ 0 hm
      rw [Grid.pointAtDistance_get] at hgrid
      exact le_trans (hmin m v hv) (Grid.axisDist_least g h _ _ v hv u hu hgrid)

/-- Witness for C7 as amended: a unit grid and the ray from `(3/10, 9999/10000, 1/2)` along
`(1, 1/2000, 0)`, whose x component is beyond `AlmostZero`. -/
theorem intersectWithRay_nearest_crossed_witness :
    ∃ t, (Grid.mk 0 true).intersectWithRay
        (Ray.mk (Vec3f.mk (3 / 10) (9999 / 10000) (1 / 2)) (Vec3f.mk 1 (1 / 2000) 0)) 0 = some t ∧
      0 < t ∧
      OnCrossedGridPlane (Grid.mk 0 true)
        (Ray.mk (Vec3f.mk (3 / 10) (9999 / 10000) (1 / 2)) (Vec3f.mk 1 (1 / 2000) 0)) t ∧
      ∀ u, 0 < u →
        OnCrossedGridPlane (Grid.mk 0 true)
          (Ray.mk (Vec3f.mk (3 / 10) (9999 / 10000) (1 / 2)) (Vec3f.mk 1 (1 / 2000) 0)) u →
        t ≤ u :=
  intersectWithRay_nearest_crossed (Grid.mk 0 true) (by decide)
    (Ray.mk (Vec3f.mk (3 / 10) (9999 / 10000) (1 / 2)) (Vec3f.mk 1 (1 / 2000) 0))
    ⟨0, by decide!⟩

/-- Counterexample to C7 as stated, on a unit grid at `skip = 0`. The ray from
`(3/10, 9999/10000, 1/2)` along `(1, 1/2000, 0)` has a non-null direction and yields `7/10`,
yet at the smaller parameter `1/5` its y coordinate is `1`, a grid line: the y component of the
direction is within `AlmostZero` of zero and that axis is skipped. The ray from `(3/10, 0, 0)`
along `(1, 0, 0)` yields `7/10` too, yet its y coordinate `0` is on a grid line at every
parameter, `1/10` included. In binary32 the first ray, with every component rounded to the
nearest `float`, yields `11744051 / 2 ^ 24`, about `0.7`, yet its y coordinate is `1` at the
smaller parameter `1718272 / 8589935`, about `0.2`. -/
theorem intersectWithRay_not_nearest_counterexample :
    ((Ray.mk (Vec3f.mk (3 / 10) (9999 / 10000) (1 / 2)) (Vec3f.mk 1 (1 / 2000) 0)).direction
        ≠ Vec3f.Null ∧
      (Grid.mk 0 true).intersectWithRay
        (Ray.mk (Vec3f.mk (3 / 10) (9999 / 10000) (1 / 2)) (Vec3f.mk 1 (1 / 2000) 0)) 0
        = some (7 / 10) ∧
      ¬ IsNearestLatticeHit (Grid.mk 0 true)
        (Ray.mk (Vec3f.mk (3 / 10) (9999 / 10000) (1 / 2)) (Vec3f.mk 1 (1 / 2000) 0)) (7 / 10)) ∧
    ((Ray.mk (Vec3f.mk (3 / 10) 0 0) (Vec3f.mk 1 0 0)).direction ≠ Vec3f.Null ∧
      (Grid.mk 0 true).intersectWithRay (Ray.mk (Vec3f.mk (3 / 10) 0 0) (Vec3f.mk 1 0 0)) 0
        = some (7 / 10) ∧
      ¬ IsNearestLatticeHit (Grid.mk 0 true) (Ray.mk (Vec3f.mk (3 / 10) 0 0) (Vec3f.mk 1 0 0))
        (7 / 10)) ∧
    (slantedRay32.direction ≠ Vec3f.Null ∧
      Binary32.intersectWithRay (Grid.mk 0 true) slantedRay32 0 = some (11744051 / 2 ^ 24) ∧
      ¬ IsNearestLatticeHit (Grid.mk 0 true) slantedRay32 (11744051 / 2 ^ 24)) := by
  refine ⟨⟨by decide!, by decide!, ?_⟩, ⟨by decide!, by decide!, ?_⟩,
    ⟨by decide!, by decide!, ?_⟩⟩
  · rintro ⟨_, _, hmin⟩
    have hle := hmin (1 / 5) (by norm_num) ⟨1, 1, by decide!⟩
    norm_num at hle
  · rintro ⟨_, _, hmin⟩
    have hle := hmin (1 / 10) (by norm_num) ⟨1, 0, by decide!⟩
    norm_num at hle
  · rintro ⟨_, _, hmin⟩
    have hle := hmin (1718272 / 8589935) (by norm_num) ⟨1, 1, by decide!⟩
    norm_num at hle

/-- C9. For a grid with `m_size < 31`, every ray and every skip count: when `intersectWithRay`
returns a distance `t` (not NaN), the point `origin + t * direction` has a coordinate that is
an integer multiple of `actualSize()`. -/
theorem intersectWithRay_on_grid_plane (g : Grid) (h : g.m_size < 31) (ray : Ray) (skip : Nat)
    (t : ℚ) (ht : g.intersectWithRay ray skip = some t) :
    OnGridPlane g (ray.pointAtDistance t) := by
  obtain ⟨⟨j, hj⟩, _⟩ := (Grid.intersectWithRay_spec g h ray skip).2 t ht
  refine ⟨j, ?_⟩
  rw [Grid.pointAtDistance_get]
  exact Grid.axisDist_on_grid g h _ _ skip t hj

/-- Witness for C9: grid size 2 (spacing 4), the ray from `(5, -7, 1/3)` along `(-1, 0, -2)`
at skip count 1, which reaches the plane `z = -4` at distance `13/6`. -/
theorem intersectWithRay_on_grid_plane_witness :
    (Grid.mk 2 true).intersectWithRay
        (Ray.mk (Vec3f.mk 5 (-7) (1 / 3)) (Vec3f.mk (-1) 0 (-2))) 1 = some (13 / 6) ∧
    OnGridPlane (Grid.mk 2 true)
      ((Ray.mk (Vec3f.mk 5 (-7) (1 / 3)) (Vec3f.mk (-1) 0 (-2))).pointAtDistance (13 / 6)) :=
  ⟨by decide!, intersectWithRay_on_grid_plane (Grid.mk 2 true) (by decide)
    (Ray.mk (Vec3f.mk 5 (-7) (1 / 3)) (Vec3f.mk (-1) 0 (-2))) 1 (13 / 6) (by decide!)⟩

/-! ## Bounded move delta -/

/-- C10, as amended. In exact arithmetic, for every grid state, bounding box, world bounds and
point `r`, `moveDelta` with the reference point equal to the current mouse point returns the
null vector. -/
theorem moveDelta_same_point (g : Grid) (bounds worldBounds : BBox) (r : Vec3f) :
    g.moveDelta bounds worldBounds r r = Vec3f.Null := by
  unfold Grid.moveDelta
  generalize g.moveDeltaSnapped bounds r r = D
  obtain ⟨dx, dy, dz⟩ := D
  simp only [Vec3f.lengthSquared, Vec3f.dot, Vec3f.sub, Vec3f.add, sub_self, mul_zero, add_zero]
  split_ifs with hlt
  · rfl
  · have hx := sq_nonneg dx
    have hy := sq_nonneg dy
    have hz := sq_nonneg dz
    have hsum : dx ^ 2 + dy ^ 2 + dz ^ 2 ≤ 0 := by
      have := not_lt.mp hlt
      nlinarith
    have ex : dx = 0 := by
      have : dx ^ 2 = 0 := by linarith
      exact pow_eq_zero_iff (by norm_num) |>.mp this
    have ey : dy = 0 := by
      have : dy ^ 2 = 0 := by linarith
      exact pow_eq_zero_iff (by norm_num) |>.mp this
    have ez : dz = 0 := by
      have : dz ^ 2 = 0 := by linarith
      exact pow_eq_zero_iff (by norm_num) |>.mp this
    rw [ex, ey, ez]
    rfl

/-! ## Auxiliary facts: the per-axis loop of `moveDelta` -/

namespace Grid

lemma moveDeltaStep_eq (g : Grid) (bounds : BBox) (delta : Vec3f) (i : Nat) :
    g.moveDeltaStep bounds delta i =
      delta.set i (moveDeltaPick (g.snap (bounds.min.get i + delta.get i) - bounds.min.get i)
        (g.snap (bounds.max.get i + delta.get i) - bounds.max.get i)) := by
  unfold moveDeltaStep moveDeltaPick
  dsimp only
  split_ifs <;> rfl

/-- The loop of `moveDelta` stores on each axis the selection made from the two offsets of
that axis, computed from the raw delta. -/
lemma moveDeltaSnapped_get (g : Grid) (bounds : BBox) (r c : Vec3f) (i : Fin 3) :
    (g.moveDeltaSnapped bounds r c).get i.val =
      moveDeltaPick (g.moveDeltaLow bounds r c i.val) (g.moveDeltaHigh bounds r c i.val) := by
  unfold moveDeltaSnapped moveDeltaLow moveDeltaHigh
  simp only [List.foldl, moveDeltaStep_eq]
  fin_cases i <;> simp [Vec3f.get, Vec3f.set]

lemma moveDeltaPick_cases (low high : ℚ) :
    moveDeltaPick low high = low ∨ moveDeltaPick low high = high ∨
      (moveDeltaPick low high = 0 ∧ low = 0 ∧ high = 0) := by
  unfold moveDeltaPick
  split_ifs with h1 h2 h3 h4
  · exact Or.inr (Or.inl rfl)
  · exact Or.inl rfl
  · exact Or.inl rfl
  · exact Or.inr (Or.inl rfl)
  · exact Or.inr (Or.inr ⟨rfl, not_not.mp h3, not_not.mp h4⟩)

end Grid

namespace Grid

lemma snap_multiple (g : Grid) (h : g.m_size < 31) (f : ℚ) :
    ∃ k : ℤ, g.snap f = (k : ℚ) * (g.actualSize : ℚ) := by
  rw [snap_eq g h]
  obtain ⟨k, hk⟩ := Math.fround_isInt (f / (g.actualSize : ℚ))
  exact ⟨k, by rw [hk]; ring⟩

lemma moveDelta_eq (g : Grid) (bounds worldBounds : BBox) (r c : Vec3f) :
    g.moveDelta bounds worldBounds r c =
      if (c.sub r).lengthSquared < (c.sub (r.add (g.moveDeltaSnapped bounds r c))).lengthSquared
      then Vec3f.Null else g.moveDeltaSnapped bounds r c := rfl

end Grid

/-! ## Bounded move delta: overshoot, corner snapping, corner choice -/

/-- C11, as amended. In exact arithmetic, for every input, the delta `d` returned by
`moveDelta` leaves the box no farther from the pointer than staying still,
`|cur - (ref + d)|² ≤ |cur - ref|²`, and when the per-axis snapped delta violates this
inequality the returned delta is the null vector. -/
theorem moveDelta_no_overshoot (g : Grid) (bounds worldBounds : BBox) (r c : Vec3f) :
    (c.sub (r.add (g.moveDelta bounds worldBounds r c))).lengthSquared
        ≤ (c.sub r).lengthSquared ∧
    ((c.sub r).lengthSquared
        < (c.sub (r.add (g.moveDeltaSnapped bounds r c))).lengthSquared →
      g.moveDelta bounds worldBounds r c = Vec3f.Null) := by
  rw [Grid.moveDelta_eq]
  constructor
  · split_ifs with hlt
    · have : c.sub (r.add Vec3f.Null) = c.sub r := by
        simp [Vec3f.sub, Vec3f.add, Vec3f.Null]
      rw [this]
    · exact not_lt.mp hlt
  · intro hlt
    rw [if_pos hlt]

/-- Witness for C11 as amended: grid size 2 (spacing 4), the box from `(1, 1, 1)` to `(3, 3, 3)`, the
pointer resting at `(7, 7, 7)`: the snapped delta `(-1, -1, -1)` overshoots and is dropped. -/
theorem moveDelta_no_overshoot_witness :
    (Grid.mk 2 true).moveDeltaSnapped (BBox.mk (Vec3f.mk 1 1 1) (Vec3f.mk 3 3 3))
        (Vec3f.mk 7 7 7) (Vec3f.mk 7 7 7) = Vec3f.mk (-1) (-1) (-1) ∧
    (Grid.mk 2 true).moveDelta (BBox.mk (Vec3f.mk 1 1 1) (Vec3f.mk 3 3 3))
        (BBox.mk (Vec3f.mk 0 0 0) (Vec3f.mk 0 0 0)) (Vec3f.mk 7 7 7) (Vec3f.mk 7 7 7)
      = Vec3f.Null :=
  ⟨by decide!,
   (moveDelta_no_overshoot (Grid.mk 2 true) (BBox.mk (Vec3f.mk 1 1 1) (Vec3f.mk 3 3 3))
      (BBox.mk (Vec3f.mk 0 0 0) (Vec3f.mk 0 0 0)) (Vec3f.mk 7 7 7) (Vec3f.mk 7 7 7)).2
      (by decide!)⟩

/-- C12. For a grid with `m_size < 31` and every input to `moveDelta`: the returned delta `d`
is the null vector, or on every axis `i` one of `bounds.min[i] + d[i]` and
`bounds.max[i] + d[i]` is an integer multiple of `actualSize()`. -/
theorem moveDelta_null_or_corner_on_grid (g : Grid) (h : g.m_size < 31)
    (bounds worldBounds : BBox) (r c : Vec3f) :
    g.moveDelta bounds worldBounds r c = Vec3f.Null ∨
    ∀ i : Fin 3,
      (∃ k : ℤ, bounds.min.get i.val + (g.moveDelta bounds worldBounds r c).get i.val
          = (k : ℚ) * (g.actualSize : ℚ)) ∨
      (∃ k : ℤ, bounds.max.get i.val + (g.moveDelta bounds worldBounds r c).get i.val
          = (k : ℚ) * (g.actualSize : ℚ)) := by
  rw [Grid.moveDelta_eq]
  split_ifs with hlt
  · exact Or.inl rfl
  · refine Or.inr (fun i => ?_)
    rw [Grid.moveDeltaSnapped_get]
    rcases Grid.moveDeltaPick_cases (g.moveDeltaLow bounds r c i.val)
      (g.moveDeltaHigh bounds r c i.val) with e | e | ⟨e, e1, _⟩
    · left
      obtain ⟨k, hk⟩ := Grid.snap_multiple g h (bounds.min.get i.val + (c.sub r).get i.val)
      exact ⟨k, by rw [e, ← hk]; unfold Grid.moveDeltaLow; ring⟩
    · right
      obtain ⟨k, hk⟩ := Grid.snap_multiple g h (bounds.max.get i.val + (c.sub r).get i.val)
      exact ⟨k, by rw [e, ← hk]; unfold Grid.moveDeltaHigh; ring⟩
    · left
      obtain ⟨k, hk⟩ := Grid.snap_multiple g h (bounds.min.get i.val + (c.sub r).get i.val)
      refine ⟨k, ?_⟩
      rw [e, ← hk]
      unfold Grid.moveDeltaLow at e1
      linarith

/-- Witness for C12: grid size 2 (spacing 4), the box from `(1, 1, 1)` to `(3, 3, 3)`, the
pointer dragged from the origin to `(5, 0, 0)`: the delta is `(5, -1, -1)`, which puts the
corner `max.x` on `8` and the corners `min.y`, `min.z` on `0`. -/
theorem moveDelta_null_or_corner_on_grid_witness :
    (Grid.mk 2 true).moveDelta (BBox.mk (Vec3f.mk 1 1 1) (Vec3f.mk 3 3 3))
        (BBox.mk (Vec3f.mk 0 0 0) (Vec3f.mk 0 0 0)) (Vec3f.mk 0 0 0) (Vec3f.mk 5 0 0)
      = Vec3f.mk 5 (-1) (-1) ∧
    ((Grid.mk 2 true).moveDelta (BBox.mk (Vec3f.mk 1 1 1) (Vec3f.mk 3 3 3))
        (BBox.mk (Vec3f.mk 0 0 0) (Vec3f.mk 0 0 0)) (Vec3f.mk 0 0 0) (Vec3f.mk 5 0 0)
      = Vec3f.Null ∨
    ∀ i : Fin 3,
      (∃ k : ℤ, (BBox.mk (Vec3f.mk 1 1 1) (Vec3f.mk 3 3 3)).min.get i.val +
          ((Grid.mk 2 true).moveDelta (BBox.mk (Vec3f.mk 1 1 1) (Vec3f.mk 3 3 3))
            (BBox.mk (Vec3f.mk 0 0 0) (Vec3f.mk 0 0 0)) (Vec3f.mk 0 0 0)
            (Vec3f.mk 5 0 0)).get i.val
          = (k : ℚ) * ((Grid.mk 2 true).actualSize : ℚ)) ∨
      (∃ k : ℤ, (BBox.mk (Vec3f.mk 1 1 1) (Vec3f.mk 3 3 3)).max.get i.val +
          ((Grid.mk 2 true).moveDelta (BBox.mk (Vec3f.mk 1 1 1) (Vec3f.mk 3 3 3))
            (BBox.mk (Vec3f.mk 0 0 0) (Vec3f.mk 0 0 0)) (Vec3f.mk 0 0 0)
            (Vec3f.mk 5 0 0)).get i.val
          = (k : ℚ) * ((Grid.mk 2 true).actualSize : ℚ))) :=
  ⟨by decide!,
   moveDelta_null_or_corner_on_grid (Grid.mk 2 true) (by decide)
    (BBox.mk (Vec3f.mk 1 1 1) (Vec3f.mk 3 3 3)) (BBox.mk (Vec3f.mk 0 0 0) (Vec3f.mk 0 0 0))
    (Vec3f.mk 0 0 0) (Vec3f.mk 5 0 0)⟩

/-- C13, as amended. On every axis `i`, with `low = snap(min[i] + delta[i]) - min[i]` and
`high = snap(max[i] + delta[i]) - max[i]` computed from the raw delta, the delta that
`moveDelta` holds before the overshoot check is: when both offsets are nonzero, `high` if it is
strictly smaller in magnitude and `low` otherwise; when exactly one is nonzero, that nonzero
offset; and zero when both are zero. -/
theorem moveDeltaSnapped_choice (g : Grid) (bounds : BBox) (r c : Vec3f) (i : Fin 3) :
    (g.moveDeltaLow bounds r c i.val ≠ 0 → g.moveDeltaHigh bounds r c i.val ≠ 0 →
      |g.moveDeltaHigh bounds r c i.val| < |g.moveDeltaLow bounds r c i.val| →
      (g.moveDeltaSnapped bounds r c).get i.val = g.moveDeltaHigh bounds r c i.val) ∧
    (g.moveDeltaLow bounds r c i.val ≠ 0 → g.moveDeltaHigh bounds r c i.val ≠ 0 →
      |g.moveDeltaLow bounds r c i.val| ≤ |g.moveDeltaHigh bounds r c i.val| →
      (g.moveDeltaSnapped bounds r c).get i.val = g.moveDeltaLow bounds r c i.val) ∧
    (g.moveDeltaLow bounds r c i.val ≠ 0 → g.moveDeltaHigh bounds r c i.val = 0 →
      (g.moveDeltaSnapped bounds r c).get i.val = g.moveDeltaLow bounds r c i.val) ∧
    (g.moveDeltaLow bounds r c i.val = 0 → g.moveDeltaHigh bounds r c i.val ≠ 0 →
      (g.moveDeltaSnapped bounds r c).get i.val = g.moveDeltaHigh bounds r c i.val) ∧
    (g.moveDeltaLow bounds r c i.val = 0 → g.moveDeltaHigh bounds r c i.val = 0 →
      (g.moveDeltaSnapped bounds r c).get i.val = 0) := by
  rw [Grid.moveDeltaSnapped_get]
  unfold Grid.moveDeltaPick
  refine ⟨fun h1 h2 h3 => ?_, fun h1 h2 h3 => ?_, fun h1 h2 => ?_, fun h1 h2 => ?_,
    fun h1 h2 => ?_⟩
  · rw [if_pos ⟨h1, h2⟩, if_pos h3]
  · rw [if_pos ⟨h1, h2⟩, if_neg (not_lt.mpr h3)]
  · rw [if_neg (fun hc => hc.2 h2), if_pos h1]
  · rw [if_neg (fun hc => hc.1 h1), if_neg (fun hc => hc h1), if_pos h2]
  · rw [if_neg (fun hc => hc.1 h1), if_neg (fun hc => hc h1), if_neg (fun hc => hc h2)]

/-- Witness for C13 as amended: a unit grid, the box from `(1/2, 0, 0)` to `(1, 1, 1)`, the
pointer resting at the origin; on the x axis `low = 1/2` and `high = 0`. -/
theorem moveDeltaSnapped_choice_witness :
    (Grid.mk 0 true).moveDeltaLow (BBox.mk (Vec3f.mk (1 / 2) 0 0) (Vec3f.mk 1 1 1))
        (Vec3f.mk 0 0 0) (Vec3f.mk 0 0 0) (0 : Fin 3).val ≠ 0 ∧
    (Grid.mk 0 true).moveDeltaHigh (BBox.mk (Vec3f.mk (1 / 2) 0 0) (Vec3f.mk 1 1 1))
        (Vec3f.mk 0 0 0) (Vec3f.mk 0 0 0) (0 : Fin 3).val = 0 ∧
    ((Grid.mk 0 true).moveDeltaSnapped (BBox.mk (Vec3f.mk (1 / 2) 0 0) (Vec3f.mk 1 1 1))
        (Vec3f.mk 0 0 0) (Vec3f.mk 0 0 0)).get (0 : Fin 3).val
      = (Grid.mk 0 true).moveDeltaLow (BBox.mk (Vec3f.mk (1 / 2) 0 0) (Vec3f.mk 1 1 1))
        (Vec3f.mk 0 0 0) (Vec3f.mk 0 0 0) (0 : Fin 3).val :=
  have h1 : (Grid.mk 0 true).moveDeltaLow (BBox.mk (Vec3f.mk (1 / 2) 0 0) (Vec3f.mk 1 1 1))
      (Vec3f.mk 0 0 0) (Vec3f.mk 0 0 0) (0 : Fin 3).val ≠ 0 := by decide!
  have h2 : (Grid.mk 0 true).moveDeltaHigh (BBox.mk (Vec3f.mk (1 / 2) 0 0) (Vec3f.mk 1 1 1))
      (Vec3f.mk 0 0 0) (Vec3f.mk 0 0 0) (0 : Fin 3).val = 0 := by decide!
  ⟨h1, h2, (moveDeltaSnapped_choice (Grid.mk 0 true)
    (BBox.mk (Vec3f.mk (1 / 2) 0 0) (Vec3f.mk 1 1 1)) (Vec3f.mk 0 0 0) (Vec3f.mk 0 0 0) 0).2.2.1
    h1 h2⟩

/-- Counterexample to C13 as stated: on a unit grid, for the box from `(1/2, 0, 0)` to
`(1, 1, 1)` and the pointer resting at the origin, the x axis has `low = 1/2` and `high = 0`;
`high` is the offset smaller in magnitude, yet the loop stores `low = 1/2`. -/
theorem moveDeltaSnapped_not_smaller_counterexample :
    (Grid.mk 0 true).moveDeltaLow (BBox.mk (Vec3f.mk (1 / 2) 0 0) (Vec3f.mk 1 1 1))
        (Vec3f.mk 0 0 0) (Vec3f.mk 0 0 0) 0 = 1 / 2 ∧
    (Grid.mk 0 true).moveDeltaHigh (BBox.mk (Vec3f.mk (1 / 2) 0 0) (Vec3f.mk 1 1 1))
        (Vec3f.mk 0 0 0) (Vec3f.mk 0 0 0) 0 = 0 ∧
    |(0 : ℚ)| < |(1 / 2 : ℚ)| ∧
    ((Grid.mk 0 true).moveDeltaSnapped (BBox.mk (Vec3f.mk (1 / 2) 0 0) (Vec3f.mk 1 1 1))
        (Vec3f.mk 0 0 0) (Vec3f.mk 0 0 0)).x = 1 / 2 := by
  decide!

/-! ## Auxiliary facts: the search loop of `moveDistance` -/

namespace Grid

lemma floatMax_pos : (0 : ℚ) < floatMax := by unfold floatMax; norm_num

/-- The effect of one execution of the loop body on `actualDist`. -/
lemma searchStep_spec (ops : Helpers) (g : Grid) (face : Face) (s : Int) (ad : ℚ) (ray : Ray) :
    (searchStep ops g face (s, ad) ray).1 = wrapInt32 (s + 1) ∧
    |(searchStep ops g face (s, ad) ray).2| ≤ |ad| ∧
    ((searchStep ops g face (s, ad) ray).2 = ad ∨
      (g.vertexNormDist face ray s = some (searchStep ops g face (s, ad) ray).2 ∧
        ops.boundaryChanges face (searchStep ops g face (s, ad) ray).2 = true ∧
        |(searchStep ops g face (s, ad) ray).2| < |ad|)) ∧
    (∀ c, g.vertexNormDist face ray s = some c → ops.boundaryChanges face c = true →
      |c| < |ad| → |(searchStep ops g face (s, ad) ray).2| ≤ |c|) := by
  unfold searchStep
  rcases hv : g.vertexNormDist face ray s with _ | v
  · simp
  · by_cases hacc : |v| < |ad| ∧ ops.boundaryChanges face v = true
    · have hif : (Math.flt (Math.fabsf (some v)) (Math.fabsf (some ad)) &&
          ops.boundaryChanges face v) = true := by
        simp [Math.flt, Math.fabsf, hacc.1, hacc.2]
      simp only [hif, if_true]
      refine ⟨trivial, hacc.1.le, Or.inr ⟨trivial, hacc.2, hacc.1⟩, ?_⟩
      intro c hc _ _
      cases hc
      exact le_refl _
    · have hif : (Math.flt (Math.fabsf (some v)) (Math.fabsf (some ad)) &&
          ops.boundaryChanges face v) = false := by
        rw [Bool.eq_false_iff]
        intro h
        apply hacc
        simp [Math.flt, Math.fabsf] at h
        exact h
      simp only [hif, Bool.false_eq_true, if_false]
      refine ⟨trivial, le_refl _, Or.inl trivial, ?_⟩
      intro c hc h1 h2
      cases hc
      exact absurd ⟨h2, h1⟩ hacc

/-- The effect of one pass of the `for` loop on the state `(gridSkip, actualDist)`. -/
lemma searchPass_spec (ops : Helpers) (g : Grid) (face : Face) :
    ∀ (rays : List Ray) (s : Int) (ad : ℚ),
    (searchPass ops g face rays (s, ad)).1 = skipAfter rays.length s ∧
    |(searchPass ops g face rays (s, ad)).2| ≤ |ad| ∧
    ((searchPass ops g face rays (s, ad)).2 = ad ∨
      (some (searchPass ops g face rays (s, ad)).2 ∈ passCandidates g face rays s ∧
        ops.boundaryChanges face (searchPass ops g face rays (s, ad)).2 = true ∧
        |(searchPass ops g face rays (s, ad)).2| < |ad|)) ∧
    (∀ c, some c ∈ passCandidates g face rays s → ops.boundaryChanges face c = true →
      |c| < |ad| → |(searchPass ops g face rays (s, ad)).2| ≤ |c|) := by
  intro rays
  induction rays with
  | nil =>
    intro s ad
    simp [searchPass, skipAfter, passCandidates]
  | cons ray rest ih =>
    intro s ad
    obtain ⟨a1, a2, a3, a4⟩ := searchStep_spec ops g face s ad ray
    have hfold : searchPass ops g face (ray :: rest) (s, ad) =
        searchPass ops g face rest
          (wrapInt32 (s + 1), (searchStep ops g face (s, ad) ray).2) := by
      unfold searchPass
      rw [List.foldl_cons, ← a1]
    rw [hfold]
    obtain ⟨b1, b2, b3, b4⟩ := ih (wrapInt32 (s + 1)) (searchStep ops g face (s, ad) ray).2
    refine ⟨?_, le_trans b2 a2, ?_, ?_⟩
    · rw [b1]; rfl
    · rcases b3 with e | ⟨m1, m2, m3⟩
      · rw [e]
        rcases a3 with e1 | ⟨n1, n2, n3⟩
        · exact Or.inl e1
        · refine Or.inr ⟨?_, n2, n3⟩
          rw [passCandidates, ← n1]
          exact List.mem_cons_self _ _
      · refine Or.inr ⟨?_, m2, lt_of_lt_of_le m3 a2⟩
        rw [passCandidates]
        exact List.mem_cons_of_mem _ m1
    · intro c hc hch hlt
      rw [passCandidates, List.mem_cons] at hc
      rcases hc with hc | hc
      · exact le_trans b2 (a4 c hc.symm hch hlt)
      · by_cases hlt1 : |c| < |(searchStep ops g face (s, ad) ray).2|
        · exact b4 c hc hch hlt1
        · exact le_trans b2 (not_lt.mp hlt1)

/-- A pass that starts with the sentinel and meets no acceptable candidate leaves the
sentinel in place. -/
lemma searchPass_sentinel (ops : Helpers) (g : Grid) (face : Face) (rays : List Ray) (s : Int)
    (hno : ∀ c, some c ∈ passCandidates g face rays s → ¬ Accepts ops face c) :
    searchPass ops g face rays (s, floatMax) = (skipAfter rays.length s, floatMax) := by
  obtain ⟨h1, _, h3, _⟩ := searchPass_spec ops g face rays s floatMax
  have h2 : (searchPass ops g face rays (s, floatMax)).2 = floatMax := by
    rcases h3 with e | ⟨m1, m2, m3⟩
    · exact e
    · rw [abs_of_pos floatMax_pos] at m3
      exact absurd ⟨m3, m2⟩ (hno _ m1)
  exact Prod.ext h1 h2

/-- A pass that starts with the sentinel and meets an acceptable candidate ends with the
acceptable candidate of least magnitude. -/
lemma searchPass_found (ops : Helpers) (g : Grid) (face : Face) (rays : List Ray) (s : Int)
    (c : ℚ) (hc : some c ∈ passCandidates g face rays s) (hacc : Accepts ops face c) :
    (searchPass ops g face rays (s, floatMax)).2 ≠ floatMax ∧
    some (searchPass ops g face rays (s, floatMax)).2 ∈ passCandidates g face rays s ∧
    Accepts ops face (searchPass ops g face rays (s, floatMax)).2 ∧
    ∀ c1, some c1 ∈ passCandidates g face rays s → Accepts ops face c1 →
      |(searchPass ops g face rays (s, floatMax)).2| ≤ |c1| := by
  obtain ⟨_, _, h3, h4⟩ := searchPass_spec ops g face rays s floatMax
  rw [abs_of_pos floatMax_pos] at h3 h4
  have hle := h4 c hc hacc.2 hacc.1
  have hlt : |(searchPass ops g face rays (s, floatMax)).2| < floatMax :=
    lt_of_le_of_lt hle hacc.1
  have hne : (searchPass ops g face rays (s, floatMax)).2 ≠ floatMax := by
    intro e
    rw [e, abs_of_pos floatMax_pos] at hlt
    exact lt_irrefl _ hlt
  rcases h3 with e | ⟨m1, m2, m3⟩
  · exact absurd e hne
  · exact ⟨hne, m1, ⟨m3, m2⟩, fun c1 hc1 ha1 => h4 c1 hc1 ha1.2 ha1.1⟩

/-- What the search loop returns: the acceptable candidate of least magnitude in the first
pass that holds an acceptable candidate. -/
lemma searchLoop_sound (ops : Helpers) (g : Grid) (face : Face) (rays : List Ray) :
    ∀ (fuel : Nat) (s : Int) (r : ℚ),
    searchLoop ops g face rays fuel (s, floatMax) = some r →
    ∃ p, p < fuel ∧
      (∀ q, q < p → ∀ c, some c ∈ passCandidates g face rays (passStart rays s q) →
        ¬ Accepts ops face c) ∧
      some r ∈ passCandidates g face rays (passStart rays s p) ∧ Accepts ops face r ∧
      ∀ c, some c ∈ passCandidates g face rays (passStart rays s p) → Accepts ops face c →
        |r| ≤ |c| := by
  intro fuel
  induction fuel with
  | zero => intro s r h; simp [searchLoop] at h
  | succ fuel ih =>
    intro s r h
    by_cases hno : ∀ c, some c ∈ passCandidates g face rays s → ¬ Accepts ops face c
    · rw [searchLoop, searchPass_sentinel ops g face rays s hno] at h
      simp only [if_true] at h
      obtain ⟨p, hp, h1, h2, h3, h4⟩ := ih (skipAfter rays.length s) r h
      refine ⟨p + 1, by omega, ?_, h2, h3, h4⟩
      intro q hq
      cases q with
      | zero => exact hno
      | succ q => exact h1 q (by omega)
    · push_neg at hno
      obtain ⟨c, hc, hacc⟩ := hno
      obtain ⟨f1, f2, f3, f4⟩ := searchPass_found ops g face rays s c hc hacc
      rw [searchLoop] at h
      simp only [if_neg f1] at h
      cases h
      exact ⟨0, by omega, fun q hq => absurd hq (Nat.not_lt_zero q), f2, f3, f4⟩

/-- The search loop ends as soon as a pass holds an acceptable candidate. -/
lemma searchLoop_terminates (ops : Helpers) (g : Grid) (face : Face) (rays : List Ray) :
    ∀ (p : Nat) (s : Int) (c : ℚ),
    some c ∈ passCandidates g face rays (passStart rays s p) → Accepts ops face c →
    ∀ fuel, p < fuel → ∃ r, searchLoop ops g face rays fuel (s, floatMax) = some r := by
  intro p
  induction p with
  | zero =>
    intro s c hc hacc fuel hf
    obtain ⟨k, rfl⟩ : ∃ k, fuel = k + 1 := ⟨fuel - 1, by omega⟩
    obtain ⟨f1, _⟩ := searchPass_found ops g face rays s c hc hacc
    rw [searchLoop]
    simp only [if_neg f1]
    exact ⟨_, rfl⟩
  | succ p ih =>
    intro s c hc hacc fuel hf
    obtain ⟨k, rfl⟩ : ∃ k, fuel = k + 1 := ⟨fuel - 1, by omega⟩
    by_cases hno : ∀ c, some c ∈ passCandidates g face rays s → ¬ Accepts ops face c
    · rw [searchLoop, searchPass_sentinel ops g face rays s hno]
      simp only [if_true]
      exact ih (skipAfter rays.length s) c hc hacc k (by omega)
    · push_neg at hno
      obtain ⟨c1, hc1, hacc1⟩ := hno
      obtain ⟨f1, _⟩ := searchPass_found ops g face rays s c1 hc1 hacc1
      rw [searchLoop]
      simp only [if_neg f1]
      exact ⟨_, rfl⟩

/-- The search loop never ends when no pass holds an acceptable candidate. -/
lemma searchLoop_diverges (ops : Helpers) (g : Grid) (face : Face) (rays : List Ray) :
    ∀ (fuel : Nat) (s : Int),
    (∀ p c, some c ∈ passCandidates g face rays (passStart rays s p) → ¬ Accepts ops face c) →
    searchLoop ops g face rays fuel (s, floatMax) = none := by
  intro fuel
  induction fuel with
  | zero => intro s _; rfl
  | succ fuel ih =>
    intro s hno
    rw [searchLoop, searchPass_sentinel ops g face rays s (hno 0)]
    simp only [if_true]
    exact ih (skipAfter rays.length s) (fun p c hc => hno (p + 1) c hc)

end Grid

namespace Grid

/-- The parts of a successful return of `moveDistance`. -/
lemma moveDistance_some (ops : Helpers) (g : Grid) (face : Face) (delta : Vec3f) (fuel : Nat)
    (r : ℚ) (d1 : Vec3f) (hres : moveDistance ops g face delta fuel = some (some r, d1)) :
    ¬ |delta.dot face.boundary.normal| ≤ Math.AlmostZero ∧
    searchLoop ops g face (edgeRays ops face (delta.dot face.boundary.normal)) fuel
      (g.initialGridSkip (face.boundary.normal.scale (delta.dot face.boundary.normal)),
        floatMax) = some r ∧
    |r| ≤ |delta.dot face.boundary.normal| ∧
    d1 = (ops.normalize delta).scale
      ((face.boundary.normal.scale r).dot (ops.normalize delta)) := by
  unfold moveDistance at hres
  simp only at hres
  by_cases hz : Math.fzero (delta.dot face.boundary.normal) = true
  · rw [if_pos hz] at hres
    simp at hres
  · rw [if_neg hz] at hres
    have hz1 : ¬ |delta.dot face.boundary.normal| ≤ Math.AlmostZero :=
      fun h => hz ((fzero_iff _).mpr h)
    rcases hs : searchLoop ops g face (edgeRays ops face (delta.dot face.boundary.normal)) fuel
      (g.initialGridSkip (face.boundary.normal.scale (delta.dot face.boundary.normal)),
        floatMax) with _ | ad
    · rw [hs] at hres
      simp at hres
    · rw [hs] at hres
      simp only at hres
      by_cases hgt : |ad| > |delta.dot face.boundary.normal|
      · rw [if_pos hgt] at hres
        simp at hres
      · rw [if_neg hgt] at hres
        simp only [Option.some.injEq, Prod.mk.injEq] at hres
        obtain ⟨e1, e2⟩ := hres
        subst e1
        exact ⟨hz1, rfl, not_lt.mp hgt, e2.symm⟩

/-- The return of `moveDistance` once the search loop has ended with `ad`. -/
lemma moveDistance_of_search (ops : Helpers) (g : Grid) (face : Face) (delta : Vec3f)
    (fuel : Nat) (ad : ℚ) (hz : ¬ |delta.dot face.boundary.normal| ≤ Math.AlmostZero)
    (hs : searchLoop ops g face (edgeRays ops face (delta.dot face.boundary.normal)) fuel
      (g.initialGridSkip (face.boundary.normal.scale (delta.dot face.boundary.normal)),
        floatMax) = some ad) :
    moveDistance ops g face delta fuel =
      if |ad| > |delta.dot face.boundary.normal| then some (none, delta)
      else some (some ad, (ops.normalize delta).scale
        ((face.boundary.normal.scale ad).dot (ops.normalize delta))) := by
  unfold moveDistance
  simp only
  rw [if_neg (fun h => hz ((fzero_iff _).mp h)), hs]

/-- The function `moveDistance` runs out of passes exactly when the search loop does. -/
lemma moveDistance_of_search_none (ops : Helpers) (g : Grid) (face : Face) (delta : Vec3f)
    (fuel : Nat) (hz : ¬ |delta.dot face.boundary.normal| ≤ Math.AlmostZero)
    (hs : searchLoop ops g face (edgeRays ops face (delta.dot face.boundary.normal)) fuel
      (g.initialGridSkip (face.boundary.normal.scale (delta.dot face.boundary.normal)),
        floatMax) = none) :
    moveDistance ops g face delta fuel = none := by
  unfold moveDistance
  simp only
  rw [if_neg (fun h => hz ((fzero_iff _).mp h)), hs]

end Grid

/-! ## Face-drag distance -/

/-- C14. For every face and every delta with `|delta · normal| ≤ AlmostZero`, `moveDistance`
returns NaN and leaves `delta` as it was, whatever the brush edges and the helpers are and
even when the search loop is given no pass at all: neither the edge rays nor the loop are
reached. -/
theorem moveDistance_perpendicular (ops : Helpers) (g : Grid) (face : Face) (delta : Vec3f)
    (fuel : Nat) (hperp : |delta.dot face.boundary.normal| ≤ Math.AlmostZero) :
    g.moveDistance ops face delta fuel = some (none, delta) := by
  unfold Grid.moveDistance
  simp only
  rw [if_pos ((Grid.fzero_iff _).mpr hperp)]

/-- Witness for C14: the frustum top face (normal `+Z`) and the delta `(1, 0, 1/2000)`, with
no pass allowed to the search loop. -/
theorem moveDistance_perpendicular_witness :
    (Grid.mk 2 true).moveDistance specHelpers frustumTop (Vec3f.mk 1 0 (1 / 2000)) 0
      = some (none, Vec3f.mk 1 0 (1 / 2000)) :=
  moveDistance_perpendicular specHelpers (Grid.mk 2 true) frustumTop (Vec3f.mk 1 0 (1 / 2000)) 0
    (by decide!)

/-- C15. Whenever `moveDistance` returns a distance `r` (not NaN), `|r| ≤ |delta · normal|`;
and when the search loop ends with a distance of larger magnitude than `delta · normal`, the
result is NaN. -/
theorem moveDistance_within_request (ops : Helpers) (g : Grid) (face : Face) (delta : Vec3f)
    (fuel : Nat) :
    (∀ r d1, g.moveDistance ops face delta fuel = some (some r, d1) →
      |r| ≤ |delta.dot face.boundary.normal|) ∧
    (∀ ad, ¬ |delta.dot face.boundary.normal| ≤ Math.AlmostZero →
      Grid.searchLoop ops g face (Grid.edgeRays ops face (delta.dot face.boundary.normal)) fuel
        (g.initialGridSkip (face.boundary.normal.scale (delta.dot face.boundary.normal)),
          floatMax) = some ad →
      |delta.dot face.boundary.normal| < |ad| →
      g.moveDistance ops face delta fuel = some (none, delta)) := by
  constructor
  · intro r d1 hres
    exact (Grid.moveDistance_some ops g face delta fuel r d1 hres).2.2.1
  · intro ad hz hs hgt
    rw [Grid.moveDistance_of_search ops g face delta fuel ad hz hs, if_pos hgt]

/-- Witness for C15: on the grid of spacing 4, the frustum top face dragged by `(0, 0, 3)`
returns the distance 2, within the requested 3; the box top face dragged by `(0, 0, 3)` has its
search end with 4 and returns NaN. -/
theorem moveDistance_within_request_witness :
    ((Grid.mk 2 true).moveDistance specHelpers frustumTop (Vec3f.mk 0 0 3) 1
        = some (some 2, Vec3f.mk 0 0 2) ∧
      |(2 : ℚ)| ≤ |(Vec3f.mk 0 0 3).dot frustumTop.boundary.normal|) ∧
    (Grid.searchLoop specHelpers (Grid.mk 2 true) boxTop
        (Grid.edgeRays specHelpers boxTop ((Vec3f.mk 0 0 3).dot boxTop.boundary.normal)) 1
        ((Grid.mk 2 true).initialGridSkip
          (boxTop.boundary.normal.scale ((Vec3f.mk 0 0 3).dot boxTop.boundary.normal)),
          floatMax) = some 4 ∧
      (Grid.mk 2 true).moveDistance specHelpers boxTop (Vec3f.mk 0 0 3) 1
        = some (none, Vec3f.mk 0 0 3)) :=
  ⟨⟨by decide!,
    (moveDistance_within_request specHelpers (Grid.mk 2 true) frustumTop (Vec3f.mk 0 0 3) 1).1
      2 (Vec3f.mk 0 0 2) (by decide!)⟩,
   ⟨by decide!,
    (moveDistance_within_request specHelpers (Grid.mk 2 true) boxTop (Vec3f.mk 0 0 3) 1).2
      4 (by decide!) (by decide!) (by decide!)⟩⟩

/-- C16, as amended. Whenever `moveDistance` returns a distance `r` (not NaN), `r` is a
candidate of one pass `p` of the search loop, it passes the test of the loop body, no candidate
of that pass that passes the test is smaller in magnitude, and no candidate of an earlier pass
passes the test. The candidates of a pass are the values
`intersectWithRay(ray, skip) * (ray.direction · normal)` for the edge rays in order, each at the
next skip count, the first pass starting at the initial `gridSkip`. -/
theorem moveDistance_least_of_first_accepting_pass (ops : Helpers) (g : Grid) (face : Face)
    (delta : Vec3f) (fuel : Nat) (r : ℚ) (d1 : Vec3f)
    (hres : g.moveDistance ops face delta fuel = some (some r, d1)) :
    ∃ p, p < fuel ∧
      (∀ q, q < p → ∀ c,
        some c ∈ Grid.passCandidates g face
          (Grid.edgeRays ops face (delta.dot face.boundary.normal))
          (Grid.passStart (Grid.edgeRays ops face (delta.dot face.boundary.normal))
            (g.initialGridSkip (face.boundary.normal.scale (delta.dot face.boundary.normal)))
            q) →
        ¬ Grid.Accepts ops face c) ∧
      some r ∈ Grid.passCandidates g face
        (Grid.edgeRays ops face (delta.dot face.boundary.normal))
        (Grid.passStart (Grid.edgeRays ops face (delta.dot face.boundary.normal))
          (g.initialGridSkip (face.boundary.normal.scale (delta.dot face.boundary.normal)))
          p) ∧
      Grid.Accepts ops face r ∧
      ∀ c,
        some c ∈ Grid.passCandidates g face
          (Grid.edgeRays ops face (delta.dot face.boundary.normal))
          (Grid.passStart (Grid.edgeRays ops face (delta.dot face.boundary.normal))
            (g.initialGridSkip (face.boundary.normal.scale (delta.dot face.boundary.normal)))
            p) →
        Grid.Accepts ops face c → |r| ≤ |c| :=
  Grid.searchLoop_sound ops g face _ fuel _ r
    (Grid.moveDistance_some ops g face delta fuel r d1 hres).2.1

/-- Witness for C16 as amended: on the unit grid, the box top face dragged by `(0, 0, 5)`
returns 5, found in the first pass. -/
theorem moveDistance_least_of_first_accepting_pass_witness :
    ∃ p, p < 1 ∧
      (∀ q, q < p → ∀ c,
        some c ∈ Grid.passCandidates (Grid.mk 0 true) boxTop
          (Grid.edgeRays specHelpers boxTop ((Vec3f.mk 0 0 5).dot boxTop.boundary.normal))
          (Grid.passStart
            (Grid.edgeRays specHelpers boxTop ((Vec3f.mk 0 0 5).dot boxTop.boundary.normal))
            ((Grid.mk 0 true).initialGridSkip
              (boxTop.boundary.normal.scale ((Vec3f.mk 0 0 5).dot boxTop.boundary.normal)))
            q) →
        ¬ Grid.Accepts specHelpers boxTop c) ∧
      some (5 : ℚ) ∈ Grid.passCandidates (Grid.mk 0 true) boxTop
        (Grid.edgeRays specHelpers boxTop ((Vec3f.mk 0 0 5).dot boxTop.boundary.normal))
        (Grid.passStart
          (Grid.edgeRays specHelpers boxTop ((Vec3f.mk 0 0 5).dot boxTop.boundary.normal))
          ((Grid.mk 0 true).initialGridSkip
            (boxTop.boundary.normal.scale ((Vec3f.mk 0 0 5).dot boxTop.boundary.normal)))
          p) ∧
      Grid.Accepts specHelpers boxTop 5 ∧
      ∀ c,
        some c ∈ Grid.passCandidates (Grid.mk 0 true) boxTop
          (Grid.edgeRays specHelpers boxTop ((Vec3f.mk 0 0 5).dot boxTop.boundary.normal))
          (Grid.passStart
            (Grid.edgeRays specHelpers boxTop ((Vec3f.mk 0 0 5).dot boxTop.boundary.normal))
            ((Grid.mk 0 true).initialGridSkip
              (boxTop.boundary.normal.scale ((Vec3f.mk 0 0 5).dot boxTop.boundary.normal)))
            p) →
        Grid.Accepts specHelpers boxTop c → |(5 : ℚ)| ≤ |c| :=
  moveDistance_least_of_first_accepting_pass specHelpers (Grid.mk 0 true) boxTop
    (Vec3f.mk 0 0 5) 1 5 (Vec3f.mk 0 0 5) (by decide!)

/-- Counterexample to C16 as stated: on the unit grid, the box top face dragged by `(0, 0, 5)`
returns `r = 5`. The first edge ray, from the corner `(0, 0, 0)` along `+Z`, belongs to an edge
with one endpoint on the face; at skip count 0 it reaches the grid plane `z = 1` at the
normal-projected distance 1, a trial move by 1 changes the boundary, and `|1| < |5|`. -/
theorem moveDistance_not_least_counterexample :
    (Grid.mk 0 true).moveDistance specHelpers boxTop (Vec3f.mk 0 0 5) 1
      = some (some 5, Vec3f.mk 0 0 5) ∧
    (Grid.edgeRays specHelpers boxTop ((Vec3f.mk 0 0 5).dot boxTop.boundary.normal)).head?
      = some (Ray.mk (Vec3f.mk 0 0 0) (Vec3f.mk 0 0 1)) ∧
    (Grid.mk 0 true).vertexNormDist boxTop (Ray.mk (Vec3f.mk 0 0 0) (Vec3f.mk 0 0 1)) 0
      = some 1 ∧
    specHelpers.boundaryChanges boxTop 1 = true ∧
    |(1 : ℚ)| < |(5 : ℚ)| := by
  decide!

namespace Grid

/-- A ray perpendicular to the face normal only yields the candidate 0. -/
lemma vertexNormDist_perp (g : Grid) (face : Face) (ray : Ray) (s : Int) (c : ℚ)
    (hperp : ray.direction.dot face.boundary.normal = 0)
    (hc : g.vertexNormDist face ray s = some c) : c = 0 := by
  unfold vertexNormDist at hc
  rcases hi : g.intersectWithRay ray (toUInt32 s) with _ | t
  · rw [hi] at hc
    simp at hc
  · rw [hi] at hc
    simp only [Option.map_some', Option.some.injEq] at hc
    rw [← hc]
    have : (ray.direction.scale t).dot face.boundary.normal
        = t * ray.direction.dot face.boundary.normal := by
      unfold Vec3f.dot Vec3f.scale
      ring
    rw [this, hperp, mul_zero]

/-- Rays perpendicular to the face normal only yield the candidate 0, in every pass. -/
lemma passCandidates_perp (g : Grid) (face : Face) :
    ∀ (rays : List Ray) (s : Int) (c : ℚ),
    (∀ ray ∈ rays, ray.direction.dot face.boundary.normal = 0) →
    some c ∈ passCandidates g face rays s → c = 0 := by
  intro rays
  induction rays with
  | nil => intro s c _ hc; simp [passCandidates] at hc
  | cons ray rest ih =>
    intro s c hperp hc
    rw [passCandidates, List.mem_cons] at hc
    rcases hc with hc | hc
    · exact vertexNormDist_perp g face ray s c (hperp ray (List.mem_cons_self _ _)) hc.symm
    · exact ih _ c (fun r hr => hperp r (List.mem_cons_of_mem _ hr)) hc

/-- When every edge ray is perpendicular to the face normal and a trial move by 0 leaves the
boundary unchanged, `moveDistance` never returns for a delta that is not perpendicular. -/
lemma moveDistance_diverges_of_perp (ops : Helpers) (g : Grid) (face : Face) (delta : Vec3f)
    (hz : ¬ |delta.dot face.boundary.normal| ≤ Math.AlmostZero)
    (hperp : ∀ ray ∈ edgeRays ops face (delta.dot face.boundary.normal),
      ray.direction.dot face.boundary.normal = 0)
    (h0 : ops.boundaryChanges face 0 = false) (fuel : Nat) :
    moveDistance ops g face delta fuel = none := by
  apply moveDistance_of_search_none ops g face delta fuel hz
  apply searchLoop_diverges
  intro p c hc hacc
  have hc0 := passCandidates_perp g face _ _ c hperp hc
  rw [hc0] at hacc
  rw [hacc.2] at h0
  cases h0

end Grid

/-- C19. Whenever `moveDistance` returns a distance `r` (not NaN), the delta on return is
`u * ((normal * r) · u)` with `u = normalize(delta)`. When `u` is a multiple of the original
delta, so is the new delta; and when moreover the original delta is a multiple of the normal
and `u` has unit length, the new delta is `normal * r`. -/
theorem moveDistance_rescales_delta (ops : Helpers) (g : Grid) (face : Face) (delta : Vec3f)
    (fuel : Nat) (r : ℚ) (d1 : Vec3f)
    (hres : g.moveDistance ops face delta fuel = some (some r, d1)) :
    d1 = (ops.normalize delta).scale
      ((face.boundary.normal.scale r).dot (ops.normalize delta)) ∧
    (∀ c : ℚ, ops.normalize delta = delta.scale c → ∃ s : ℚ, d1 = delta.scale s) ∧
    (∀ c l : ℚ, ops.normalize delta = delta.scale c →
      delta = face.boundary.normal.scale l → (ops.normalize delta).lengthSquared = 1 →
      d1 = face.boundary.normal.scale r) := by
  have hd := (Grid.moveDistance_some ops g face delta fuel r d1 hres).2.2.2
  refine ⟨hd, ?_, ?_⟩
  · intro c hc
    refine ⟨c * ((face.boundary.normal.scale r).dot (delta.scale c)), ?_⟩
    rw [hd, hc]
    simp only [Vec3f.scale, Vec3f.mk.injEq]
    refine ⟨by ring, by ring, by ring⟩
  · intro c l hc hl hu
    rw [hd, hc, hl]
    rw [hc, hl] at hu
    clear hd hc hl hres
    generalize face.boundary.normal = n at hu ⊢
    obtain ⟨nx, ny, nz⟩ := n
    simp only [Vec3f.lengthSquared, Vec3f.dot, Vec3f.scale] at hu ⊢
    have hlc : (l * c) ^ 2 * (nx * nx + ny * ny + nz * nz) = 1 := by rw [← hu]; ring
    simp only [Vec3f.mk.injEq]
    refine ⟨?_, ?_, ?_⟩
    · have : nx * l * c * (nx * r * (nx * l * c) + ny * r * (ny * l * c) + nz * r * (nz * l * c))
          = nx * r * ((l * c) ^ 2 * (nx * nx + ny * ny + nz * nz)) := by ring
      rw [this, hlc]; ring
    · have : ny * l * c * (nx * r * (nx * l * c) + ny * r * (ny * l * c) + nz * r * (nz * l * c))
          = ny * r * ((l * c) ^ 2 * (nx * nx + ny * ny + nz * nz)) := by ring
      rw [this, hlc]; ring
    · have : nz * l * c * (nx * r * (nx * l * c) + ny * r * (ny * l * c) + nz * r * (nz * l * c))
          = nz * r * ((l * c) ^ 2 * (nx * nx + ny * ny + nz * nz)) := by ring
      rw [this, hlc]; ring

/-- Witness for C19: on the grid of spacing 4, the frustum top face (normal `+Z`) dragged by
`(0, 0, 3)`, whose unit vector is `(0, 0, 1) = (0, 0, 3) * (1/3)`: the distance is 2 and the new
delta is `normal * 2`. -/
theorem moveDistance_rescales_delta_witness :
    (Grid.mk 2 true).moveDistance specHelpers frustumTop (Vec3f.mk 0 0 3) 1
      = some (some 2, Vec3f.mk 0 0 2) ∧
    Vec3f.mk 0 0 2 = frustumTop.boundary.normal.scale 2 :=
  have hres : (Grid.mk 2 true).moveDistance specHelpers frustumTop (Vec3f.mk 0 0 3) 1
      = some (some 2, Vec3f.mk 0 0 2) := by decide!
  ⟨hres, (moveDistance_rescales_delta specHelpers (Grid.mk 2 true) frustumTop (Vec3f.mk 0 0 3) 1
    2 (Vec3f.mk 0 0 2) hres).2.2 (1 / 3) 3 (by decide!) (by decide!) (by decide!)⟩

/-- Counterexample to C20 as stated: on the grid of spacing 4, the face `flatPatch` dragged by
`(0, 0, 3)`, which is not perpendicular to the normal. Its brush has the edge from the corner
`(0, 0, 0)`, a vertex of the face, to `(-4, 0, 0)`, not a vertex of the face, so eight edge rays
are built; all of them run in the plane of the face, every candidate is 0, the trial move by 0
leaves the boundary unchanged, and the loop ends for no number of passes. -/
theorem moveDistance_loops_with_edge_rays_counterexample :
    ¬ |(Vec3f.mk 0 0 3).dot flatPatch.boundary.normal| ≤ Math.AlmostZero ∧
    (∃ edge ∈ flatPatch.brushEdges,
      indexOf flatPatch.sideVertices edge.start ≠ -1 ∧
      indexOf flatPatch.sideVertices edge.end_ = -1) ∧
    (Grid.edgeRays specHelpers flatPatch
      ((Vec3f.mk 0 0 3).dot flatPatch.boundary.normal)).length = 8 ∧
    ∀ fuel, (Grid.mk 2 true).moveDistance specHelpers flatPatch (Vec3f.mk 0 0 3) fuel = none := by
  refine ⟨by decide!, ⟨⟨squareCorner 0, ⟨4, Vec3f.mk (-4) 0 0⟩⟩, by decide!, by decide!,
    by decide!⟩, by decide!, ?_⟩
  intro fuel
  exact Grid.moveDistance_diverges_of_perp specHelpers (Grid.mk 2 true) flatPatch (Vec3f.mk 0 0 3)
    (by decide!) (by decide!) (by decide!) fuel

namespace Grid

/-- Every candidate of a pass comes from one of the rays, probed at some skip count. -/
lemma passCandidates_mem (g : Grid) (face : Face) :
    ∀ (rays : List Ray) (s : Int) (c : Option ℚ), c ∈ passCandidates g face rays s →
    ∃ ray ∈ rays, ∃ k : Int, g.vertexNormDist face ray k = c := by
  intro rays
  induction rays with
  | nil => intro s c hc; simp [passCandidates] at hc
  | cons ray rest ih =>
    intro s c hc
    rw [passCandidates, List.mem_cons] at hc
    rcases hc with hc | hc
    · exact ⟨ray, List.mem_cons_self _ _, s, hc.symm⟩
    · obtain ⟨r1, hr1, k, hk⟩ := ih _ c hc
      exact ⟨r1, List.mem_cons_of_mem _ hr1, k, hk⟩

/-- Every ray is probed in every pass, at some skip count. -/
lemma passCandidates_of_mem (g : Grid) (face : Face) :
    ∀ (rays : List Ray) (s : Int) (ray : Ray), ray ∈ rays →
    ∃ k : Int, g.vertexNormDist face ray k ∈ passCandidates g face rays s := by
  intro rays
  induction rays with
  | nil => intro s ray hr; simp at hr
  | cons r0 rest ih =>
    intro s ray hr
    rw [List.mem_cons] at hr
    rcases hr with hr | hr
    · exact ⟨s, by rw [passCandidates, hr]; exact List.mem_cons_self _ _⟩
    · obtain ⟨k, hk⟩ := ih (wrapInt32 (s + 1)) ray hr
      exact ⟨k, by rw [passCandidates]; exact List.mem_cons_of_mem _ hk⟩

lemma dot_scale_left (v n : Vec3f) (c : ℚ) : (v.scale c).dot n = c * v.dot n := by
  unfold Vec3f.dot Vec3f.scale
  ring

end Grid

namespace Grid

/-- On a grid line, `snapUp` and `snapDown` move by one whole increment. -/
lemma snapUp_snapDown_on_grid (g : Grid) (h : g.m_size < 31) (f : ℚ) (b : Bool) (k : ℤ)
    (hk : f = (k : ℚ) * (g.actualSize : ℚ)) :
    g.snapUp f b = f + (g.actualSize : ℚ) ∧ g.snapDown f b = f - (g.actualSize : ℚ) := by
  have ha := actualSize_cast_pos g h
  have hfa : f / (g.actualSize : ℚ) = (k : ℚ) := by rw [hk]; field_simp
  rw [snapUp_eq g h, snapDown_eq g h, hfa, Int.ceil_intCast, Int.floor_intCast]
  have hs : (g.actualSize : ℚ) * (k : ℚ) = f := by rw [hk]; ring
  rw [if_pos hs, if_pos hs, hs]
  exact ⟨rfl, rfl⟩

lemma axisDist_zero (g : Grid) (o : ℚ) (skip : Nat) : g.axisDist o 0 skip = none := by
  unfold axisDist
  rw [if_pos (by simpa using almostZero_pos.le)]

lemma axisDist_unit (g : Grid) (h : g.m_size < 31) (o σ : ℚ) (skip : Nat)
    (hσ : σ = 1 ∨ σ = -1) (hgrid : ∃ m : ℤ, o = (m : ℚ) * (g.actualSize : ℚ)) :
    g.axisDist o σ skip = some ((g.actualSize : ℚ) + (g.skipOffset skip : ℚ)) := by
  obtain ⟨m, hm⟩ := hgrid
  obtain ⟨hu, hd⟩ := snapUp_snapDown_on_grid g h o true m hm
  have hε : Math.AlmostZero < 1 := by unfold Math.AlmostZero; norm_num
  unfold axisDist anchorCoord
  rcases hσ with rfl | rfl
  · rw [if_neg (by rw [abs_one]; exact not_le.mpr hε), if_pos (by norm_num), hu]
    congr 1
    ring
  · rw [if_neg (by rw [abs_neg, abs_one]; exact not_le.mpr hε), if_neg (by norm_num), hd]
    congr 1
    ring

/-- A ray along a coordinate axis, from a point whose coordinate on that axis is on a grid
line, meets the grid at one increment plus the skip offset. -/
lemma intersectWithRay_axis (g : Grid) (h : g.m_size < 31) (o : Vec3f) (σ : ℚ) (skip : Nat)
    (hσ : σ = 1 ∨ σ = -1) :
    ((∃ m : ℤ, o.x = (m : ℚ) * (g.actualSize : ℚ)) →
      g.intersectWithRay ⟨o, ⟨σ, 0, 0⟩⟩ skip
        = some ((g.actualSize : ℚ) + (g.skipOffset skip : ℚ))) ∧
    ((∃ m : ℤ, o.y = (m : ℚ) * (g.actualSize : ℚ)) →
      g.intersectWithRay ⟨o, ⟨0, σ, 0⟩⟩ skip
        = some ((g.actualSize : ℚ) + (g.skipOffset skip : ℚ))) ∧
    ((∃ m : ℤ, o.z = (m : ℚ) * (g.actualSize : ℚ)) →
      g.intersectWithRay ⟨o, ⟨0, 0, σ⟩⟩ skip
        = some ((g.actualSize : ℚ) + (g.skipOffset skip : ℚ))) := by
  refine ⟨fun hg => ?_, fun hg => ?_, fun hg => ?_⟩
  · rw [intersectWithRay_eq g h]
    simp only [axisDist_zero, axisDist_unit g h _ σ skip hσ hg, pickCloser_none_right]
  · rw [intersectWithRay_eq g h]
    simp only [axisDist_zero, axisDist_unit g h _ σ skip hσ hg, pickCloser_none_right,
      pickCloser_none_left]
  · rw [intersectWithRay_eq g h]
    simp only [axisDist_zero, axisDist_unit g h _ σ skip hσ hg, pickCloser_none_right,
      pickCloser_none_left]

lemma skipOffset_lt (g : Grid) (skip : Nat) : g.skipOffset skip < 2 ^ 32 := by
  unfold skipOffset wordBits
  exact Nat.mod_lt _ (by norm_num)

/-- The magnitude of one increment plus a skip offset: at least the increment, and below the
sentinel. -/
lemma axis_step_bounds (g : Grid) (h : g.m_size < 31) (skip : Nat) :
    (g.actualSize : ℚ) ≤ (g.actualSize : ℚ) + (g.skipOffset skip : ℚ) ∧
    (g.actualSize : ℚ) + (g.skipOffset skip : ℚ) < floatMax := by
  have h1 : (0 : ℚ) ≤ (g.skipOffset skip : ℚ) := Nat.cast_nonneg _
  have h2 : (g.skipOffset skip : ℚ) < 2 ^ 32 := by exact_mod_cast skipOffset_lt g skip
  have h3 : (g.actualSize : ℚ) < 2 ^ 31 := by exact_mod_cast (actualSize_bounds g h).2
  refine ⟨by linarith, ?_⟩
  have : (2 : ℚ) ^ 31 + 2 ^ 32 < floatMax := by unfold floatMax; norm_num
  linarith

end Grid

/-- The six signed unit axis vectors. -/
lemma isAxis_cases_helper (n : Vec3f)
    (hn : n = Vec3f.PosX ∨ n = Vec3f.NegX ∨ n = Vec3f.PosY ∨ n = Vec3f.NegY ∨
      n = Vec3f.PosZ ∨ n = Vec3f.NegZ) :
    ∃ σ : ℚ, (σ = 1 ∨ σ = -1) ∧ (n = ⟨σ, 0, 0⟩ ∨ n = ⟨0, σ, 0⟩ ∨ n = ⟨0, 0, σ⟩) := by
  rcases hn with rfl | rfl | rfl | rfl | rfl | rfl
  · exact ⟨1, Or.inl rfl, Or.inl rfl⟩
  · exact ⟨-1, Or.inr rfl, Or.inl rfl⟩
  · exact ⟨1, Or.inl rfl, Or.inr (Or.inl rfl)⟩
  · exact ⟨-1, Or.inr rfl, Or.inr (Or.inl rfl)⟩
  · exact ⟨1, Or.inl rfl, Or.inr (Or.inr rfl)⟩
  · exact ⟨-1, Or.inr rfl, Or.inr (Or.inr rfl)⟩

namespace Grid

/-- A ray along the axis of an axis-aligned normal, from a vertex on a grid line of that axis,
yields at every skip count a candidate of magnitude at least one increment and below the
sentinel. -/
lemma vertexNormDist_axis (g : Grid) (h : g.m_size < 31) (face : Face) (ray : Ray) (s : Int)
    (hn : face.boundary.normal = Vec3f.PosX ∨ face.boundary.normal = Vec3f.NegX ∨
      face.boundary.normal = Vec3f.PosY ∨ face.boundary.normal = Vec3f.NegY ∨
      face.boundary.normal = Vec3f.PosZ ∨ face.boundary.normal = Vec3f.NegZ)
    (hdir : ray.direction = face.boundary.normal ∨
      ray.direction = face.boundary.normal.scale (-1))
    (hgrid : g.snap (ray.origin.dot face.boundary.normal)
      = ray.origin.dot face.boundary.normal) :
    ∃ c : ℚ, g.vertexNormDist face ray s = some c ∧
      (g.actualSize : ℚ) ≤ |c| ∧ |c| < floatMax := by
  obtain ⟨m, hm⟩ := snap_multiple g h (ray.origin.dot face.boundary.normal)
  rw [hgrid] at hm
  obtain ⟨b1, b2⟩ := axis_step_bounds g h (toUInt32 s)
  have hpos : (0 : ℚ) ≤ (g.actualSize : ℚ) + (g.skipOffset (toUInt32 s) : ℚ) :=
    le_trans (actualSize_cast_pos g h).le b1
  obtain ⟨σ, hσ, hax⟩ := isAxis_cases_helper _ hn
  obtain ⟨o, dir⟩ := ray
  simp only at hdir hm ⊢
  -- the direction is a signed unit vector of the same axis
  have hdir2 : ∃ τ : ℚ, (τ = 1 ∨ τ = -1) ∧ dir = face.boundary.normal.scale τ := by
    rcases hdir with e | e
    · exact ⟨1, Or.inl rfl, by rw [e]; simp [Vec3f.scale]⟩
    · exact ⟨-1, Or.inr rfl, e⟩
  obtain ⟨τ, hτ, hdτ⟩ := hdir2
  have hστ : σ * τ = 1 ∨ σ * τ = -1 := by
    rcases hσ with rfl | rfl <;> rcases hτ with rfl | rfl <;> norm_num
  have hσσ : σ * σ = 1 := by rcases hσ with rfl | rfl <;> norm_num
  have habs : ∀ x : ℚ, 0 ≤ x → |x * (σ * τ * σ)| = x := by
    intro x hx
    rcases hσ with rfl | rfl <;> rcases hτ with rfl | rfl <;> norm_num [abs_of_nonneg hx]
  unfold vertexNormDist
  rcases hax with e | e | e
  · rw [e] at hm hdτ
    have hgx : ∃ m1 : ℤ, o.x = (m1 : ℚ) * (g.actualSize : ℚ) := by
      simp only [Vec3f.dot, mul_zero, add_zero] at hm
      rcases hσ with rfl | rfl
      · exact ⟨m, by linarith⟩
      · exact ⟨-m, by push_cast; linarith⟩
    have hd3 : dir = ⟨σ * τ, 0, 0⟩ := by rw [hdτ]; simp [Vec3f.scale]
    rw [hd3, ((intersectWithRay_axis g h o (σ * τ) (toUInt32 s) hστ).1 hgx), e]
    refine ⟨_, rfl, ?_, ?_⟩ <;>
      simp only [Vec3f.dot, Vec3f.scale, mul_zero, zero_mul, add_zero] <;>
      rw [show (σ * τ * ((g.actualSize : ℚ) + (g.skipOffset (toUInt32 s) : ℚ)) * σ)
        = ((g.actualSize : ℚ) + (g.skipOffset (toUInt32 s) : ℚ)) * (σ * τ * σ) by ring,
        habs _ hpos]
    · exact b1
    · exact b2
  · rw [e] at hm hdτ
    have hgy : ∃ m1 : ℤ, o.y = (m1 : ℚ) * (g.actualSize : ℚ) := by
      simp only [Vec3f.dot, mul_zero, add_zero, zero_add] at hm
      rcases hσ with rfl | rfl
      · exact ⟨m, by linarith⟩
      · exact ⟨-m, by push_cast; linarith⟩
    have hd3 : dir = ⟨0, σ * τ, 0⟩ := by rw [hdτ]; simp [Vec3f.scale]
    rw [hd3, ((intersectWithRay_axis g h o (σ * τ) (toUInt32 s) hστ).2.1 hgy), e]
    refine ⟨_, rfl, ?_, ?_⟩ <;>
      simp only [Vec3f.dot, Vec3f.scale, mul_zero, zero_mul, add_zero, zero_add] <;>
      rw [show (σ * τ * ((g.actualSize : ℚ) + (g.skipOffset (toUInt32 s) : ℚ)) * σ)
        = ((g.actualSize : ℚ) + (g.skipOffset (toUInt32 s) : ℚ)) * (σ * τ * σ) by ring,
        habs _ hpos]
    · exact b1
    · exact b2
  · rw [e] at hm hdτ
    have hgz : ∃ m1 : ℤ, o.z = (m1 : ℚ) * (g.actualSize : ℚ) := by
      simp only [Vec3f.dot, mul_zero, add_zero, zero_add] at hm
      rcases hσ with rfl | rfl
      · exact ⟨m, by linarith⟩
      · exact ⟨-m, by push_cast; linarith⟩
    have hd3 : dir = ⟨0, 0, σ * τ⟩ := by rw [hdτ]; simp [Vec3f.scale]
    rw [hd3, ((intersectWithRay_axis g h o (σ * τ) (toUInt32 s) hστ).2.2 hgz), e]
    refine ⟨_, rfl, ?_, ?_⟩ <;>
      simp only [Vec3f.dot, Vec3f.scale, mul_zero, zero_mul, add_zero, zero_add] <;>
      rw [show (σ * τ * ((g.actualSize : ℚ) + (g.skipOffset (toUInt32 s) : ℚ)) * σ)
        = ((g.actualSize : ℚ) + (g.skipOffset (toUInt32 s) : ℚ)) * (σ * τ * σ) by ring,
        habs _ hpos]
    · exact b1
    · exact b2

end Grid

namespace Grid

/-- When every edge ray either runs in the face plane or runs along the axis of an axis-aligned
normal from a vertex on a grid line, every candidate is 0 or has a magnitude of at least one
increment, below the sentinel. -/
lemma passCandidates_box (g : Grid) (h : g.m_size < 31) (face : Face) (rays : List Ray)
    (hn : face.boundary.normal = Vec3f.PosX ∨ face.boundary.normal = Vec3f.NegX ∨
      face.boundary.normal = Vec3f.PosY ∨ face.boundary.normal = Vec3f.NegY ∨
      face.boundary.normal = Vec3f.PosZ ∨ face.boundary.normal = Vec3f.NegZ)
    (hrays : ∀ ray ∈ rays, ray.direction.dot face.boundary.normal = 0 ∨
      ((ray.direction = face.boundary.normal ∨
          ray.direction = face.boundary.normal.scale (-1)) ∧
        g.snap (ray.origin.dot face.boundary.normal) = ray.origin.dot face.boundary.normal))
    (s : Int) (c : ℚ) (hc : some c ∈ passCandidates g face rays s) :
    c = 0 ∨ ((g.actualSize : ℚ) ≤ |c| ∧ |c| < floatMax) := by
  obtain ⟨ray, hray, k, hk⟩ := passCandidates_mem g face rays s _ hc
  rcases hrays ray hray with hp | ⟨hd, hg⟩
  · exact Or.inl (vertexNormDist_perp g face ray k c hp hk)
  · obtain ⟨c1, hc1, b1, b2⟩ := vertexNormDist_axis g h face ray k hn hd hg
    rw [hk] at hc1
    cases hc1
    exact Or.inr ⟨b1, b2⟩

end Grid

/-- C17, as amended. For a grid with `m_size < 31`, a face whose normal is a signed unit axis
vector and whose edge rays each run either in the plane of the face or along the normal from a
vertex on a grid line of that axis, at least one of them along the normal (as for a face of an
axis-aligned box that lies on a grid line), and a delta with `|delta · normal|` below
`actualSize()`: `moveDistance` returns NaN after one pass of the search loop, provided a trial
move by 0 leaves the boundary unchanged and a trial move by one grid increment or more
changes it. -/
theorem moveDistance_box_face_short_drag (ops : Helpers) (g : Grid) (h : g.m_size < 31)
    (face : Face) (delta : Vec3f) (fuel : Nat)
    (hn : face.boundary.normal = Vec3f.PosX ∨ face.boundary.normal = Vec3f.NegX ∨
      face.boundary.normal = Vec3f.PosY ∨ face.boundary.normal = Vec3f.NegY ∨
      face.boundary.normal = Vec3f.PosZ ∨ face.boundary.normal = Vec3f.NegZ)
    (hrays : ∀ ray ∈ Grid.edgeRays ops face (delta.dot face.boundary.normal),
      ray.direction.dot face.boundary.normal = 0 ∨
      ((ray.direction = face.boundary.normal ∨
          ray.direction = face.boundary.normal.scale (-1)) ∧
        g.snap (ray.origin.dot face.boundary.normal) = ray.origin.dot face.boundary.normal))
    (hside : ∃ ray ∈ Grid.edgeRays ops face (delta.dot face.boundary.normal),
      ray.direction.dot face.boundary.normal ≠ 0)
    (h0 : ops.boundaryChanges face 0 = false)
    (hchg : ∀ d : ℚ, (g.actualSize : ℚ) ≤ |d| → ops.boundaryChanges face d = true)
    (hsmall : |delta.dot face.boundary.normal| < (g.actualSize : ℚ))
    (hfuel : 0 < fuel) :
    g.moveDistance ops face delta fuel = some (none, delta) := by
  by_cases hz : |delta.dot face.boundary.normal| ≤ Math.AlmostZero
  · unfold Grid.moveDistance
    simp only
    rw [if_pos ((Grid.fzero_iff _).mpr hz)]
  · have hform := Grid.passCandidates_box g h face _ hn hrays
    obtain ⟨ray0, hray0, hnz⟩ := hside
    obtain ⟨k, hk⟩ := Grid.passCandidates_of_mem g face _
      (g.initialGridSkip (face.boundary.normal.scale (delta.dot face.boundary.normal)))
      ray0 hray0
    rcases hrays ray0 hray0 with hp | ⟨hd, hg⟩
    · exact absurd hp hnz
    · obtain ⟨c, hc, b1, b2⟩ := Grid.vertexNormDist_axis g h face ray0 k hn hd hg
      rw [hc] at hk
      obtain ⟨r, hr⟩ := Grid.searchLoop_terminates ops g face _ 0 _ c hk ⟨b2, hchg c b1⟩
        fuel hfuel
      obtain ⟨p, _, _, hmem, hacc, _⟩ := Grid.searchLoop_sound ops g face _ fuel _ r hr
      have hbig : (g.actualSize : ℚ) ≤ |r| := by
        rcases hform _ r hmem with e | ⟨e, _⟩
        · have h1 := hacc.2
          rw [e, h0] at h1
          cases h1
        · exact e
      rw [Grid.moveDistance_of_search ops g face delta fuel r hz hr,
        if_pos (lt_of_lt_of_le hsmall hbig)]

/-- A trial move of the box top face by 4 or more changes its boundary, in the helpers as the
spec describes them. -/
lemma specHelpers_boxTop_changes (d : ℚ) (hd : (4 : ℚ) ≤ |d|) :
    specHelpers.boundaryChanges boxTop d = true := by
  have hε : ¬ |d| < Math.AlmostZero := by
    unfold Math.AlmostZero
    intro hlt
    linarith
  simp [specHelpers, Face.movedBoundary, Plane.equals, Plane.ofAnchor, Plane.anchor, boxTop,
    squareFaceOver, Vec3f.PosZ, Vec3f.scale, Vec3f.add, Vec3f.dot, Math.feq, hε]

/-- Witness for C17 as amended: on the grid of spacing 4, the top face of the axis-aligned box
dragged by `(0, 0, 3)`. -/
theorem moveDistance_box_face_short_drag_witness :
    (Grid.mk 2 true).moveDistance specHelpers boxTop (Vec3f.mk 0 0 3) 1
      = some (none, Vec3f.mk 0 0 3) :=
  moveDistance_box_face_short_drag specHelpers (Grid.mk 2 true) (by decide) boxTop
    (Vec3f.mk 0 0 3) 1 (by decide!) (by decide!)
    ⟨Ray.mk (Vec3f.mk 0 0 0) (Vec3f.mk 0 0 1), by decide!, by decide!⟩ (by decide!)
    (fun d hd => specHelpers_boxTop_changes d (by
      have h4 : (((Grid.mk 2 true).actualSize : ℕ) : ℚ) = 4 := by decide!
      rw [h4] at hd
      exact hd))
    (by decide!) (by decide)

/-- Counterexample to C17 as stated: on the grid of spacing 4, the top face of the frustum has
the normal `+Z` and the axis-aligned square with corners `(0, 0, 0)`, `(4, 0, 0)`, `(4, 4, 0)`,
`(0, 4, 0)` as its polygon, in the grid plane `z = 0`; dragged by `(0, 0, 3)`, of magnitude
below 4, it returns the distance 2 and not NaN: the corner `(0, 0, 0)` slides along its slanted
edge and reaches the grid plane `x = 4` after a normal displacement of 2. -/
theorem moveDistance_square_face_not_nan_counterexample :
    frustumTop.boundary.normal = Vec3f.PosZ ∧
    frustumTop.sideVertices.map Vertex.position
      = [Vec3f.mk 0 0 0, Vec3f.mk 4 0 0, Vec3f.mk 4 4 0, Vec3f.mk 0 4 0] ∧
    |(Vec3f.mk 0 0 3).dot frustumTop.boundary.normal| < ((Grid.mk 2 true).actualSize : ℚ) ∧
    (Grid.mk 2 true).moveDistance specHelpers frustumTop (Vec3f.mk 0 0 3) 1
      = some (some 2, Vec3f.mk 0 0 2) := by
  decide!

/-- The premise of C18 on the brush edges is needed. `funnelFloor` has its other vertices in
front of the face, on the side the normal points to, which no brush has; dragged by `(0, 0, 3)`
on the grid of spacing 4, the requested normal displacement is `3`, positive, and the returned
distance is `-2`, negative. -/
theorem moveDistance_sign_needs_edges_behind :
    ¬ funnelFloor.EdgesLeadBehind ∧
    (Vec3f.mk 0 0 3).dot funnelFloor.boundary.normal = 3 ∧
    (Grid.mk 2 true).moveDistance specHelpers funnelFloor (Vec3f.mk 0 0 3) 1
      = some (some (-2), Vec3f.mk 0 0 (-2)) := by
  refine ⟨by unfold Face.EdgesLeadBehind; decide!, by decide!, by decide!⟩

namespace Grid

/-- With no edge rays a pass of the search loop changes nothing. -/
lemma searchStateAfter_nil (ops : Helpers) (g : Grid) (face : Face) :
    ∀ (n : Nat) (st : Int × ℚ), searchStateAfter ops g face [] n st = st := by
  intro n
  induction n with
  | zero => intro st; rfl
  | succ n ih =>
    intro st
    rw [searchStateAfter, ih]
    rfl

lemma actualSize_eq_pow_of_lt (g : Grid) (h : g.m_size < 32) :
    g.actualSize = if g.m_snap then 2 ^ g.m_size else 1 := by
  unfold actualSize wordBits
  split_ifs
  · rw [Nat.one_shiftLeft]
    exact Nat.mod_eq_of_lt (Nat.pow_lt_pow_right (by norm_num) h)
  · rfl

lemma setSize_fst (MaxSize : Nat) (g : Grid) (size : Nat) (h : g.m_size ≤ MaxSize) :
    (g.setSize MaxSize size).1.m_size = min size MaxSize ∧
    (g.setSize MaxSize size).1.m_snap = g.m_snap := by
  unfold setSize
  by_cases he : g.m_size = size
  · rw [if_pos he]
    exact ⟨by rw [← he]; exact (min_eq_left h).symm, rfl⟩
  · rw [if_neg he]
    by_cases hgt : size > MaxSize
    · rw [if_pos hgt]
      exact ⟨(min_eq_right hgt.le).symm, rfl⟩
    · rw [if_neg hgt]
      exact ⟨(min_eq_left (not_lt.mp hgt)).symm, rfl⟩

lemma setSizes_le (MaxSize : Nat) :
    ∀ (sizes : List Nat) (g : Grid), g.m_size ≤ MaxSize →
    (g.setSizes MaxSize sizes).m_size ≤ MaxSize := by
  intro sizes
  induction sizes with
  | nil => intro g h; exact h
  | cons s rest ih =>
    intro g h
    unfold setSizes
    rw [List.foldl_cons]
    apply ih
    rw [(setSize_fst MaxSize g s h).1]
    exact min_le_right _ _

end Grid

/-! ## Grid size -/

/-- C22. For every value of `MaxSize`, every grid state with `m_size ≤ MaxSize` and every
requested size `s`: after `setSize(s)` the stored size is `min(s, MaxSize)`, in particular
`MaxSize` when `s > MaxSize`; and the stored size stays at most `MaxSize` after any sequence of
calls of `setSize`. -/
theorem setSize_clamps (MaxSize : Nat) (g : Grid) (h : g.m_size ≤ MaxSize) (s : Nat) :
    (g.setSize MaxSize s).1.m_size = min s MaxSize ∧
    (MaxSize < s → (g.setSize MaxSize s).1.m_size = MaxSize) ∧
    (g.setSize MaxSize s).1.m_size ≤ MaxSize ∧
    ∀ sizes : List Nat, (g.setSizes MaxSize sizes).m_size ≤ MaxSize := by
  have h1 := (Grid.setSize_fst MaxSize g s h).1
  refine ⟨h1, fun hlt => ?_, ?_, fun sizes => Grid.setSizes_le MaxSize sizes g h⟩
  · rw [h1]; exact min_eq_right hlt.le
  · rw [h1]; exact min_le_right _ _

/-- Witness for C22: with `MaxSize = 9`, the grid of size 4 asked for size 12. -/
theorem setSize_clamps_witness :
    ((Grid.mk 4 true).setSize 9 12).1.m_size = min 12 9 ∧
    ((Grid.mk 4 true).setSize 9 12).1.m_size = 9 :=
  ⟨(setSize_clamps 9 (Grid.mk 4 true) (by decide) 12).1,
   (setSize_clamps 9 (Grid.mk 4 true) (by decide) 12).2.1 (by decide)⟩

/-- C23. For every grid state, `setSize(s)` with `s` equal to the current size changes neither
the size nor the snap flag and emits no change notification. -/
theorem setSize_same_noop (MaxSize : Nat) (g : Grid) :
    g.setSize MaxSize g.m_size = (g, false) := by
  unfold Grid.setSize
  rw [if_pos rfl]

/-- C24, at the failing input. For every value of `MaxSize` and every grid state of size
`MaxSize`, the call `setSize(MaxSize + 1)` leaves the state as it was and yet emits the change
notification; for every call, the notification is emitted exactly when the requested size
differs from the current size, whether or not the stored size ends up different. -/
theorem setSize_notifies_without_change (MaxSize : Nat) (snap : Bool) :
    (Grid.mk MaxSize snap).setSize MaxSize (MaxSize + 1) = (Grid.mk MaxSize snap, true) ∧
    ∀ (g : Grid) (s : Nat), (g.setSize MaxSize s).2 = decide (g.m_size ≠ s) := by
  constructor
  · unfold Grid.setSize
    rw [if_neg (by simp), if_pos (by simp)]
  · intro g s
    unfold Grid.setSize
    by_cases he : g.m_size = s
    · rw [if_pos he]; simp [he]
    · rw [if_neg he]; simp [he]

/-- C25. For every grid state with `m_size ≤ MaxSize` where `MaxSize ≤ 31`, so that
`1 << m_size` stays within 32 bits: `actualSize()` is `2 ^ m_size` when snapping is enabled and
1 when it is disabled; in both cases a positive power of two. -/
theorem actualSize_power_of_two (MaxSize : Nat) (hmax : MaxSize ≤ 31) (g : Grid)
    (h : g.m_size ≤ MaxSize) :
    (g.m_snap = true → g.actualSize = 2 ^ g.m_size) ∧
    (g.m_snap = false → g.actualSize = 1) ∧
    0 < g.actualSize ∧ ∃ k : Nat, g.actualSize = 2 ^ k := by
  have he := Grid.actualSize_eq_pow_of_lt g (by omega)
  refine ⟨fun hs => ?_, fun hs => ?_, ?_, ?_⟩
  · rw [he, if_pos hs]
  · rw [he, if_neg (by simp [hs])]
  · rw [he]; split_ifs
    · exact Nat.pos_pow_of_pos _ (by norm_num)
    · norm_num
  · rw [he]; split_ifs
    · exact ⟨g.m_size, rfl⟩
    · exact ⟨0, rfl⟩

/-- Witness for C25: with `MaxSize = 9`, the grid of size 9 with snapping enabled. -/
theorem actualSize_power_of_two_witness :
    (Grid.mk 9 true).actualSize = 2 ^ (Grid.mk 9 true).m_size ∧ 0 < (Grid.mk 9 true).actualSize :=
  ⟨(actualSize_power_of_two 9 (by decide) (Grid.mk 9 true) (by decide)).1 rfl,
   (actualSize_power_of_two 9 (by decide) (Grid.mk 9 true) (by decide)).2.2.1⟩

namespace Math

lemma fround_neg (f : ℚ) : fround (-f) = -fround f := by
  unfold fround
  rcases lt_trichotomy f 0 with hf | hf | hf
  · rw [if_pos (by linarith), if_neg (by linarith)]
    have : -f + 1 / 2 = -(f - 1 / 2) := by ring
    rw [this, Int.floor_neg]
    push_cast
    ring
  · subst hf
    have h1 : ⌈(0 : ℚ) - 1 / 2⌉ = 0 := by
      rw [Int.ceil_eq_iff]; constructor <;> norm_num
    simp only [neg_zero, lt_self_iff_false, if_false, gt_iff_lt, h1]
    norm_num
  · rw [if_neg (by linarith), if_pos hf]
    have : -f - 1 / 2 = -(f + 1 / 2) := by ring
    rw [this, Int.ceil_neg]
    push_cast
    ring

end Math

/-! ## Rounding -/

/-- C26. For every `f`, `fround f` is an integer within `1/2` of `f`; ties round away from
zero, `fround (n + 1/2) = n + 1` and `fround (-(n + 1/2)) = -(n + 1)` for every integer
`n ≥ 0`; and `fround` is odd. -/
theorem fround_nearest_away_odd (f : ℚ) :
    (∃ k : ℤ, Math.fround f = (k : ℚ)) ∧
    |Math.fround f - f| ≤ 1 / 2 ∧
    (∀ n : ℤ, 0 ≤ n →
      Math.fround ((n : ℚ) + 1 / 2) = (n : ℚ) + 1 ∧
      Math.fround (-((n : ℚ) + 1 / 2)) = -((n : ℚ) + 1)) ∧
    Math.fround (-f) = -Math.fround f := by
  refine ⟨Math.fround_isInt f, Math.fround_sub_le f, ?_, Math.fround_neg f⟩
  intro n hn
  have h1 : Math.fround ((n : ℚ) + 1 / 2) = (n : ℚ) + 1 := by
    rw [Math.fround_half, if_pos hn]
  exact ⟨h1, by rw [Math.fround_neg, h1]⟩

/-- Witness for C26: the ties `5/2` and `-5/2`, with `n = 2`. -/
theorem fround_nearest_away_odd_witness :
    Math.fround (((2 : ℤ) : ℚ) + 1 / 2) = ((2 : ℤ) : ℚ) + 1 ∧
    Math.fround (-(((2 : ℤ) : ℚ) + 1 / 2)) = -(((2 : ℤ) : ℚ) + 1) :=
  (fround_nearest_away_odd 0).2.2.1 2 (by decide)

/-! ## Drag plane -/

namespace Vec3f

/-- The value of `firstAxis` as modelled: the signed unit vector of the first axis, in the
order X, Y, Z, whose component is largest in absolute value. -/
lemma firstAxis_cases (v : Vec3f) :
    (|v.y| ≤ |v.x| ∧ |v.z| ≤ |v.x| → v.firstAxis = if v.x > 0 then PosX else NegX) ∧
    (|v.x| < |v.y| ∧ |v.z| ≤ |v.y| → v.firstAxis = if v.y > 0 then PosY else NegY) ∧
    (|v.x| < |v.z| ∧ |v.y| < |v.z| → v.firstAxis = if v.z > 0 then PosZ else NegZ) := by
  unfold firstAxis
  refine ⟨fun h => ?_, fun h => ?_, fun h => ?_⟩
  · rw [if_pos h]
  · rw [if_neg (fun hc => absurd hc.1 (not_le.mpr h.1)), if_pos h.2]
  · rw [if_neg (fun hc => absurd hc.2 (not_le.mpr h.1)), if_neg (not_le.mpr h.2)]

end Vec3f

/-- C27. The default drag plane stores `+Z`. For every non-null requested normal `v`, the
stored normal is one of the six signed unit axis vectors: the X axis, with the sign of `v.x`,
when `|v.x|` is at least `|v.y|` and `|v.z|`; else the Y axis, with the sign of `v.y`, when
`|v.y|` is at least `|v.z|`; else the Z axis, with the sign of `v.z`. -/
theorem dragPlane_normal_is_axis :
    DragPlane.default.normal = Vec3f.PosZ ∧
    ∀ v : Vec3f, v ≠ Vec3f.Null →
      ((DragPlane.ofNormal v).normal = Vec3f.PosX ∨ (DragPlane.ofNormal v).normal = Vec3f.NegX ∨
        (DragPlane.ofNormal v).normal = Vec3f.PosY ∨ (DragPlane.ofNormal v).normal = Vec3f.NegY ∨
        (DragPlane.ofNormal v).normal = Vec3f.PosZ ∨
        (DragPlane.ofNormal v).normal = Vec3f.NegZ) ∧
      (|v.y| ≤ |v.x| ∧ |v.z| ≤ |v.x| →
        (0 < v.x ∧ (DragPlane.ofNormal v).normal = Vec3f.PosX) ∨
        (v.x < 0 ∧ (DragPlane.ofNormal v).normal = Vec3f.NegX)) ∧
      (|v.x| < |v.y| ∧ |v.z| ≤ |v.y| →
        (0 < v.y ∧ (DragPlane.ofNormal v).normal = Vec3f.PosY) ∨
        (v.y < 0 ∧ (DragPlane.ofNormal v).normal = Vec3f.NegY)) ∧
      (|v.x| < |v.z| ∧ |v.y| < |v.z| →
        (0 < v.z ∧ (DragPlane.ofNormal v).normal = Vec3f.PosZ) ∨
        (v.z < 0 ∧ (DragPlane.ofNormal v).normal = Vec3f.NegZ)) := by
  refine ⟨rfl, ?_⟩
  intro v hv
  obtain ⟨c1, c2, c3⟩ := Vec3f.firstAxis_cases v
  have hn : (DragPlane.ofNormal v).normal = v.firstAxis := rfl
  rw [hn]
  refine ⟨?_, fun h => ?_, fun h => ?_, fun h => ?_⟩
  · unfold Vec3f.firstAxis
    split_ifs <;> simp
  · rw [c1 h]
    have hx : v.x ≠ 0 := by
      intro h0
      rw [h0, abs_zero] at h
      have hy : v.y = 0 := abs_eq_zero.mp (le_antisymm h.1 (abs_nonneg _))
      have hz : v.z = 0 := abs_eq_zero.mp (le_antisymm h.2 (abs_nonneg _))
      apply hv
      obtain ⟨x, y, z⟩ := v
      simp only at h0 hy hz
      rw [h0, hy, hz]
      rfl
    rcases lt_or_gt_of_ne hx with hlt | hgt
    · exact Or.inr ⟨hlt, by rw [if_neg (not_lt.mpr hlt.le)]⟩
    · exact Or.inl ⟨hgt, by rw [if_pos hgt]⟩
  · rw [c2 h]
    have hy : v.y ≠ 0 := by
      intro h0
      rw [h0, abs_zero] at h
      exact absurd h.1 (not_lt.mpr (abs_nonneg _))
    rcases lt_or_gt_of_ne hy with hlt | hgt
    · exact Or.inr ⟨hlt, by rw [if_neg (not_lt.mpr hlt.le)]⟩
    · exact Or.inl ⟨hgt, by rw [if_pos hgt]⟩
  · rw [c3 h]
    have hz : v.z ≠ 0 := by
      intro h0
      rw [h0, abs_zero] at h
      exact absurd h.1 (not_lt.mpr (abs_nonneg _))
    rcases lt_or_gt_of_ne hz with hlt | hgt
    · exact Or.inr ⟨hlt, by rw [if_neg (not_lt.mpr hlt.le)]⟩
    · exact Or.inl ⟨hgt, by rw [if_pos hgt]⟩

/-- Witness for C27: the requested normal `(1, -2, 2)`, a tie between Y and Z, gives `-Y`. -/
theorem dragPlane_normal_is_axis_witness :
    (Vec3f.mk 1 (-2) 2).y < 0 ∧ (DragPlane.ofNormal (Vec3f.mk 1 (-2) 2)).normal = Vec3f.NegY :=
  ((dragPlane_normal_is_axis.2 (Vec3f.mk 1 (-2) 2) (by decide!)).2.2.1 (by decide!)).resolve_left
    (fun hc => absurd hc.1 (by decide!))

namespace Grid

/-- Without wrap-around the skip offset is the product itself. -/
lemma skipOffset_of_lt (g : Grid) (k : Nat) (hk : k * g.actualSize < 2 ^ 32) :
    g.skipOffset k = k * g.actualSize := by
  unfold skipOffset wordBits
  exact Nat.mod_eq_of_lt hk

/-- One more skipped cell moves an axis distance by `actualSize() / |d|`, as long as the
product `(k + 1) * actualSize()` does not wrap around. -/
lemma axisDist_succ (g : Grid) (o d : ℚ) (k : Nat)
    (hk : (k + 1) * g.actualSize < 2 ^ 32) (v : ℚ) (hv : g.axisDist o d k = some v) :
    g.axisDist o d (k + 1) = some (v + (g.actualSize : ℚ) / |d|) := by
  have hε := almostZero_pos
  have hk0 : k * g.actualSize < 2 ^ 32 := lt_of_le_of_lt (Nat.mul_le_mul_right _ (Nat.le_succ k)) hk
  unfold axisDist at hv ⊢
  split_ifs at hv with hd
  rw [if_neg hd]
  cases hv
  have hne : d ≠ 0 := by
    rintro rfl
    exact hd (by simpa using hε.le)
  unfold anchorCoord
  rw [skipOffset_of_lt g k hk0, skipOffset_of_lt g (k + 1) hk]
  congr 1
  by_cases hpos : 0 < d
  · simp only [if_pos hpos, abs_of_pos hpos]
    push_cast
    field_simp
    ring
  · have hneg : d < 0 := lt_of_le_of_ne (not_lt.mp hpos) hne
    simp only [if_neg hpos, abs_of_neg hneg]
    have hdiv : (g.actualSize : ℚ) / -d = (-(g.actualSize : ℚ)) / d := by
      rw [div_neg, neg_div]
    rw [hdiv, ← add_div]
    congr 1
    push_cast
    ring

/-- A ray whose direction has a single nonzero component, of magnitude beyond epsilon, gets the
distance of that axis. -/
lemma intersectWithRay_single_axis (g : Grid) (h : g.m_size < 31) (o : Vec3f) (σ : ℚ)
    (skip : Nat) :
    g.intersectWithRay ⟨o, ⟨σ, 0, 0⟩⟩ skip = g.axisDist o.x σ skip ∧
    g.intersectWithRay ⟨o, ⟨0, σ, 0⟩⟩ skip = g.axisDist o.y σ skip ∧
    g.intersectWithRay ⟨o, ⟨0, 0, σ⟩⟩ skip = g.axisDist o.z σ skip := by
  refine ⟨?_, ?_, ?_⟩
  · rw [intersectWithRay_eq g h]
    simp only [axisDist_zero, pickCloser_none_right]
  · rw [intersectWithRay_eq g h]
    simp only [axisDist_zero, pickCloser_none_right]
    rcases g.axisDist o.y σ skip with _ | v
    · rfl
    · exact pickCloser_none_left v
  · rw [intersectWithRay_eq g h]
    simp only [axisDist_zero, pickCloser_none_right]
    rcases g.axisDist o.z σ skip with _ | v
    · rfl
    · exact pickCloser_none_left v

end Grid

/-! ## Edge rays of `moveDistance` -/

/-- C28, at the failing input. On the top face of the axis-aligned box, dragged outwards, the
brush edge from the corner `(0, 0, 0)` to the corner `(4, 0, 0)` has both endpoints among the
vertices of the face, and the loop over the brush edges still pushes a ray for it, from
`(0, 0, 0)` along the edge; the face gets eight edge rays, four of them from the edges of its
own square. -/
theorem edgeRays_include_face_edges :
    (Edge.mk (squareCorner 0) (squareCorner 1)) ∈ boxTop.brushEdges ∧
    indexOf boxTop.sideVertices (squareCorner 0) ≠ -1 ∧
    indexOf boxTop.sideVertices (squareCorner 1) ≠ -1 ∧
    Grid.edgeRayOf specHelpers boxTop 3 (Edge.mk (squareCorner 0) (squareCorner 1))
      = some (Ray.mk (Vec3f.mk 0 0 0) (Vec3f.mk (-1) 0 0)) ∧
    (Grid.edgeRays specHelpers boxTop 3).length = 8 ∧
    (boxTop.brushEdges.filter (fun edge =>
      decide ((indexOf boxTop.sideVertices edge.start ≠ -1 ∧
          indexOf boxTop.sideVertices edge.end_ = -1) ∨
        (indexOf boxTop.sideVertices edge.start = -1 ∧
          indexOf boxTop.sideVertices edge.end_ ≠ -1)))).length = 4 := by
  decide!

/-! ## Selection among the axis planes, and the skip count -/

/-- C30, as amended. In exact arithmetic, for a grid with `m_size < 31`, every ray and every
skip count `k` for which `(k + 1) * actualSize()` is below `2 ^ 32`: when
`intersectWithRay(ray, k)` is not NaN, `intersectWithRay(ray, k + 1)` is not NaN and strictly
larger; and for a direction with a single nonzero component, of magnitude 1, it is larger by
exactly `actualSize()`. -/
theorem intersectWithRay_increasing_in_skip (g : Grid) (h : g.m_size < 31) (ray : Ray) (k : Nat)
    (hk : (k + 1) * g.actualSize < 2 ^ 32) (t : ℚ) (ht : g.intersectWithRay ray k = some t) :
    (∃ t1, g.intersectWithRay ray (k + 1) = some t1 ∧ t < t1) ∧
    (∀ σ : ℚ, σ = 1 ∨ σ = -1 →
      ray.direction = ⟨σ, 0, 0⟩ ∨ ray.direction = ⟨0, σ, 0⟩ ∨ ray.direction = ⟨0, 0, σ⟩ →
      g.intersectWithRay ray (k + 1) = some (t + (g.actualSize : ℚ))) := by
  have ha := Grid.actualSize_cast_pos g h
  constructor
  · obtain ⟨⟨j, hj⟩, hmin⟩ := (Grid.intersectWithRay_spec g h ray k).2 t ht
    have hj1 := Grid.axisDist_succ g _ _ k hk t hj
    rcases h1 : g.intersectWithRay ray (k + 1) with _ | t1
    · have := (Grid.intersectWithRay_spec g h ray (k + 1)).1 h1 j
      rw [this] at hj1
      cases hj1
    · refine ⟨t1, rfl, ?_⟩
      obtain ⟨⟨i, hi⟩, _⟩ := (Grid.intersectWithRay_spec g h ray (k + 1)).2 t1 h1
      have hcross := Grid.axisDist_crossed g _ _ (k + 1) t1 hi
      obtain ⟨v, hv⟩ := Grid.axisDist_isSome g (ray.origin.get i.val) _ k hcross
      have hv1 := Grid.axisDist_succ g _ _ k hk v hv
      rw [hi] at hv1
      cases hv1
      have hstep : 0 < (g.actualSize : ℚ) / |ray.direction.get i.val| :=
        div_pos ha (lt_trans Grid.almostZero_pos hcross)
      have := hmin i v hv
      linarith
  · intro σ hσ hdir
    have hone : |σ| = 1 := by rcases hσ with rfl | rfl <;> simp
    obtain ⟨o, dir⟩ := ray
    simp only at hdir
    rcases hdir with e | e | e
    · subst e
      rw [(Grid.intersectWithRay_single_axis g h o σ k).1] at ht
      rw [(Grid.intersectWithRay_single_axis g h o σ (k + 1)).1,
        Grid.axisDist_succ g _ _ k hk t ht, hone, div_one]
    · subst e
      rw [(Grid.intersectWithRay_single_axis g h o σ k).2.1] at ht
      rw [(Grid.intersectWithRay_single_axis g h o σ (k + 1)).2.1,
        Grid.axisDist_succ g _ _ k hk t ht, hone, div_one]
    · subst e
      rw [(Grid.intersectWithRay_single_axis g h o σ k).2.2] at ht
      rw [(Grid.intersectWithRay_single_axis g h o σ (k + 1)).2.2,
        Grid.axisDist_succ g _ _ k hk t ht, hone, div_one]

/-- Witness for C30 as amended: grid size 2 (spacing 4), the ray from `(5, 1, 2)` along `+X`,
at skip counts 3 and 4. -/
theorem intersectWithRay_increasing_in_skip_witness :
    (Grid.mk 2 true).intersectWithRay (Ray.mk (Vec3f.mk 5 1 2) (Vec3f.mk 1 0 0)) 3 = some 15 ∧
    (Grid.mk 2 true).intersectWithRay (Ray.mk (Vec3f.mk 5 1 2) (Vec3f.mk 1 0 0)) (3 + 1)
      = some (15 + ((Grid.mk 2 true).actualSize : ℚ)) :=
  have ht : (Grid.mk 2 true).intersectWithRay (Ray.mk (Vec3f.mk 5 1 2) (Vec3f.mk 1 0 0)) 3
      = some 15 := by decide!
  ⟨ht, (intersectWithRay_increasing_in_skip (Grid.mk 2 true) (by decide)
    (Ray.mk (Vec3f.mk 5 1 2) (Vec3f.mk 1 0 0)) 3 (by decide) 15 ht).2 1 (Or.inl rfl)
    (Or.inl rfl)⟩

/-- Counterexample to C30 as stated: on the grid of size 1 (spacing 2), for the ray from the
origin along `+X`, the skip count `2^31 - 1` gives the distance `2^32`, and the next skip count
`2^31` gives the distance 2: the product `skip * actualSize()` of two `unsigned int`s wraps
around to 0. The binary32 evaluation gives the same two distances. In binary32 the distance
also stops growing without any wrap-around: on the unit grid, for the same ray, the skip counts
`2^24` and `2^24 + 1` both give `16777216`, the offset `16777217` being rounded. -/
theorem intersectWithRay_skip_wraps_counterexample :
    (2 ^ 31 : Nat) < 2 ^ 32 ∧
    (Grid.mk 1 true).intersectWithRay (Ray.mk (Vec3f.mk 0 0 0) (Vec3f.mk 1 0 0)) (2 ^ 31 - 1)
      = some (2 ^ 32) ∧
    (Grid.mk 1 true).intersectWithRay (Ray.mk (Vec3f.mk 0 0 0) (Vec3f.mk 1 0 0))
      (2 ^ 31 - 1 + 1) = some 2 ∧
    ¬ ((2 : ℚ) ^ 32 < 2) ∧
    Binary32.intersectWithRay (Grid.mk 1 true) (Ray.mk (Vec3f.mk 0 0 0) (Vec3f.mk 1 0 0))
      (2 ^ 31 - 1) = some (2 ^ 32) ∧
    Binary32.intersectWithRay (Grid.mk 1 true) (Ray.mk (Vec3f.mk 0 0 0) (Vec3f.mk 1 0 0))
      (2 ^ 31 - 1 + 1) = some 2 ∧
    Binary32.intersectWithRay (Grid.mk 0 true) (Ray.mk (Vec3f.mk 0 0 0) (Vec3f.mk 1 0 0))
      (2 ^ 24) = some (2 ^ 24) ∧
    Binary32.intersectWithRay (Grid.mk 0 true) (Ray.mk (Vec3f.mk 0 0 0) (Vec3f.mk 1 0 0))
      (2 ^ 24 + 1) = some (2 ^ 24) := by
  decide!

namespace Grid

/-- A NaN return of `moveDistance` carries the delta of the call. -/
lemma moveDistance_nan (ops : Helpers) (g : Grid) (face : Face) (delta : Vec3f) (fuel : Nat)
    (d1 : Vec3f) (hres : moveDistance ops g face delta fuel = some (none, d1)) : d1 = delta := by
  unfold moveDistance at hres
  simp only at hres
  by_cases hz : Math.fzero (delta.dot face.boundary.normal) = true
  · rw [if_pos hz] at hres
    simp only [Option.some.injEq, Prod.mk.injEq, true_and] at hres
    exact hres.symm
  · rw [if_neg hz] at hres
    rcases hs : searchLoop ops g face (edgeRays ops face (delta.dot face.boundary.normal)) fuel
      (g.initialGridSkip (face.boundary.normal.scale (delta.dot face.boundary.normal)),
        floatMax) with _ | ad
    · rw [hs] at hres
      simp at hres
    · rw [hs] at hres
      simp only at hres
      by_cases hgt : |ad| > |delta.dot face.boundary.normal|
      · rw [if_pos hgt] at hres
        simp only [Option.some.injEq, Prod.mk.injEq, true_and] at hres
        exact hres.symm
      · rw [if_neg hgt] at hres
        simp at hres

end Grid

/-! ## Frame conditions -/

/-- C31. Whenever `moveDistance` returns NaN, the delta on return is the delta of the call; this
covers both NaN returns, the one for a delta perpendicular to the normal and the one for a
found distance larger in magnitude than the requested one. -/
theorem moveDistance_nan_keeps_delta (ops : Helpers) (g : Grid) (face : Face) (delta : Vec3f)
    (fuel : Nat) :
    (∀ d1, g.moveDistance ops face delta fuel = some (none, d1) → d1 = delta) ∧
    (|delta.dot face.boundary.normal| ≤ Math.AlmostZero →
      g.moveDistance ops face delta fuel = some (none, delta)) ∧
    (∀ ad, ¬ |delta.dot face.boundary.normal| ≤ Math.AlmostZero →
      Grid.searchLoop ops g face (Grid.edgeRays ops face (delta.dot face.boundary.normal)) fuel
        (g.initialGridSkip (face.boundary.normal.scale (delta.dot face.boundary.normal)),
          floatMax) = some ad →
      |delta.dot face.boundary.normal| < |ad| →
      g.moveDistance ops face delta fuel = some (none, delta)) := by
  refine ⟨fun d1 hres => Grid.moveDistance_nan ops g face delta fuel d1 hres, ?_, ?_⟩
  · intro hperp
    unfold Grid.moveDistance
    simp only
    rw [if_pos ((Grid.fzero_iff _).mpr hperp)]
  · intro ad hz hs hgt
    rw [Grid.moveDistance_of_search ops g face delta fuel ad hz hs, if_pos hgt]

/-- Witness for C31: on the grid of spacing 4, the top face of the axis-aligned box dragged by
`(1, 2, 3)`: the search ends with 4, beyond the requested 3, and the delta comes back as it
was. -/
theorem moveDistance_nan_keeps_delta_witness :
    Grid.searchLoop specHelpers (Grid.mk 2 true) boxTop
        (Grid.edgeRays specHelpers boxTop ((Vec3f.mk 1 2 3).dot boxTop.boundary.normal)) 1
        ((Grid.mk 2 true).initialGridSkip
          (boxTop.boundary.normal.scale ((Vec3f.mk 1 2 3).dot boxTop.boundary.normal)),
          floatMax) = some 4 ∧
    (Grid.mk 2 true).moveDistance specHelpers boxTop (Vec3f.mk 1 2 3) 1
      = some (none, Vec3f.mk 1 2 3) :=
  ⟨by decide!,
   (moveDistance_nan_keeps_delta specHelpers (Grid.mk 2 true) boxTop (Vec3f.mk 1 2 3) 1).2.2
     4 (by decide!) (by decide!) (by decide!)⟩

/-- C32. The result of `moveDelta` is the same for any two values of `worldBounds`. -/
theorem moveDelta_ignores_worldBounds (g : Grid) (bounds w1 w2 : BBox) (r c : Vec3f) :
    g.moveDelta bounds w1 r c = g.moveDelta bounds w2 r c := rfl

/-! ## Game list box -/

/-- C33, at the failing input. With two games in the list and no row selected, `currentRow()`
is `-1`: the guard `index >= size` does not hold, and `gameList[index]` reads outside the list,
where the guard of the sibling `currentRowChanged` rejects the row. A row within the list gives
its entry and a row at or beyond the size gives the empty string. -/
theorem selectedGameName_unselected_row_out_of_range :
    ¬ ((-1 : Int) ≥ toInt32 sampleGames.length) ∧
    toSizeT (-1) = 2 ^ 64 - 1 ∧
    GameListBox.selectedGameName (-1) sampleGames = none ∧
    GameListBox.rowInRange (-1) 2 = false ∧
    GameListBox.selectedGameName 0 sampleGames = sampleGames.get? 0 ∧
    GameListBox.selectedGameName 1 sampleGames = sampleGames.get? 1 ∧
    GameListBox.selectedGameName 2 sampleGames = some emptyName := by
  decide

/-! ## Auxiliary facts: binary32 rounding -/

namespace Binary32

lemma log2Aux_spec : ∀ (fuel n : Nat), 1 ≤ n → n < 2 ^ fuel →
    2 ^ log2Aux fuel n ≤ n ∧ n < 2 ^ (log2Aux fuel n + 1) := by
  intro fuel
  induction fuel with
  | zero =>
    intro n h1 h2
    simp at h2
    omega
  | succ fuel ih =>
    intro n h1 h2
    rw [log2Aux]
    by_cases hn : n < 2
    · rw [if_pos hn]
      have : n = 1 := by omega
      subst this
      norm_num
    · rw [if_neg hn]
      have h3 : 1 ≤ n / 2 := by omega
      have h4 : n / 2 < 2 ^ fuel := by
        rw [pow_succ] at h2
        generalize 2 ^ fuel = X at h2 ⊢
        omega
      obtain ⟨a, b⟩ := ih (n / 2) h3 h4
      simp only [pow_succ] at b ⊢
      generalize 2 ^ log2Aux fuel (n / 2) = Y at a b ⊢
      omega

lemma log2_spec (n : Nat) (h : 1 ≤ n) : 2 ^ log2 n ≤ n ∧ n < 2 ^ (log2 n + 1) :=
  log2Aux_spec n n h (Nat.lt_two_pow n)

/-- The binade exponent brackets the magnitude of a nonzero value. -/
lemma binade_spec (q : ℚ) (hq : q ≠ 0) :
    (2 : ℚ) ^ binade q ≤ |q| ∧ |q| < (2 : ℚ) ^ (binade q + 1) := by
  have hn : 1 ≤ q.num.natAbs := Int.natAbs_pos.mpr (Rat.num_ne_zero.mpr hq)
  have hd : 1 ≤ q.den := q.den_pos
  obtain ⟨n1, n2⟩ := log2_spec _ hn
  obtain ⟨d1, d2⟩ := log2_spec _ hd
  have hdpos : (0 : ℚ) < (q.den : ℚ) := by exact_mod_cast q.den_pos
  have habs : |q| = (q.num.natAbs : ℚ) / (q.den : ℚ) := by
    rw [Nat.cast_natAbs, Int.cast_abs]
    conv_lhs => rw [← Rat.num_div_den q]
    rw [abs_div, abs_of_pos hdpos]
  have N1 : (2 : ℚ) ^ log2 q.num.natAbs ≤ (q.num.natAbs : ℚ) := by exact_mod_cast n1
  have N2 : (q.num.natAbs : ℚ) < (2 : ℚ) ^ (log2 q.num.natAbs + 1) := by exact_mod_cast n2
  have D1 : (2 : ℚ) ^ log2 q.den ≤ (q.den : ℚ) := by exact_mod_cast d1
  have D2 : (q.den : ℚ) < (2 : ℚ) ^ (log2 q.den + 1) := by exact_mod_cast d2
  have hP : (0 : ℚ) < (2 : ℚ) ^ log2 q.den := by positivity
  have hN : (0 : ℚ) < (2 : ℚ) ^ log2 q.num.natAbs := by positivity
  have e0 : (2 : ℚ) ^ ((log2 q.num.natAbs : ℤ) - (log2 q.den : ℤ))
      = (2 : ℚ) ^ log2 q.num.natAbs / (2 : ℚ) ^ log2 q.den := by
    rw [zpow_sub₀ (by norm_num : (2 : ℚ) ≠ 0), zpow_natCast, zpow_natCast]
  have hup : |q| < (2 : ℚ) ^ ((log2 q.num.natAbs : ℤ) - (log2 q.den : ℤ)) * 2 := by
    rw [habs, e0, div_mul_eq_mul_div, div_lt_div_iff₀ hdpos hP]
    rw [pow_succ] at N2
    nlinarith
  have hlow : (2 : ℚ) ^ ((log2 q.num.natAbs : ℤ) - (log2 q.den : ℤ)) / 2 ≤ |q| := by
    rw [habs, e0, div_div, div_le_div_iff₀ (by positivity) hdpos]
    rw [pow_succ] at D2
    nlinarith
  unfold binade
  simp only
  split_ifs with hc
  · refine ⟨hc, ?_⟩
    rw [zpow_add₀ (by norm_num : (2 : ℚ) ≠ 0), zpow_one]
    exact hup
  · refine ⟨?_, ?_⟩
    · rw [zpow_sub₀ (by norm_num : (2 : ℚ) ≠ 0), zpow_one]
      exact hlow
    · rw [sub_add_cancel]
      exact not_le.mp hc

lemma roundHalfEven_intCast (k : ℤ) : roundHalfEven (k : ℚ) = k := by
  unfold roundHalfEven
  rw [Int.floor_intCast, sub_self, if_pos (by norm_num)]

lemma rnd_zero : rnd 0 = 0 := by
  unfold rnd
  rw [if_pos rfl]

/-- A value with a significand below `2 ^ 24` and an exponent of at least `-149` is a `float`:
rounding leaves it as it is. -/
lemma rnd_int_mul_zpow (m p : ℤ) (hm : |m| < 2 ^ 24) (hp : -149 ≤ p) :
    rnd ((m : ℚ) * (2 : ℚ) ^ p) = (m : ℚ) * (2 : ℚ) ^ p := by
  by_cases hq : (m : ℚ) * (2 : ℚ) ^ p = 0
  · rw [hq, rnd_zero]
  · obtain ⟨b1, _⟩ := binade_spec _ hq
    have h2 : (0 : ℚ) < (2 : ℚ) ^ p := by positivity
    have habs : |(m : ℚ) * (2 : ℚ) ^ p| < (2 : ℚ) ^ (24 + p) := by
      rw [abs_mul, abs_of_pos h2, zpow_add₀ (by norm_num : (2 : ℚ) ≠ 0)]
      have : |(m : ℚ)| < (2 : ℚ) ^ (24 : ℤ) := by
        have : ((|m| : ℤ) : ℚ) < ((2 ^ 24 : ℤ) : ℚ) := by exact_mod_cast hm
        rw [Int.cast_abs] at this
        norm_num at this ⊢
        exact this
      exact mul_lt_mul_of_pos_right this h2
    have hlt : binade ((m : ℚ) * (2 : ℚ) ^ p) < 24 + p := by
      have := lt_of_le_of_lt b1 habs
      exact (zpow_lt_zpow_iff_right₀ (by norm_num : (1 : ℚ) < 2)).mp this
    have hpe : max (binade ((m : ℚ) * (2 : ℚ) ^ p) - 23) (-149) ≤ p := max_le (by omega) hp
    unfold rnd
    rw [if_neg hq]
    unfold quantum
    generalize max (binade ((m : ℚ) * (2 : ℚ) ^ p) - 23) (-149) = pe at hpe
    obtain ⟨n, hn⟩ : ∃ n : ℕ, p = pe + n := ⟨(p - pe).toNat, by omega⟩
    have hdiv : (m : ℚ) * (2 : ℚ) ^ p / (2 : ℚ) ^ pe = ((m * 2 ^ n : ℤ) : ℚ) := by
      rw [hn, zpow_add₀ (by norm_num : (2 : ℚ) ≠ 0), zpow_natCast]
      push_cast
      field_simp
      ring
    rw [hdiv, roundHalfEven_intCast]
    rw [hn, zpow_add₀ (by norm_num : (2 : ℚ) ≠ 0), zpow_natCast]
    push_cast
    ring

/-- An integer of at most 24 bits, scaled by a power of two, is a `float`. -/
lemma rnd_int_mul_pow (m : ℤ) (k : ℕ) (hm : |m| ≤ 2 ^ 24) :
    rnd ((m : ℚ) * (2 : ℚ) ^ k) = (m : ℚ) * (2 : ℚ) ^ k := by
  rcases lt_or_eq_of_le hm with hlt | heq
  · have := rnd_int_mul_zpow m (k : ℤ) hlt (by omega)
    rw [zpow_natCast] at this
    exact this
  · have hcases : m = 2 ^ 24 ∨ m = -2 ^ 24 := by
      rcases abs_cases m with ⟨e, _⟩ | ⟨e, _⟩
      · left; omega
      · right; omega
    rcases hcases with rfl | rfl
    · have := rnd_int_mul_zpow 1 ((k : ℤ) + 24) (by norm_num) (by omega)
      rw [zpow_add₀ (by norm_num : (2 : ℚ) ≠ 0), zpow_natCast] at this
      have e : ((2 ^ 24 : ℤ) : ℚ) * (2 : ℚ) ^ k = ((1 : ℤ) : ℚ) * ((2 : ℚ) ^ k * (2 : ℚ) ^ (24 : ℤ)) := by
        norm_num
        ring
      rw [e]
      exact this
    · have := rnd_int_mul_zpow (-1) ((k : ℤ) + 24) (by norm_num) (by omega)
      rw [zpow_add₀ (by norm_num : (2 : ℚ) ≠ 0), zpow_natCast] at this
      have e : ((-2 ^ 24 : ℤ) : ℚ) * (2 : ℚ) ^ k = ((-1 : ℤ) : ℚ) * ((2 : ℚ) ^ k * (2 : ℚ) ^ (24 : ℤ)) := by
        norm_num
        ring
      rw [e]
      exact this

lemma actualSize_cast_pow (g : Grid) (h : g.m_size < 31) :
    ∃ k : ℕ, (g.actualSize : ℚ) = (2 : ℚ) ^ k := by
  rw [Grid.actualSize_eq_pow g h]
  split_ifs
  · exact ⟨g.m_size, by push_cast; rfl⟩
  · exact ⟨0, by simp⟩

/-- A multiple of the grid size with a factor of at most 24 bits is a `float`. -/
lemma rnd_actualSize_mul (g : Grid) (h : g.m_size < 31) (c : ℤ) (hc : |c| ≤ 2 ^ 24) :
    rnd ((g.actualSize : ℚ) * (c : ℚ)) = (g.actualSize : ℚ) * (c : ℚ) := by
  obtain ⟨k, hk⟩ := actualSize_cast_pow g h
  rw [hk, mul_comm]
  exact rnd_int_mul_pow c k hc

lemma ofInt_actualSize (g : Grid) (h : g.m_size < 31) :
    ofInt (g.actualSize : ℤ) = (g.actualSize : ℚ) := by
  have := rnd_actualSize_mul g h 1 (by norm_num)
  simp only [Int.cast_one, mul_one] at this
  unfold ofInt
  rw [Int.cast_natCast]
  exact this

lemma ofInt_actSize (g : Grid) (h : g.m_size < 31) : ofInt g.actSize = (g.actualSize : ℚ) := by
  rw [Grid.actSize_eq g h]
  exact ofInt_actualSize g h

lemma abs_int_lt_of_cast (c : ℤ) (x : ℚ) (hx : |x| < 2 ^ 24) (hc : (c : ℚ) = x) :
    |c| < 2 ^ 24 := by
  rw [← hc] at hx
  have : ((|c| : ℤ) : ℚ) < ((2 ^ 24 : ℤ) : ℚ) := by
    rw [Int.cast_abs]
    norm_num
    norm_num at hx
    exact hx
  exact_mod_cast this

/-- Below `2 ^ 24` grid increments, for a value whose quotient by the grid size is a `float`,
every operation of `snapUp` is exact. -/
lemma snapUp_eq_exact (g : Grid) (h : g.m_size < 31) (f : ℚ) (b : Bool)
    (hq : rnd (f / (g.actualSize : ℚ)) = f / (g.actualSize : ℚ))
    (hr : |f| < 2 ^ 24 * (g.actualSize : ℚ)) :
    snapUp g f b = g.snapUp f b := by
  have ha := Grid.actualSize_cast_pos g h
  have hfa : |f / (g.actualSize : ℚ)| < 2 ^ 24 := by
    rw [abs_div, abs_of_pos ha, div_lt_iff₀ ha]
    exact hr
  obtain ⟨hlo, hhi⟩ := abs_lt.mp hfa
  have hc : |⌈f / (g.actualSize : ℚ)⌉| ≤ 2 ^ 24 := by
    rw [abs_le]
    constructor
    · have h1 := Int.le_ceil (f / (g.actualSize : ℚ))
      have h2 : ((-2 ^ 24 : ℤ) : ℚ) < ((⌈f / (g.actualSize : ℚ)⌉ : ℤ) : ℚ) := by
        push_cast
        linarith
      have h3 : (-2 ^ 24 : ℤ) < ⌈f / (g.actualSize : ℚ)⌉ := by exact_mod_cast h2
      exact h3.le
    · rw [Int.ceil_le]
      push_cast
      exact hhi.le
  unfold snapUp
  simp only
  rw [ofInt_actSize g h, ofInt_actualSize g h, hq, rnd_actualSize_mul g h _ hc,
    Grid.snapUp_eq g h]
  split_ifs with hs
  · have hcq : ((⌈f / (g.actualSize : ℚ)⌉ : ℤ) : ℚ) = f / (g.actualSize : ℚ) := by
      rw [eq_div_iff ha.ne', mul_comm]
      exact hs
    have hlt := abs_int_lt_of_cast _ _ hfa hcq
    have h1 : |⌈f / (g.actualSize : ℚ)⌉ + 1| ≤ 2 ^ 24 := by
      rw [abs_lt] at hlt
      rw [abs_le]
      constructor <;> omega
    have e : (g.actualSize : ℚ) * ((⌈f / (g.actualSize : ℚ)⌉ : ℤ) : ℚ) + (g.actualSize : ℚ)
        = (g.actualSize : ℚ) * ((⌈f / (g.actualSize : ℚ)⌉ + 1 : ℤ) : ℚ) := by
      push_cast
      ring
    rw [e]
    exact rnd_actualSize_mul g h _ h1
  · rfl

/-- Below `2 ^ 24` grid increments, for a value whose quotient by the grid size is a `float`,
every operation of `snapDown` is exact. -/
lemma snapDown_eq_exact (g : Grid) (h : g.m_size < 31) (f : ℚ) (b : Bool)
    (hq : rnd (f / (g.actualSize : ℚ)) = f / (g.actualSize : ℚ))
    (hr : |f| < 2 ^ 24 * (g.actualSize : ℚ)) :
    snapDown g f b = g.snapDown f b := by
  have ha := Grid.actualSize_cast_pos g h
  have hfa : |f / (g.actualSize : ℚ)| < 2 ^ 24 := by
    rw [abs_div, abs_of_pos ha, div_lt_iff₀ ha]
    exact hr
  obtain ⟨hlo, hhi⟩ := abs_lt.mp hfa
  have hc : |⌊f / (g.actualSize : ℚ)⌋| ≤ 2 ^ 24 := by
    rw [abs_le]
    constructor
    · rw [Int.le_floor]
      push_cast
      exact hlo.le
    · have h1 := Int.floor_le (f / (g.actualSize : ℚ))
      have h2 : ((⌊f / (g.actualSize : ℚ)⌋ : ℤ) : ℚ) < ((2 ^ 24 : ℤ) : ℚ) := by
        push_cast
        linarith
      have h3 : ⌊f / (g.actualSize : ℚ)⌋ < (2 ^ 24 : ℤ) := by exact_mod_cast h2
      exact h3.le
  unfold snapDown
  simp only
  rw [ofInt_actSize g h, ofInt_actualSize g h, hq, rnd_actualSize_mul g h _ hc,
    Grid.snapDown_eq g h]
  split_ifs with hs
  · have hcq : ((⌊f / (g.actualSize : ℚ)⌋ : ℤ) : ℚ) = f / (g.actualSize : ℚ) := by
      rw [eq_div_iff ha.ne', mul_comm]
      exact hs
    have hlt := abs_int_lt_of_cast _ _ hfa hcq
    have h1 : |⌊f / (g.actualSize : ℚ)⌋ - 1| ≤ 2 ^ 24 := by
      rw [abs_lt] at hlt
      rw [abs_le]
      constructor <;> omega
    have e : (g.actualSize : ℚ) * ((⌊f / (g.actualSize : ℚ)⌋ : ℤ) : ℚ) - (g.actualSize : ℚ)
        = (g.actualSize : ℚ) * ((⌊f / (g.actualSize : ℚ)⌋ - 1 : ℤ) : ℚ) := by
      push_cast
      ring
    rw [e]
    exact rnd_actualSize_mul g h _ h1
  · rfl

lemma roundHalfEven_bounds (t : ℚ) : ⌊t⌋ ≤ roundHalfEven t ∧ roundHalfEven t ≤ ⌈t⌉ := by
  have hfc : ⌊t⌋ ≤ ⌈t⌉ := Int.floor_le_ceil t
  have hstep : (⌊t⌋ : ℚ) < t → ⌊t⌋ + 1 ≤ ⌈t⌉ := by
    intro hlt
    have h1 : (⌊t⌋ : ℚ) < (⌈t⌉ : ℚ) := lt_of_lt_of_le hlt (Int.le_ceil t)
    have h2 : ⌊t⌋ < ⌈t⌉ := by exact_mod_cast h1
    omega
  unfold roundHalfEven
  split_ifs with h1 h2 h3
  · exact ⟨le_refl _, hfc⟩
  · exact ⟨by omega, hstep (by linarith)⟩
  · exact ⟨le_refl _, hfc⟩
  · exact ⟨by omega, hstep (by linarith)⟩

/-- A nonzero `float` is a significand below `2 ^ 24` times the quantum of its binade. -/
lemma float_repr (q : ℚ) (hq : rnd q = q) (h0 : q ≠ 0) :
    ∃ n : ℤ, |n| < 2 ^ 24 ∧ q = (n : ℚ) * (2 : ℚ) ^ max (binade q - 23) (-149) := by
  obtain ⟨_, b2⟩ := binade_spec q h0
  unfold rnd at hq
  rw [if_neg h0] at hq
  unfold quantum at hq
  refine ⟨roundHalfEven (q / (2 : ℚ) ^ max (binade q - 23) (-149)), ?_, hq.symm⟩
  generalize roundHalfEven (q / (2 : ℚ) ^ max (binade q - 23) (-149)) = R at hq
  have hQ : (0 : ℚ) < (2 : ℚ) ^ max (binade q - 23) (-149) := by positivity
  have h1 : |(R : ℚ)| * (2 : ℚ) ^ max (binade q - 23) (-149) < (2 : ℚ) ^ (binade q + 1) := by
    have hmul : |(R : ℚ) * (2 : ℚ) ^ max (binade q - 23) (-149)|
        = |(R : ℚ)| * (2 : ℚ) ^ max (binade q - 23) (-149) := by
      rw [abs_mul, abs_of_pos hQ]
    rw [← hmul, hq]
    exact b2
  have h2 : (2 : ℚ) ^ (binade q + 1)
      ≤ (2 : ℚ) ^ (24 : ℤ) * (2 : ℚ) ^ max (binade q - 23) (-149) := by
    rw [← zpow_add₀ (by norm_num : (2 : ℚ) ≠ 0)]
    apply zpow_le_zpow_right₀ (by norm_num)
    have := le_max_left (binade q - 23) (-149)
    omega
  have h3 : |(R : ℚ)| < (2 : ℚ) ^ (24 : ℤ) := lt_of_mul_lt_mul_right (lt_of_lt_of_le h1 h2) hQ.le
  have h4 : ((|R| : ℤ) : ℚ) < ((2 ^ 24 : ℤ) : ℚ) := by
    rw [Int.cast_abs]
    norm_num
    norm_num at h3
    exact h3
  exact_mod_cast h4

/-- Rounding does not fall below a `float` that the exact value reaches. -/
lemma rnd_ge_of_float_le (y x : ℚ) (n p : ℤ) (hn : |n| < 2 ^ 24) (hp : -149 ≤ p)
    (hy : y = (n : ℚ) * (2 : ℚ) ^ p) (hle : y ≤ x) : y ≤ rnd x := by
  by_cases hx : x = 0
  · rw [hx, rnd_zero]
    rw [hx] at hle
    exact hle
  · obtain ⟨b1, _⟩ := binade_spec x hx
    unfold rnd
    rw [if_neg hx]
    unfold quantum
    set pe : ℤ := max (binade x - 23) (-149) with hpe
    have hQ : (0 : ℚ) < (2 : ℚ) ^ pe := by positivity
    obtain ⟨r1, _⟩ := roundHalfEven_bounds (x / (2 : ℚ) ^ pe)
    by_cases hcase : pe ≤ p
    · obtain ⟨m, hm⟩ : ∃ m : ℕ, p = pe + m := ⟨(p - pe).toNat, by omega⟩
      have hyQ : y = ((n * 2 ^ m : ℤ) : ℚ) * (2 : ℚ) ^ pe := by
        rw [hy, hm, zpow_add₀ (by norm_num : (2 : ℚ) ≠ 0), zpow_natCast]
        push_cast
        ring
      have h1 : ((n * 2 ^ m : ℤ) : ℚ) ≤ x / (2 : ℚ) ^ pe := by
        rw [le_div_iff₀ hQ, ← hyQ]
        exact hle
      have h2 : n * 2 ^ m ≤ ⌊x / (2 : ℚ) ^ pe⌋ := Int.le_floor.mpr h1
      have h3 : ((n * 2 ^ m : ℤ) : ℚ) ≤ ((roundHalfEven (x / (2 : ℚ) ^ pe) : ℤ) : ℚ) := by
        exact_mod_cast le_trans h2 r1
      rw [hyQ]
      exact mul_le_mul_of_nonneg_right h3 hQ.le
    · have hpe1 : pe = binade x - 23 := by
        rcases max_cases (binade x - 23) (-149) with ⟨e, _⟩ | ⟨e, _⟩
        · rw [hpe, e]
        · rw [hpe, e] at hcase
          omega
      have hylt : |y| < (2 : ℚ) ^ binade x := by
        have h2p : (0 : ℚ) < (2 : ℚ) ^ p := by positivity
        have hnq : |(n : ℚ)| < (2 : ℚ) ^ (24 : ℤ) := by
          have : ((|n| : ℤ) : ℚ) < ((2 ^ 24 : ℤ) : ℚ) := by exact_mod_cast hn
          rw [Int.cast_abs] at this
          norm_num at this ⊢
          exact this
        rw [hy, abs_mul, abs_of_pos h2p]
        calc |(n : ℚ)| * (2 : ℚ) ^ p < (2 : ℚ) ^ (24 : ℤ) * (2 : ℚ) ^ p :=
              mul_lt_mul_of_pos_right hnq h2p
          _ = (2 : ℚ) ^ (24 + p) := by rw [zpow_add₀ (by norm_num : (2 : ℚ) ≠ 0)]
          _ ≤ (2 : ℚ) ^ binade x := zpow_le_zpow_right₀ (by norm_num) (by omega)
      have hxpos : 0 < x := by
        by_contra hneg
        have hx0 : x ≤ 0 := not_lt.mp hneg
        have hy0 : y ≤ 0 := le_trans hle hx0
        rw [abs_of_nonpos hy0] at hylt
        rw [abs_of_nonpos hx0] at b1
        linarith
      rw [abs_of_pos hxpos] at b1
      have e23 : (2 : ℚ) ^ binade x = ((2 ^ 23 : ℤ) : ℚ) * (2 : ℚ) ^ pe := by
        rw [hpe1]
        have e : ((2 ^ 23 : ℤ) : ℚ) = (2 : ℚ) ^ (23 : ℤ) := by norm_num
        rw [e, ← zpow_add₀ (by norm_num : (2 : ℚ) ≠ 0)]
        congr 1
        ring
      have h1 : ((2 ^ 23 : ℤ) : ℚ) ≤ x / (2 : ℚ) ^ pe := by
        rw [le_div_iff₀ hQ, ← e23]
        exact b1
      have h2 : (2 ^ 23 : ℤ) ≤ ⌊x / (2 : ℚ) ^ pe⌋ := Int.le_floor.mpr h1
      have h3 : ((2 ^ 23 : ℤ) : ℚ) ≤ ((roundHalfEven (x / (2 : ℚ) ^ pe) : ℤ) : ℚ) := by
        exact_mod_cast le_trans h2 r1
      have h4 := mul_le_mul_of_nonneg_right h3 hQ.le
      rw [← e23] at h4
      have := le_abs_self y
      linarith

/-- Rounding does not rise above a `float` that bounds the exact value. -/
lemma rnd_le_of_float_ge (y x : ℚ) (n p : ℤ) (hn : |n| < 2 ^ 24) (hp : -149 ≤ p)
    (hy : y = (n : ℚ) * (2 : ℚ) ^ p) (hle : x ≤ y) : rnd x ≤ y := by
  by_cases hx : x = 0
  · rw [hx, rnd_zero]
    rw [hx] at hle
    exact hle
  · obtain ⟨b1, _⟩ := binade_spec x hx
    unfold rnd
    rw [if_neg hx]
    unfold quantum
    set pe : ℤ := max (binade x - 23) (-149) with hpe
    have hQ : (0 : ℚ) < (2 : ℚ) ^ pe := by positivity
    obtain ⟨_, r2⟩ := roundHalfEven_bounds (x / (2 : ℚ) ^ pe)
    by_cases hcase : pe ≤ p
    · obtain ⟨m, hm⟩ : ∃ m : ℕ, p = pe + m := ⟨(p - pe).toNat, by omega⟩
      have hyQ : y = ((n * 2 ^ m : ℤ) : ℚ) * (2 : ℚ) ^ pe := by
        rw [hy, hm, zpow_add₀ (by norm_num : (2 : ℚ) ≠ 0), zpow_natCast]
        push_cast
        ring
      have h1 : x / (2 : ℚ) ^ pe ≤ ((n * 2 ^ m : ℤ) : ℚ) := by
        rw [div_le_iff₀ hQ, ← hyQ]
        exact hle
      have h2 : ⌈x / (2 : ℚ) ^ pe⌉ ≤ n * 2 ^ m := Int.ceil_le.mpr h1
      have h3 : ((roundHalfEven (x / (2 : ℚ) ^ pe) : ℤ) : ℚ) ≤ ((n * 2 ^ m : ℤ) : ℚ) := by
        exact_mod_cast le_trans r2 h2
      rw [hyQ]
      exact mul_le_mul_of_nonneg_right h3 hQ.le
    · have hpe1 : pe = binade x - 23 := by
        rcases max_cases (binade x - 23) (-149) with ⟨e, _⟩ | ⟨e, _⟩
        · rw [hpe, e]
        · rw [hpe, e] at hcase
          omega
      have hylt : |y| < (2 : ℚ) ^ binade x := by
        have h2p : (0 : ℚ) < (2 : ℚ) ^ p := by positivity
        have hnq : |(n : ℚ)| < (2 : ℚ) ^ (24 : ℤ) := by
          have : ((|n| : ℤ) : ℚ) < ((2 ^ 24 : ℤ) : ℚ) := by exact_mod_cast hn
          rw [Int.cast_abs] at this
          norm_num at this ⊢
          exact this
        rw [hy, abs_mul, abs_of_pos h2p]
        calc |(n : ℚ)| * (2 : ℚ) ^ p < (2 : ℚ) ^ (24 : ℤ) * (2 : ℚ) ^ p :=
              mul_lt_mul_of_pos_right hnq h2p
          _ = (2 : ℚ) ^ (24 + p) := by rw [zpow_add₀ (by norm_num : (2 : ℚ) ≠ 0)]
          _ ≤ (2 : ℚ) ^ binade x := zpow_le_zpow_right₀ (by norm_num) (by omega)
      have hxneg : x < 0 := by
        by_contra hpos
        have hx0 : 0 ≤ x := not_lt.mp hpos
        have hy0 : 0 ≤ y := le_trans hx0 hle
        rw [abs_of_nonneg hy0] at hylt
        rw [abs_of_nonneg hx0] at b1
        linarith
      rw [abs_of_neg hxneg] at b1
      have e23 : (2 : ℚ) ^ binade x = ((2 ^ 23 : ℤ) : ℚ) * (2 : ℚ) ^ pe := by
        rw [hpe1]
        have e : ((2 ^ 23 : ℤ) : ℚ) = (2 : ℚ) ^ (23 : ℤ) := by norm_num
        rw [e, ← zpow_add₀ (by norm_num : (2 : ℚ) ≠ 0)]
        congr 1
        ring
      have h1 : x / (2 : ℚ) ^ pe ≤ ((-2 ^ 23 : ℤ) : ℚ) := by
        rw [div_le_iff₀ hQ]
        have : ((-2 ^ 23 : ℤ) : ℚ) * (2 : ℚ) ^ pe = -(2 : ℚ) ^ binade x := by
          rw [e23]
          push_cast
          ring
        rw [this]
        linarith
      have h2 : ⌈x / (2 : ℚ) ^ pe⌉ ≤ (-2 ^ 23 : ℤ) := Int.ceil_le.mpr h1
      have h3 : ((roundHalfEven (x / (2 : ℚ) ^ pe) : ℤ) : ℚ) ≤ ((-2 ^ 23 : ℤ) : ℚ) := by
        exact_mod_cast le_trans r2 h2
      have h4 := mul_le_mul_of_nonneg_right h3 hQ.le
      have e24 : ((-2 ^ 23 : ℤ) : ℚ) * (2 : ℚ) ^ pe = -(2 : ℚ) ^ binade x := by
        rw [e23]
        push_cast
        ring
      rw [e24] at h4
      have := neg_abs_le y
      linarith

/-- A `float` quotient of at least `2 ^ 24` in magnitude is an integer, and the value itself is
a `float` with the same significand. -/
lemma large_quotient (g : Grid) (h : g.m_size < 31) (f : ℚ)
    (hq : rnd (f / (g.actualSize : ℚ)) = f / (g.actualSize : ℚ))
    (hr : ¬ |f| < 2 ^ 24 * (g.actualSize : ℚ)) :
    ∃ (n p c : ℤ), |n| < 2 ^ 24 ∧ -149 ≤ p ∧ f = (n : ℚ) * (2 : ℚ) ^ p ∧
      f / (g.actualSize : ℚ) = (c : ℚ) := by
  have ha := Grid.actualSize_cast_pos g h
  obtain ⟨k, hk⟩ := actualSize_cast_pow g h
  obtain ⟨q, hqdef⟩ : ∃ q : ℚ, q = f / (g.actualSize : ℚ) := ⟨_, rfl⟩
  rw [← hqdef] at hq ⊢
  have hfq : f = (g.actualSize : ℚ) * q := by
    rw [hqdef]
    field_simp
  have hqabs : (2 : ℚ) ^ (24 : ℤ) ≤ |q| := by
    rw [hqdef, abs_div, abs_of_pos ha, le_div_iff₀ ha]
    have := not_lt.mp hr
    norm_num at this ⊢
    exact this
  have hq0 : q ≠ 0 := by
    intro e
    rw [e] at hqabs
    norm_num at hqabs
  obtain ⟨_, b2⟩ := binade_spec q hq0
  obtain ⟨n, hn, hrep⟩ := float_repr q hq hq0
  have he : 24 ≤ binade q := by
    have h1 := lt_of_le_of_lt hqabs b2
    have h2 := (zpow_lt_zpow_iff_right₀ (by norm_num : (1 : ℚ) < 2)).mp h1
    omega
  have hpe : 1 ≤ max (binade q - 23) (-149) := le_trans (by omega) (le_max_left _ _)
  generalize max (binade q - 23) (-149) = pe at hrep hpe
  obtain ⟨m, hm⟩ : ∃ m : ℕ, pe = m := ⟨pe.toNat, by omega⟩
  refine ⟨n, (m : ℤ) + k, n * 2 ^ m, hn, by omega, ?_, ?_⟩
  · rw [hfq, hk, hrep, hm, zpow_add₀ (by norm_num : (2 : ℚ) ≠ 0), zpow_natCast, zpow_natCast]
    ring
  · rw [hrep, hm, zpow_natCast]
    push_cast
    rfl

/-- In binary32, `snapUp` does not fall below its argument, for every `float` whose quotient by
the grid size is a `float`. -/
lemma snapUp_ge (g : Grid) (h : g.m_size < 31) (f : ℚ) (b : Bool)
    (hq : rnd (f / (g.actualSize : ℚ)) = f / (g.actualSize : ℚ)) :
    f ≤ snapUp g f b := by
  have ha := Grid.actualSize_cast_pos g h
  by_cases hr : |f| < 2 ^ 24 * (g.actualSize : ℚ)
  · rw [snapUp_eq_exact g h f b hq hr]
    exact (Grid.snapUp_least g h f b).2.1.le
  · obtain ⟨n, p, c, hn, hp, hf, hc⟩ := large_quotient g h f hq hr
    have hfl : rnd f = f := by
      rw [hf]
      exact rnd_int_mul_zpow n p hn hp
    have hac : (g.actualSize : ℚ) * (c : ℚ) = f := by
      rw [← hc]
      field_simp
    unfold snapUp
    simp only
    rw [ofInt_actSize g h, ofInt_actualSize g h, hq, hc, Int.ceil_intCast, hac, hfl, if_pos rfl]
    exact rnd_ge_of_float_le f _ n p hn hp hf (by linarith)

/-- In binary32, `snapDown` does not rise above its argument, for every `float` whose quotient
by the grid size is a `float`. -/
lemma snapDown_le (g : Grid) (h : g.m_size < 31) (f : ℚ) (b : Bool)
    (hq : rnd (f / (g.actualSize : ℚ)) = f / (g.actualSize : ℚ)) :
    snapDown g f b ≤ f := by
  have ha := Grid.actualSize_cast_pos g h
  by_cases hr : |f| < 2 ^ 24 * (g.actualSize : ℚ)
  · rw [snapDown_eq_exact g h f b hq hr]
    exact (Grid.snapDown_greatest g h f b).2.1.le
  · obtain ⟨n, p, c, hn, hp, hf, hc⟩ := large_quotient g h f hq hr
    have hfl : rnd f = f := by
      rw [hf]
      exact rnd_int_mul_zpow n p hn hp
    have hac : (g.actualSize : ℚ) * (c : ℚ) = f := by
      rw [← hc]
      field_simp
    unfold snapDown
    simp only
    rw [ofInt_actSize g h, ofInt_actualSize g h, hq, hc, Int.floor_intCast, hac, hfl, if_pos rfl]
    exact rnd_le_of_float_ge f _ n p hn hp hf (by linarith)

/-- Beyond `2 ^ 24` grid increments every `float` is on a grid line, and `snapUp` and `snapDown`
return the rounded sum and the rounded difference. -/
lemma snapUp_snapDown_large (g : Grid) (h : g.m_size < 31) (f : ℚ) (b : Bool)
    (hq : rnd (f / (g.actualSize : ℚ)) = f / (g.actualSize : ℚ))
    (hr : ¬ |f| < 2 ^ 24 * (g.actualSize : ℚ)) :
    (∃ k : ℤ, f = (k : ℚ) * (g.actualSize : ℚ)) ∧
    snapUp g f b = rnd (f + (g.actualSize : ℚ)) ∧
    snapDown g f b = rnd (f - (g.actualSize : ℚ)) := by
  have ha := Grid.actualSize_cast_pos g h
  obtain ⟨n, p, c, hn, hp, hf, hc⟩ := large_quotient g h f hq hr
  have hfl : rnd f = f := by
    rw [hf]
    exact rnd_int_mul_zpow n p hn hp
  have hac : (g.actualSize : ℚ) * (c : ℚ) = f := by
    rw [← hc]
    field_simp
  refine ⟨⟨c, by rw [← hac]; ring⟩, ?_, ?_⟩
  · unfold snapUp
    simp only
    rw [ofInt_actSize g h, ofInt_actualSize g h, hq, hc, Int.ceil_intCast, hac, hfl, if_pos rfl]
  · unfold snapDown
    simp only
    rw [ofInt_actSize g h, ofInt_actualSize g h, hq, hc, Int.floor_intCast, hac, hfl, if_pos rfl]

end Binary32

namespace Grid

lemma pickCloser_eq_or (dist c : Option ℚ) :
    pickCloser dist c = dist ∨ pickCloser dist c = c := by
  unfold pickCloser
  split_ifs
  · exact Or.inr rfl
  · exact Or.inl rfl

end Grid

namespace Binary32

lemma planeIntersectWithRay_nonneg (p : Plane) (ray : Ray) (t : ℚ)
    (ht : planeIntersectWithRay p ray = some t) : 0 ≤ t := by
  unfold planeIntersectWithRay at ht
  simp only at ht
  split_ifs at ht with h1 h2
  cases ht
  exact not_lt.mp h2

/-- In binary32 a distance returned by `intersectWithRay` is not negative. -/
lemma intersectWithRay_nonneg (g : Grid) (ray : Ray) (skip : Nat) (t : ℚ)
    (ht : intersectWithRay g ray skip = some t) : 0 ≤ t := by
  unfold intersectWithRay at ht
  simp only at ht
  rcases Grid.pickCloser_eq_or
    (Grid.pickCloser
      (planeIntersectWithRay (planeOfAnchor Vec3f.PosX (planeAnchor g ray skip)) ray)
      (planeIntersectWithRay (planeOfAnchor Vec3f.PosY (planeAnchor g ray skip)) ray))
    (planeIntersectWithRay (planeOfAnchor Vec3f.PosZ (planeAnchor g ray skip)) ray) with e | e
  · rw [e] at ht
    rcases Grid.pickCloser_eq_or
      (planeIntersectWithRay (planeOfAnchor Vec3f.PosX (planeAnchor g ray skip)) ray)
      (planeIntersectWithRay (planeOfAnchor Vec3f.PosY (planeAnchor g ray skip)) ray) with e1 | e1
    · rw [e1] at ht
      exact planeIntersectWithRay_nonneg _ _ t ht
    · rw [e1] at ht
      exact planeIntersectWithRay_nonneg _ _ t ht
  · rw [e] at ht
    exact planeIntersectWithRay_nonneg _ _ t ht

end Binary32

/-! ## Scalar snapping, in exact arithmetic and in binary32 -/

/-- C3, as amended. For a grid with `m_size < 31`. In exact arithmetic, `snapUp f ≥ f` and
`snapDown f ≤ f` for every `f`, and both are strict when `f` is an integer multiple of
`actualSize()`. In binary32, for every `f` whose quotient `f / actualSize()` is a `float` (the
division does not underflow), `snapUp f ≥ f` and `snapDown f ≤ f`, and both are strict when `f`
is an integer multiple of `actualSize()` below `2 ^ 24` increments in magnitude. -/
theorem snapUp_snapDown_bounds (g : Grid) (h : g.m_size < 31) (f : ℚ) (b : Bool) :
    (f ≤ g.snapUp f b ∧ g.snapDown f b ≤ f ∧
      ∀ k : ℤ, f = (k : ℚ) * (g.actualSize : ℚ) → f < g.snapUp f b ∧ g.snapDown f b < f) ∧
    (Binary32.rnd (f / (g.actualSize : ℚ)) = f / (g.actualSize : ℚ) →
      f ≤ Binary32.snapUp g f b ∧ Binary32.snapDown g f b ≤ f ∧
      (|f| < 2 ^ 24 * (g.actualSize : ℚ) → ∀ k : ℤ, f = (k : ℚ) * (g.actualSize : ℚ) →
        f < Binary32.snapUp g f b ∧ Binary32.snapDown g f b < f)) := by
  refine ⟨⟨(Grid.snapUp_least g h f b).2.1.le, (Grid.snapDown_greatest g h f b).2.1.le,
    fun _ _ => ⟨(Grid.snapUp_least g h f b).2.1, (Grid.snapDown_greatest g h f b).2.1⟩⟩, ?_⟩
  intro hq
  refine ⟨Binary32.snapUp_ge g h f b hq, Binary32.snapDown_le g h f b hq, ?_⟩
  intro hr _ _
  rw [Binary32.snapUp_eq_exact g h f b hq hr, Binary32.snapDown_eq_exact g h f b hq hr]
  exact ⟨(Grid.snapUp_least g h f b).2.1, (Grid.snapDown_greatest g h f b).2.1⟩

/-- Witness for C3 as amended: grid size 2 (spacing 4) at the grid line `f = 8`, in exact
arithmetic and in binary32. -/
theorem snapUp_snapDown_bounds_witness :
    (8 : ℚ) = ((2 : ℤ) : ℚ) * ((Grid.mk 2 true).actualSize : ℚ) ∧
    ((8 : ℚ) < (Grid.mk 2 true).snapUp 8 true ∧ (Grid.mk 2 true).snapDown 8 true < 8) ∧
    ((8 : ℚ) < Binary32.snapUp (Grid.mk 2 true) 8 true ∧
      Binary32.snapDown (Grid.mk 2 true) 8 true < 8) :=
  have hk : (8 : ℚ) = ((2 : ℤ) : ℚ) * ((Grid.mk 2 true).actualSize : ℚ) := by decide!
  ⟨hk, (snapUp_snapDown_bounds (Grid.mk 2 true) (by decide) 8 true).1.2.2 2 hk,
   ((snapUp_snapDown_bounds (Grid.mk 2 true) (by decide) 8 true).2 (by decide!)).2.2
     (by decide!) 2 hk⟩

/-- Counterexample to C3 as stated, in binary32. On the unit grid the `float`
`f = 2 ^ 24 = 16777216` is an integer multiple of `actualSize() = 1`; `s` is `f`, the sum
`s += actualSize()` is `16777217`, halfway between the `float`s `16777216` and `16777218`, and
rounds back to `f`: `snapUp f` is `f` itself, not strictly greater. In the same way
`snapDown (-f)` is `-f`. -/
theorem snapUp_rounds_back_counterexample :
    (Grid.mk 0 true).actualSize = 1 ∧
    (2 ^ 24 : ℚ) = ((2 ^ 24 : ℤ) : ℚ) * ((Grid.mk 0 true).actualSize : ℚ) ∧
    Binary32.rnd (2 ^ 24) = 2 ^ 24 ∧
    Binary32.rnd (2 ^ 24 + 1) = 2 ^ 24 ∧
    Binary32.snapUp (Grid.mk 0 true) (2 ^ 24) false = 2 ^ 24 ∧
    ¬ ((2 ^ 24 : ℚ) < Binary32.snapUp (Grid.mk 0 true) (2 ^ 24) false) ∧
    Binary32.snapDown (Grid.mk 0 true) (-2 ^ 24) false = -2 ^ 24 ∧
    ¬ (Binary32.snapDown (Grid.mk 0 true) (-2 ^ 24) false < (-2 ^ 24 : ℚ)) := by
  decide!

/-- C4, as amended. For a grid with `m_size < 31` and `a = actualSize()`. In exact arithmetic,
`snapUp f` is the least integer multiple of `a` strictly greater than `f`, `snapDown f` is the
greatest integer multiple of `a` strictly less than `f`, and for `f` on a grid line they are
`f + a` and `f - a`. In binary32 the same holds for every `f` below `2 ^ 24` increments in
magnitude whose quotient `f / a` is a `float`; from `2 ^ 24` increments on, such an `f` is on a
grid line and `snapUp f`, `snapDown f` are the `float`s nearest to `f + a` and `f - a`. -/
theorem snapUp_snapDown_next_grid_line (g : Grid) (h : g.m_size < 31) (f : ℚ) (b : Bool) :
    (((∃ k : ℤ, g.snapUp f b = (k : ℚ) * (g.actualSize : ℚ)) ∧ f < g.snapUp f b ∧
        ∀ m : ℤ, f < (m : ℚ) * (g.actualSize : ℚ) →
          g.snapUp f b ≤ (m : ℚ) * (g.actualSize : ℚ)) ∧
      ((∃ k : ℤ, g.snapDown f b = (k : ℚ) * (g.actualSize : ℚ)) ∧ g.snapDown f b < f ∧
        ∀ m : ℤ, (m : ℚ) * (g.actualSize : ℚ) < f →
          (m : ℚ) * (g.actualSize : ℚ) ≤ g.snapDown f b) ∧
      ∀ k : ℤ, f = (k : ℚ) * (g.actualSize : ℚ) →
        g.snapUp f b = f + (g.actualSize : ℚ) ∧ g.snapDown f b = f - (g.actualSize : ℚ)) ∧
    (Binary32.rnd (f / (g.actualSize : ℚ)) = f / (g.actualSize : ℚ) →
      |f| < 2 ^ 24 * (g.actualSize : ℚ) →
      ((∃ k : ℤ, Binary32.snapUp g f b = (k : ℚ) * (g.actualSize : ℚ)) ∧
        f < Binary32.snapUp g f b ∧
        ∀ m : ℤ, f < (m : ℚ) * (g.actualSize : ℚ) →
          Binary32.snapUp g f b ≤ (m : ℚ) * (g.actualSize : ℚ)) ∧
      ((∃ k : ℤ, Binary32.snapDown g f b = (k : ℚ) * (g.actualSize : ℚ)) ∧
        Binary32.snapDown g f b < f ∧
        ∀ m : ℤ, (m : ℚ) * (g.actualSize : ℚ) < f →
          (m : ℚ) * (g.actualSize : ℚ) ≤ Binary32.snapDown g f b) ∧
      ∀ k : ℤ, f = (k : ℚ) * (g.actualSize : ℚ) →
        Binary32.snapUp g f b = f + (g.actualSize : ℚ) ∧
        Binary32.snapDown g f b = f - (g.actualSize : ℚ)) ∧
    (Binary32.rnd (f / (g.actualSize : ℚ)) = f / (g.actualSize : ℚ) →
      ¬ |f| < 2 ^ 24 * (g.actualSize : ℚ) →
      (∃ k : ℤ, f = (k : ℚ) * (g.actualSize : ℚ)) ∧
      Binary32.snapUp g f b = Binary32.rnd (f + (g.actualSize : ℚ)) ∧
      Binary32.snapDown g f b = Binary32.rnd (f - (g.actualSize : ℚ))) := by
  have hexact : ∀ k : ℤ, f = (k : ℚ) * (g.actualSize : ℚ) →
      g.snapUp f b = f + (g.actualSize : ℚ) ∧ g.snapDown f b = f - (g.actualSize : ℚ) :=
    fun k hk => Grid.snapUp_snapDown_on_grid g h f b k hk
  refine ⟨⟨Grid.snapUp_least g h f b, Grid.snapDown_greatest g h f b, hexact⟩, ?_, ?_⟩
  · intro hq hr
    rw [Binary32.snapUp_eq_exact g h f b hq hr, Binary32.snapDown_eq_exact g h f b hq hr]
    exact ⟨Grid.snapUp_least g h f b, Grid.snapDown_greatest g h f b, hexact⟩
  · intro hq hr
    exact Binary32.snapUp_snapDown_large g h f b hq hr

/-- Witness for C4 as amended: grid size 2 (spacing 4) at the grid line `f = 8`, in exact
arithmetic and in binary32; and at `f = 2 ^ 26`, which is `2 ^ 24` increments. -/
theorem snapUp_snapDown_next_grid_line_witness :
    (8 : ℚ) = ((2 : ℤ) : ℚ) * ((Grid.mk 2 true).actualSize : ℚ) ∧
    ((Grid.mk 2 true).snapUp 8 true = 8 + ((Grid.mk 2 true).actualSize : ℚ) ∧
      (Grid.mk 2 true).snapDown 8 true = 8 - ((Grid.mk 2 true).actualSize : ℚ)) ∧
    (Binary32.snapUp (Grid.mk 2 true) 8 true = 8 + ((Grid.mk 2 true).actualSize : ℚ) ∧
      Binary32.snapDown (Grid.mk 2 true) 8 true = 8 - ((Grid.mk 2 true).actualSize : ℚ)) ∧
    Binary32.snapUp (Grid.mk 2 true) (2 ^ 26) true
      = Binary32.rnd (2 ^ 26 + ((Grid.mk 2 true).actualSize : ℚ)) :=
  have hk : (8 : ℚ) = ((2 : ℤ) : ℚ) * ((Grid.mk 2 true).actualSize : ℚ) := by decide!
  ⟨hk, (snapUp_snapDown_next_grid_line (Grid.mk 2 true) (by decide) 8 true).1.2.2 2 hk,
   ((snapUp_snapDown_next_grid_line (Grid.mk 2 true) (by decide) 8 true).2.1 (by decide!)
     (by decide!)).2.2 2 hk,
   ((snapUp_snapDown_next_grid_line (Grid.mk 2 true) (by decide) (2 ^ 26) true).2.2 (by decide!)
     (by decide!)).2.1⟩

/-- Counterexample to C4 as stated, in binary32. On the unit grid at `f = 2 ^ 24`, a grid line,
`snapUp f` is `f` and not `f + 1`: it is not strictly greater than `f`. On the grid of spacing 4
at `f = 2 ^ 26`, a grid line, `snapUp f` is `f` and not `f + 4`. On the unit grid at
`f = 2 ^ 24 + 2`, a grid line, `snapUp f` is `f + 2`: it skips the multiple `f + 1`. -/
theorem snapUp_not_next_multiple_counterexample :
    (Binary32.snapUp (Grid.mk 0 true) (2 ^ 24) true = 2 ^ 24 ∧
      Binary32.snapUp (Grid.mk 0 true) (2 ^ 24) true
        ≠ 2 ^ 24 + ((Grid.mk 0 true).actualSize : ℚ)) ∧
    ((2 ^ 26 : ℚ) = ((2 ^ 24 : ℤ) : ℚ) * ((Grid.mk 2 true).actualSize : ℚ) ∧
      Binary32.snapUp (Grid.mk 2 true) (2 ^ 26) true = 2 ^ 26 ∧
      Binary32.snapUp (Grid.mk 2 true) (2 ^ 26) true
        ≠ 2 ^ 26 + ((Grid.mk 2 true).actualSize : ℚ)) ∧
    (Binary32.rnd (2 ^ 24 + 2) = 2 ^ 24 + 2 ∧
      Binary32.snapUp (Grid.mk 0 true) (2 ^ 24 + 2) true = 2 ^ 24 + 4 ∧
      (2 ^ 24 + 2 : ℚ) < ((2 ^ 24 + 3 : ℤ) : ℚ) * ((Grid.mk 0 true).actualSize : ℚ) ∧
      ¬ (Binary32.snapUp (Grid.mk 0 true) (2 ^ 24 + 2) true
        ≤ ((2 ^ 24 + 3 : ℤ) : ℚ) * ((Grid.mk 0 true).actualSize : ℚ))) := by
  decide!

/-- The premise of C3 and C4 on the quotient is needed in binary32. On the grid of spacing 2 the
smallest positive `float` `f = 2 ^ (-149)` has the quotient `f / 2 = 2 ^ (-150)`, which rounds
to 0; `s` is 0, different from `f`, and `snapUp f` is 0, below `f`. -/
theorem snapUp_below_argument_on_underflow :
    Binary32.rnd (1 / 2 ^ 149) = 1 / 2 ^ 149 ∧
    Binary32.rnd ((1 / 2 ^ 149) / ((Grid.mk 1 true).actualSize : ℚ)) = 0 ∧
    Binary32.snapUp (Grid.mk 1 true) (1 / 2 ^ 149) true = 0 ∧
    Binary32.snapUp (Grid.mk 1 true) (1 / 2 ^ 149) true < 1 / 2 ^ 149 := by
  decide!

/-! ## Grid-ray intersection: the sign of the result -/

/-- C8, as amended. For a grid with `m_size < 31`, every ray and every skip count, with
`Plane::intersectWithRay` returning NaN for a parallel ray and for an intersection behind the
origin: in exact arithmetic `intersectWithRay` returns NaN or a strictly positive distance; in
binary32 it returns NaN or a distance that is not negative. -/
theorem intersectWithRay_never_negative (g : Grid) (h : g.m_size < 31) (ray : Ray) (skip : Nat) :
    (g.intersectWithRay ray skip = none ∨
      ∃ t, g.intersectWithRay ray skip = some t ∧ 0 < t) ∧
    (Binary32.intersectWithRay g ray skip = none ∨
      ∃ t, Binary32.intersectWithRay g ray skip = some t ∧ 0 ≤ t) := by
  constructor
  · rcases hr : g.intersectWithRay ray skip with _ | t
    · exact Or.inl rfl
    · obtain ⟨⟨j, hj⟩, _⟩ := (Grid.intersectWithRay_spec g h ray skip).2 t hr
      exact Or.inr ⟨t, rfl, Grid.axisDist_pos g h _ _ skip t hj⟩
  · rcases hr : Binary32.intersectWithRay g ray skip with _ | t
    · exact Or.inl rfl
    · exact Or.inr ⟨t, rfl, Binary32.intersectWithRay_nonneg g ray skip t hr⟩

/-- Witness for C8 as amended: grid size 2, a ray pointing backwards along X and Z, skip
count 3. -/
theorem intersectWithRay_never_negative_witness :
    ((Grid.mk 2 true).intersectWithRay
        (Ray.mk (Vec3f.mk 5 (-7) (1 / 3)) (Vec3f.mk (-1) 0 (-2))) 3 = none ∨
      ∃ t, (Grid.mk 2 true).intersectWithRay
        (Ray.mk (Vec3f.mk 5 (-7) (1 / 3)) (Vec3f.mk (-1) 0 (-2))) 3 = some t ∧ 0 < t) ∧
    (Binary32.intersectWithRay (Grid.mk 2 true)
        (Ray.mk (Vec3f.mk 5 (-7) (1 / 3)) (Vec3f.mk (-1) 0 (-2))) 3 = none ∨
      ∃ t, Binary32.intersectWithRay (Grid.mk 2 true)
        (Ray.mk (Vec3f.mk 5 (-7) (1 / 3)) (Vec3f.mk (-1) 0 (-2))) 3 = some t ∧ 0 ≤ t) :=
  intersectWithRay_never_negative (Grid.mk 2 true) (by decide)
    (Ray.mk (Vec3f.mk 5 (-7) (1 / 3)) (Vec3f.mk (-1) 0 (-2))) 3

/-- Counterexample to C8 as stated, in binary32. On the unit grid, for the ray from
`(2 ^ 24, 0, 0)` along `+X`: `snapUp(origin.x)` rounds back to `2 ^ 24`, the x coordinate of
`planeAnchor` is `2 ^ 24` at the skip counts 0 and 1, and `intersectWithRay` returns the
distance 0, which is neither NaN nor strictly positive. -/
theorem intersectWithRay_zero_counterexample :
    (Binary32.planeAnchor (Grid.mk 0 true)
      (Ray.mk (Vec3f.mk (2 ^ 24) 0 0) (Vec3f.mk 1 0 0)) 0).x = 2 ^ 24 ∧
    Binary32.intersectWithRay (Grid.mk 0 true)
      (Ray.mk (Vec3f.mk (2 ^ 24) 0 0) (Vec3f.mk 1 0 0)) 0 = some 0 ∧
    (Binary32.planeAnchor (Grid.mk 0 true)
      (Ray.mk (Vec3f.mk (2 ^ 24) 0 0) (Vec3f.mk 1 0 0)) 1).x = 2 ^ 24 ∧
    Binary32.intersectWithRay (Grid.mk 0 true)
      (Ray.mk (Vec3f.mk (2 ^ 24) 0 0) (Vec3f.mk 1 0 0)) 1 = some 0 ∧
    ¬ ((0 : ℚ) < 0) := by
  decide!

/-! ## Bounded move delta in binary32 -/

/-- Counterexample to C10 as stated, in binary32. On the grid of spacing 16, the box from
`(16 + 52 / 2 ^ 19, 0, 0)` (the `float` nearest to `16.0001`) to `(32, 16, 16)`, with the
reference point and the mouse point both at `(4096, 0, 0)`: the loop stores
`low = 16 - 16.0001 = -52 / 2 ^ 19` on the x axis; the sum `referencePoint + delta` rounds back
to `4096`, both squared lengths of the overshoot test are 0, and the delta is returned as it is,
not as the null vector. -/
theorem moveDelta_same_point_not_null_counterexample :
    Binary32.rnd (16 + 1 / 10000) = 16 + 52 / 2 ^ 19 ∧
    Binary32.moveDeltaSnapped (Grid.mk 4 true)
      (BBox.mk (Vec3f.mk (16 + 52 / 2 ^ 19) 0 0) (Vec3f.mk 32 16 16))
      (Vec3f.mk 4096 0 0) (Vec3f.mk 4096 0 0) = Vec3f.mk (-(52 / 2 ^ 19)) 0 0 ∧
    Binary32.add (Vec3f.mk 4096 0 0) (Vec3f.mk (-(52 / 2 ^ 19)) 0 0) = Vec3f.mk 4096 0 0 ∧
    Binary32.moveDelta (Grid.mk 4 true)
      (BBox.mk (Vec3f.mk (16 + 52 / 2 ^ 19) 0 0) (Vec3f.mk 32 16 16))
      (BBox.mk (Vec3f.mk 0 0 0) (Vec3f.mk 0 0 0))
      (Vec3f.mk 4096 0 0) (Vec3f.mk 4096 0 0) = Vec3f.mk (-(52 / 2 ^ 19)) 0 0 ∧
    Binary32.moveDelta (Grid.mk 4 true)
      (BBox.mk (Vec3f.mk (16 + 52 / 2 ^ 19) 0 0) (Vec3f.mk 32 16 16))
      (BBox.mk (Vec3f.mk 0 0 0) (Vec3f.mk 0 0 0))
      (Vec3f.mk 4096 0 0) (Vec3f.mk 4096 0 0) ≠ Vec3f.Null := by
  decide!

/-- Counterexample to C11 as stated, in binary32, at the same box and points. The delta
`d = (-52 / 2 ^ 19, 0, 0)` that `moveDelta` returns leaves the box farther from the pointer than
staying still, `|cur - (ref + d)|² = (52 / 2 ^ 19)² > 0 = |cur - ref|²`; it is the snapped
per-axis delta, which violates the inequality and is not replaced by the null vector, because
the test compares the rounded squared lengths, both 0. -/
theorem moveDelta_overshoot_kept_counterexample :
    Binary32.moveDelta (Grid.mk 4 true)
      (BBox.mk (Vec3f.mk (16 + 52 / 2 ^ 19) 0 0) (Vec3f.mk 32 16 16))
      (BBox.mk (Vec3f.mk 0 0 0) (Vec3f.mk 0 0 0))
      (Vec3f.mk 4096 0 0) (Vec3f.mk 4096 0 0)
      = Binary32.moveDeltaSnapped (Grid.mk 4 true)
          (BBox.mk (Vec3f.mk (16 + 52 / 2 ^ 19) 0 0) (Vec3f.mk 32 16 16))
          (Vec3f.mk 4096 0 0) (Vec3f.mk 4096 0 0) ∧
    ¬ (((Vec3f.mk 4096 0 0).sub ((Vec3f.mk 4096 0 0).add
        (Binary32.moveDelta (Grid.mk 4 true)
          (BBox.mk (Vec3f.mk (16 + 52 / 2 ^ 19) 0 0) (Vec3f.mk 32 16 16))
          (BBox.mk (Vec3f.mk 0 0 0) (Vec3f.mk 0 0 0))
          (Vec3f.mk 4096 0 0) (Vec3f.mk 4096 0 0)))).lengthSquared
      ≤ ((Vec3f.mk 4096 0 0).sub (Vec3f.mk 4096 0 0)).lengthSquared) ∧
    Binary32.lengthSquared (Binary32.sub (Vec3f.mk 4096 0 0) (Vec3f.mk 4096 0 0)) = 0 ∧
    Binary32.lengthSquared (Binary32.sub (Vec3f.mk 4096 0 0)
      (Binary32.add (Vec3f.mk 4096 0 0)
        (Binary32.moveDeltaSnapped (Grid.mk 4 true)
          (BBox.mk (Vec3f.mk (16 + 52 / 2 ^ 19) 0 0) (Vec3f.mk 32 16 16))
          (Vec3f.mk 4096 0 0) (Vec3f.mk 4096 0 0)))) = 0 ∧
    Binary32.moveDelta (Grid.mk 4 true)
      (BBox.mk (Vec3f.mk (16 + 52 / 2 ^ 19) 0 0) (Vec3f.mk 32 16 16))
      (BBox.mk (Vec3f.mk 0 0 0) (Vec3f.mk 0 0 0))
      (Vec3f.mk 4096 0 0) (Vec3f.mk 4096 0 0) ≠ Vec3f.Null := by
  decide!

namespace Grid

/-- From a coordinate on a grid line, the axis distance is one increment plus the skip offset,
divided by the magnitude of the direction component. -/
lemma axisDist_grid_origin (g : Grid) (h : g.m_size < 31) (o d : ℚ) (skip : Nat)
    (hgrid : ∃ m : ℤ, o = (m : ℚ) * (g.actualSize : ℚ)) (hd : Math.AlmostZero < |d|) :
    g.axisDist o d skip = some (((g.actualSize : ℚ) + (g.skipOffset skip : ℚ)) / |d|) := by
  obtain ⟨m, hm⟩ := hgrid
  obtain ⟨hu, hdn⟩ := snapUp_snapDown_on_grid g h o true m hm
  have hε := almostZero_pos
  have hne : d ≠ 0 := by
    rintro rfl
    rw [abs_zero] at hd
    exact lt_irrefl _ (lt_trans hε hd)
  unfold axisDist anchorCoord
  rw [if_neg (not_le.mpr hd)]
  by_cases hpos : 0 < d
  · rw [if_pos hpos, hu, abs_of_pos hpos]
    congr 2
    ring
  · have hneg : d < 0 := lt_of_le_of_ne (not_lt.mp hpos) hne
    rw [if_neg hpos, hdn, abs_of_neg hneg]
    congr 1
    rw [div_neg, ← neg_div]
    congr 1
    ring

/-- A ray whose origin is on a grid line of every axis that the ray crosses, and whose direction
components are at most 1 in magnitude, one of them beyond epsilon, meets the grid at a distance
of at least one increment, below `1000 * (2 ^ 31 + 2 ^ 32)`. -/
lemma intersectWithRay_grid_origin (g : Grid) (h : g.m_size < 31) (ray : Ray) (skip : Nat)
    (hgrid : ∀ i : Fin 3, Math.AlmostZero < |ray.direction.get i.val| →
      ∃ m : ℤ, ray.origin.get i.val = (m : ℚ) * (g.actualSize : ℚ))
    (hcomp : ∀ i : Fin 3, |ray.direction.get i.val| ≤ 1)
    (hmeet : ∃ i : Fin 3, Math.AlmostZero < |ray.direction.get i.val|) :
    ∃ t, g.intersectWithRay ray skip = some t ∧ (g.actualSize : ℚ) ≤ t ∧
      t < 1000 * (2 ^ 31 + 2 ^ 32) := by
  obtain ⟨hnone, hsome⟩ := intersectWithRay_spec g h ray skip
  obtain ⟨b1, _⟩ := axis_step_bounds g h skip
  have ha := actualSize_cast_pos g h
  have hoff : (g.skipOffset skip : ℚ) < 2 ^ 32 := by exact_mod_cast skipOffset_lt g skip
  have hsz : (g.actualSize : ℚ) < 2 ^ 31 := by exact_mod_cast (actualSize_bounds g h).2
  rcases hr : g.intersectWithRay ray skip with _ | t
  · obtain ⟨i, hi⟩ := hmeet
    obtain ⟨v, hv⟩ := axisDist_isSome g (ray.origin.get i.val) _ skip hi
    rw [hnone hr i] at hv
    cases hv
  · obtain ⟨⟨j, hj⟩, _⟩ := hsome t hr
    have hcross := axisDist_crossed g _ _ skip t hj
    rw [axisDist_grid_origin g h _ _ skip (hgrid j hcross) hcross] at hj
    have hdpos : 0 < |ray.direction.get j.val| := lt_trans almostZero_pos hcross
    simp only [Option.some.injEq] at hj
    refine ⟨t, rfl, ?_, ?_⟩
    · rw [← hj, le_div_iff₀ hdpos]
      have := hcomp j
      nlinarith
    · rw [← hj, div_lt_iff₀ hdpos]
      have hε : (1 : ℚ) / 1000 < |ray.direction.get j.val| := by
        have := hcross
        unfold Math.AlmostZero at this
        exact this
      nlinarith

lemma wrapInt32_of_range (x : Int) (h0 : 0 ≤ x) (h1 : x < 2 ^ 31) : wrapInt32 x = x := by
  unfold wrapInt32 toUInt32 toInt32 wordBits
  have e1 : x % (2 ^ 32 : Int) = x := Int.emod_eq_of_lt h0 (by omega)
  rw [e1]
  have e2 : x.toNat % 2 ^ 32 = x.toNat := Nat.mod_eq_of_lt (by omega)
  rw [e2]
  rw [if_pos (by omega)]
  omega

lemma toUInt32_of_range (x : Int) (h0 : 0 ≤ x) (h1 : x < 2 ^ 32) : toUInt32 x = x.toNat := by
  unfold toUInt32 wordBits
  rw [Int.emod_eq_of_lt h0 (by omega)]

lemma skipAfter_eq : ∀ (k : Nat) (s : Int), 0 ≤ s → s + k < 2 ^ 31 →
    skipAfter k s = s + k := by
  intro k
  induction k with
  | zero => intro s _ _; simp [skipAfter]
  | succ k ih =>
    intro s h0 h1
    rw [skipAfter, wrapInt32_of_range (s + 1) (by omega) (by push_cast at h1; omega)]
    rw [ih (s + 1) (by omega) (by push_cast at h1 ⊢; omega)]
    push_cast
    ring

/-- Every ray is probed in every pass, the ray at position `j` after `j` increments of the
skip count. -/
lemma passCandidates_index (g : Grid) (face : Face) :
    ∀ (rays : List Ray) (s : Int) (ray : Ray), ray ∈ rays →
    ∃ j : Nat, j < rays.length ∧
      g.vertexNormDist face ray (skipAfter j s) ∈ passCandidates g face rays s := by
  intro rays
  induction rays with
  | nil => intro s ray hr; simp at hr
  | cons r0 rest ih =>
    intro s ray hr
    rw [List.mem_cons] at hr
    rcases hr with hr | hr
    · exact ⟨0, by simp, by rw [passCandidates, hr]; exact List.mem_cons_self _ _⟩
    · obtain ⟨j, hj, hk⟩ := ih (wrapInt32 (s + 1)) ray hr
      exact ⟨j + 1, by simp; omega, by
        rw [passCandidates, skipAfter]
        exact List.mem_cons_of_mem _ hk⟩

lemma initialGridSkip_nonneg (g : Grid) (v : Vec3f) : 0 ≤ g.initialGridSkip v := by
  unfold initialGridSkip Math.imax
  split_ifs with hlt
  · exact hlt.le
  · exact le_refl _

/-- A ray whose direction components are at most 1 in magnitude, one of them beyond epsilon,
meets the grid beyond the skip offset, below `1000 * (2 ^ 31 + 2 ^ 32)`. -/
lemma intersectWithRay_beyond_offset (g : Grid) (h : g.m_size < 31) (ray : Ray) (skip : Nat)
    (hcomp : ∀ i : Fin 3, |ray.direction.get i.val| ≤ 1)
    (hmeet : ∃ i : Fin 3, Math.AlmostZero < |ray.direction.get i.val|) :
    ∃ t, g.intersectWithRay ray skip = some t ∧ (g.skipOffset skip : ℚ) < t ∧
      t < 1000 * (2 ^ 31 + 2 ^ 32) := by
  obtain ⟨hnone, hsome⟩ := intersectWithRay_spec g h ray skip
  have ha := actualSize_cast_pos g h
  have hoff : (g.skipOffset skip : ℚ) < 2 ^ 32 := by exact_mod_cast skipOffset_lt g skip
  have hoff0 : (0 : ℚ) ≤ (g.skipOffset skip : ℚ) := Nat.cast_nonneg _
  have hsz : (g.actualSize : ℚ) < 2 ^ 31 := by exact_mod_cast (actualSize_bounds g h).2
  rcases hr : g.intersectWithRay ray skip with _ | t
  · obtain ⟨i, hi⟩ := hmeet
    obtain ⟨v, hv⟩ := axisDist_isSome g (ray.origin.get i.val) _ skip hi
    rw [hnone hr i] at hv
    cases hv
  · obtain ⟨⟨j, hj⟩, _⟩ := hsome t hr
    have hcross := axisDist_crossed g _ _ skip t hj
    have hdpos : 0 < |ray.direction.get j.val| := lt_trans almostZero_pos hcross
    have hε : (1 : ℚ) / 1000 < |ray.direction.get j.val| := by
      have := hcross
      unfold Math.AlmostZero at this
      exact this
    have hc1 := hcomp j
    unfold axisDist at hj
    rw [if_neg (not_le.mpr hcross)] at hj
    simp only [Option.some.injEq] at hj
    obtain ⟨_, u1, u2⟩ := snapUp_least g h (ray.origin.get j.val) true
    obtain ⟨_, d1, d2⟩ := snapDown_greatest g h (ray.origin.get j.val) true
    -- the next grid line is at most one increment away
    have hup : g.snapUp (ray.origin.get j.val) true ≤ ray.origin.get j.val + (g.actualSize : ℚ) := by
      have hm := u2 (⌊ray.origin.get j.val / (g.actualSize : ℚ)⌋ + 1) (by
        have := Int.lt_floor_add_one (ray.origin.get j.val / (g.actualSize : ℚ))
        rw [div_lt_iff₀ ha] at this
        push_cast
        exact this)
      have hf := Int.floor_le (ray.origin.get j.val / (g.actualSize : ℚ))
      rw [le_div_iff₀ ha] at hf
      push_cast at hm
      linarith
    have hdown : ray.origin.get j.val - (g.actualSize : ℚ) ≤ g.snapDown (ray.origin.get j.val) true := by
      have hm := d2 (⌈ray.origin.get j.val / (g.actualSize : ℚ)⌉ - 1) (by
        have := Int.ceil_lt_add_one (ray.origin.get j.val / (g.actualSize : ℚ))
        have h2 : ((⌈ray.origin.get j.val / (g.actualSize : ℚ)⌉ : ℤ) : ℚ) - 1
            < ray.origin.get j.val / (g.actualSize : ℚ) := by linarith
        rw [lt_div_iff₀ ha] at h2
        push_cast
        exact h2)
      have hc := Int.le_ceil (ray.origin.get j.val / (g.actualSize : ℚ))
      rw [div_le_iff₀ ha] at hc
      push_cast at hm
      linarith
    refine ⟨t, rfl, ?_, ?_⟩
    · rw [← hj]
      unfold anchorCoord
      by_cases hpos : 0 < ray.direction.get j.val
      · rw [if_pos hpos, lt_div_iff₀ hpos]
        rw [abs_of_pos hpos] at hc1
        nlinarith
      · have hneg : ray.direction.get j.val < 0 := by
          rcases lt_or_eq_of_le (not_lt.mp hpos) with hlt | heq
          · exact hlt
          · rw [heq, abs_zero] at hdpos
            exact absurd hdpos (lt_irrefl _)
        rw [if_neg hpos, lt_div_iff_of_neg hneg]
        rw [abs_of_neg hneg] at hc1
        nlinarith
    · rw [← hj]
      unfold anchorCoord
      by_cases hpos : 0 < ray.direction.get j.val
      · rw [if_pos hpos, div_lt_iff₀ hpos]
        rw [abs_of_pos hpos] at hε
        nlinarith
      · have hneg : ray.direction.get j.val < 0 := by
          rcases lt_or_eq_of_le (not_lt.mp hpos) with hlt | heq
          · exact hlt
          · rw [heq, abs_zero] at hdpos
            exact absurd hdpos (lt_irrefl _)
        rw [if_neg hpos, div_lt_iff_of_neg hneg]
        rw [abs_of_neg hneg] at hε
        nlinarith

end Grid

/-- A trial move of a square sample face by at least epsilon changes its boundary, in the
helpers as the spec describes them. -/
lemma specHelpers_squareFace_changes (far : Nat → Vec3f) (d : ℚ)
    (hd : Math.AlmostZero ≤ |d|) :
    specHelpers.boundaryChanges (squareFaceOver far) d = true := by
  have hε : ¬ |d| < Math.AlmostZero := not_lt.mpr hd
  simp [specHelpers, Face.movedBoundary, Plane.equals, Plane.ofAnchor, Plane.anchor,
    squareFaceOver, Vec3f.PosZ, Vec3f.scale, Vec3f.add, Vec3f.dot, Math.feq, hε]

/-! ## Termination of the face-drag search -/

/-- C20, as amended. For a grid with `m_size < 31`, every face and every delta not
perpendicular to the face normal. Take an edge ray that is not perpendicular to the face normal
(`|direction · normal|` beyond `AlmostZero` and at most 1) and whose direction components are
at most 1 in magnitude, one of them beyond `AlmostZero`; and let every trial move by a distance
of magnitude at least `AlmostZero`, below the sentinel, change the boundary. First, if the ray
starts at a vertex that is on a grid line of every axis the ray crosses, `moveDistance` returns
in the first pass of the search. Second, wherever the ray starts, `moveDistance` returns within
two passes, as long as the skip counts of two passes stay small:
`(gridSkip + 2 * edgeRays.size()) * actualSize() < 2 ^ 31` for the initial `gridSkip`. Third,
`moveDistance` returns for no number of passes when every edge ray is perpendicular to the face
normal and a trial move by 0 leaves the boundary unchanged. Fourth, in general: when some pass
`p` holds a candidate that passes the test of the loop body, `moveDistance` returns once it is
given more than `p` passes, and when no pass holds one it returns for no number of passes. -/
theorem moveDistance_returns_of_crossing_ray (ops : Helpers) (g : Grid) (h : g.m_size < 31)
    (face : Face) (delta : Vec3f)
    (hz : ¬ |delta.dot face.boundary.normal| ≤ Math.AlmostZero) :
    ((∃ ray ∈ Grid.edgeRays ops face (delta.dot face.boundary.normal),
        Math.AlmostZero < |ray.direction.dot face.boundary.normal| ∧
        |ray.direction.dot face.boundary.normal| ≤ 1 ∧
        (∀ i : Fin 3, |ray.direction.get i.val| ≤ 1) ∧
        (∃ i : Fin 3, Math.AlmostZero < |ray.direction.get i.val|) ∧
        (∀ i : Fin 3, Math.AlmostZero < |ray.direction.get i.val| →
          ∃ m : ℤ, ray.origin.get i.val = (m : ℚ) * (g.actualSize : ℚ))) →
      (∀ c : ℚ, Math.AlmostZero ≤ |c| → |c| < floatMax → ops.boundaryChanges face c = true) →
      ∀ fuel, 0 < fuel → ∃ res, g.moveDistance ops face delta fuel = some res) ∧
    ((∃ ray ∈ Grid.edgeRays ops face (delta.dot face.boundary.normal),
        Math.AlmostZero < |ray.direction.dot face.boundary.normal| ∧
        |ray.direction.dot face.boundary.normal| ≤ 1 ∧
        (∀ i : Fin 3, |ray.direction.get i.val| ≤ 1) ∧
        (∃ i : Fin 3, Math.AlmostZero < |ray.direction.get i.val|)) →
      (∀ c : ℚ, Math.AlmostZero ≤ |c| → |c| < floatMax → ops.boundaryChanges face c = true) →
      (g.initialGridSkip (face.boundary.normal.scale (delta.dot face.boundary.normal))
        + 2 * ((Grid.edgeRays ops face (delta.dot face.boundary.normal)).length : ℤ))
        * (g.actualSize : ℤ) < 2 ^ 31 →
      ∀ fuel, 1 < fuel → ∃ res, g.moveDistance ops face delta fuel = some res) ∧
    ((∀ ray ∈ Grid.edgeRays ops face (delta.dot face.boundary.normal),
        ray.direction.dot face.boundary.normal = 0) →
      ops.boundaryChanges face 0 = false →
      ∀ fuel, g.moveDistance ops face delta fuel = none) ∧
    (∀ p c,
      some c ∈ Grid.passCandidates g face
        (Grid.edgeRays ops face (delta.dot face.boundary.normal))
        (Grid.passStart (Grid.edgeRays ops face (delta.dot face.boundary.normal))
          (g.initialGridSkip (face.boundary.normal.scale (delta.dot face.boundary.normal)))
          p) →
      Grid.Accepts ops face c →
      ∀ fuel, p < fuel → ∃ res, g.moveDistance ops face delta fuel = some res) ∧
    ((∀ p c,
      some c ∈ Grid.passCandidates g face
        (Grid.edgeRays ops face (delta.dot face.boundary.normal))
        (Grid.passStart (Grid.edgeRays ops face (delta.dot face.boundary.normal))
          (g.initialGridSkip (face.boundary.normal.scale (delta.dot face.boundary.normal)))
          p) →
      ¬ Grid.Accepts ops face c) →
      ∀ fuel, g.moveDistance ops face delta fuel = none) := by
  have hret : ∀ p c,
      some c ∈ Grid.passCandidates g face
        (Grid.edgeRays ops face (delta.dot face.boundary.normal))
        (Grid.passStart (Grid.edgeRays ops face (delta.dot face.boundary.normal))
          (g.initialGridSkip (face.boundary.normal.scale (delta.dot face.boundary.normal)))
          p) →
      Grid.Accepts ops face c →
      ∀ fuel, p < fuel → ∃ res, g.moveDistance ops face delta fuel = some res := by
    intro p c hc hacc fuel hf
    obtain ⟨r, hr⟩ := Grid.searchLoop_terminates ops g face _ p _ c hc hacc fuel hf
    rw [Grid.moveDistance_of_search ops g face delta fuel r hz hr]
    split_ifs
    · exact ⟨_, rfl⟩
    · exact ⟨_, rfl⟩
  have hone_le : (1 : ℚ) ≤ (g.actualSize : ℚ) := by
    exact_mod_cast (Grid.actualSize_bounds g h).1
  -- a distance of at least one increment, below the bound, gives a candidate that is accepted
  have hacc : ∀ (ray : Ray) (t : ℚ),
      Math.AlmostZero < |ray.direction.dot face.boundary.normal| →
      |ray.direction.dot face.boundary.normal| ≤ 1 →
      (∀ c : ℚ, Math.AlmostZero ≤ |c| → |c| < floatMax → ops.boundaryChanges face c = true) →
      (g.actualSize : ℚ) ≤ t → t < 1000 * (2 ^ 31 + 2 ^ 32) →
      Grid.Accepts ops face (t * ray.direction.dot face.boundary.normal) := by
    intro ray t hnp hone hchg hlo hhi
    have htpos : 0 < t := by linarith
    have habs : |t * ray.direction.dot face.boundary.normal|
        = t * |ray.direction.dot face.boundary.normal| := by
      rw [abs_mul, abs_of_pos htpos]
    have hlt : |t * ray.direction.dot face.boundary.normal| < floatMax := by
      rw [habs]
      have : (1000 : ℚ) * (2 ^ 31 + 2 ^ 32) < floatMax := by unfold floatMax; norm_num
      have hnn : 0 ≤ |ray.direction.dot face.boundary.normal| := abs_nonneg _
      nlinarith
    refine ⟨hlt, hchg _ ?_ hlt⟩
    rw [habs]
    have hε := Grid.almostZero_pos
    nlinarith
  have hvnd : ∀ (ray : Ray) (k : Int) (t : ℚ), g.intersectWithRay ray (toUInt32 k) = some t →
      g.vertexNormDist face ray k = some (t * ray.direction.dot face.boundary.normal) := by
    intro ray k t ht
    unfold Grid.vertexNormDist
    rw [ht]
    simp only [Option.map_some', Option.some.injEq]
    exact Grid.dot_scale_left _ _ _
  refine ⟨?_, ?_, ?_, hret, ?_⟩
  · rintro ⟨ray, hray, hnp, hone, hcomp, hmeet, hgrid⟩ hchg fuel hfuel
    obtain ⟨k, hk⟩ := Grid.passCandidates_of_mem g face _
      (g.initialGridSkip (face.boundary.normal.scale (delta.dot face.boundary.normal)))
      ray hray
    obtain ⟨t, ht, hlo, hhi⟩ := Grid.intersectWithRay_grid_origin g h ray (toUInt32 k)
      hgrid hcomp hmeet
    rw [hvnd ray k t ht] at hk
    exact hret 0 _ hk (hacc ray t hnp hone hchg hlo hhi) fuel hfuel
  · rintro ⟨ray, hray, hnp, hone, hcomp, hmeet⟩ hchg hsmall fuel hfuel
    obtain ⟨a1, a2⟩ := Grid.actualSize_bounds g h
    have hinit := Grid.initialGridSkip_nonneg g
      (face.boundary.normal.scale (delta.dot face.boundary.normal))
    generalize g.initialGridSkip (face.boundary.normal.scale (delta.dot face.boundary.normal))
      = init at hsmall hinit hret ⊢
    generalize hrays : Grid.edgeRays ops face (delta.dot face.boundary.normal) = rays
      at hray hsmall hret ⊢
    have hL : 1 ≤ rays.length := List.length_pos_of_mem hray
    have ha1 : (1 : ℤ) ≤ (g.actualSize : ℤ) := by exact_mod_cast a1
    have hsum : init + 2 * (rays.length : ℤ) < 2 ^ 31 := by
      have h0 : 0 ≤ init + 2 * (rays.length : ℤ) := by positivity
      nlinarith
    obtain ⟨j, hj, hk⟩ := Grid.passCandidates_index g face rays (Grid.passStart rays init 1)
      ray hray
    have hstart : Grid.passStart rays init 1 = init + (rays.length : ℤ) := by
      simp only [Grid.passStart]
      exact Grid.skipAfter_eq rays.length init hinit (by omega)
    rw [hstart, Grid.skipAfter_eq j _ (by omega) (by omega)] at hk
    obtain ⟨s, hs⟩ : ∃ s : ℕ, init + (rays.length : ℤ) + (j : ℤ) = (s : ℤ) :=
      ⟨(init + (rays.length : ℤ) + (j : ℤ)).toNat, by omega⟩
    have hs1 : 1 ≤ s := by omega
    have hs2 : (s : ℤ) < init + 2 * (rays.length : ℤ) := by omega
    have hsa : s * g.actualSize < 2 ^ 31 := by
      have : (s : ℤ) * (g.actualSize : ℤ) < 2 ^ 31 := by nlinarith
      exact_mod_cast this
    have hu : toUInt32 (init + (rays.length : ℤ) + (j : ℤ)) = s := by
      rw [Grid.toUInt32_of_range _ (by omega) (by omega), hs]
      simp
    obtain ⟨t, ht, hlo, hhi⟩ := Grid.intersectWithRay_beyond_offset g h ray s hcomp hmeet
    have hoff : (g.actualSize : ℚ) ≤ (g.skipOffset s : ℚ) := by
      rw [Grid.skipOffset_of_lt g s (by omega)]
      have : g.actualSize ≤ s * g.actualSize := Nat.le_mul_of_pos_left _ hs1
      exact_mod_cast this
    have hv := hvnd ray (init + (rays.length : ℤ) + (j : ℤ)) t (by rw [hu]; exact ht)
    rw [hv, ← hstart] at hk
    exact hret 1 _ hk (hacc ray t hnp hone hchg (by linarith) hhi) fuel hfuel
  · intro hperp h0 fuel
    exact Grid.moveDistance_diverges_of_perp ops g face delta hz hperp h0 fuel
  · intro hno fuel
    exact Grid.moveDistance_of_search_none ops g face delta fuel hz
      (Grid.searchLoop_diverges ops g face _ fuel _ hno)

/-- Witness for C20 as amended: on the grid of spacing 4, the frustum top face dragged by
`(0, 0, 3)`. The edge ray from the corner `(0, 0, 0)` runs along `(2/3, 2/3, 1/3)`, with
`direction · normal = 1/3`; one pass is enough, and the skip counts of two passes stay
small. -/
theorem moveDistance_returns_of_crossing_ray_witness :
    Ray.mk (Vec3f.mk 0 0 0) (Vec3f.mk (2 / 3) (2 / 3) (1 / 3))
      ∈ Grid.edgeRays specHelpers frustumTop ((Vec3f.mk 0 0 3).dot frustumTop.boundary.normal) ∧
    (∃ res, (Grid.mk 2 true).moveDistance specHelpers frustumTop (Vec3f.mk 0 0 3) 1 = some res) ∧
    ∃ res, (Grid.mk 2 true).moveDistance specHelpers frustumTop (Vec3f.mk 0 0 3) 2 = some res :=
  have hmem : Ray.mk (Vec3f.mk 0 0 0) (Vec3f.mk (2 / 3) (2 / 3) (1 / 3))
      ∈ Grid.edgeRays specHelpers frustumTop
        ((Vec3f.mk 0 0 3).dot frustumTop.boundary.normal) := by decide!
  ⟨hmem, (moveDistance_returns_of_crossing_ray specHelpers (Grid.mk 2 true) (by decide)
    frustumTop (Vec3f.mk 0 0 3) (by decide!)).1
    ⟨Ray.mk (Vec3f.mk 0 0 0) (Vec3f.mk (2 / 3) (2 / 3) (1 / 3)), hmem,
      by decide!, by decide!,
      fun i => by fin_cases i <;> decide!,
      ⟨0, by decide!⟩,
      fun i _ => ⟨0, by fin_cases i <;> simp [Vec3f.get]⟩⟩
    (fun c hc _ => specHelpers_squareFace_changes _ c hc) 1 (by decide),
   (moveDistance_returns_of_crossing_ray specHelpers (Grid.mk 2 true) (by decide)
    frustumTop (Vec3f.mk 0 0 3) (by decide!)).2.1
    ⟨Ray.mk (Vec3f.mk 0 0 0) (Vec3f.mk (2 / 3) (2 / 3) (1 / 3)), hmem,
      by decide!, by decide!,
      fun i => by fin_cases i <;> decide!,
      ⟨0, by decide!⟩⟩
    (fun c hc _ => specHelpers_squareFace_changes _ c hc) (by decide!) 2 (by decide)⟩

/-! ## Face-drag distance without qualifying edges -/

end TrenchBroom
